import Mathlib

/-!
# webrtc_simple_example: observers and the negotiation driver

A shallow embedding of the five source files

* `sdp_observer.h` (`CreateSDPObserver`),
* `data_channel_observer.h` (`DataChannelObserver`),
* `simple_peer_connection_observer.h` (`SimplePeerConnectionObserver`),
* `local_signaling.h` (`LocalSignaling`),
* `main.cpp` (`main`).

The WebRTC engine is not part of the repository.  Its enumerations are declared
here with the enumerator names the source uses, its objects are represented by
the data the source reads from them, and everything the engine decides (which
callbacks it delivers and when, whether a factory call succeeds) is an input.
Console output is not modelled, except for the three values of the connection
summary.

A run of `main` keeps a record of what the driver did (requests, getter
evaluations, sleeps) and of the requests observers made inside callbacks; the
statements about `main` are statements about this record, the exit status and
the summary.

The two range-fors of `ExchangeICECandidates` walk the observers' live
candidate vectors.  A callback that stores a candidate in a vector while the
driver walks it invalidates the loop's iterators; the behaviour of the C++
program is undefined from there.  The embedding marks such a state
`invalidated`, stops there, and the run has no exit status.
-/

namespace WebrtcExample

/-! ## Engine types named by the source -/

/-- Identity of an engine data channel: what a non-null
`scoped_refptr<DataChannelInterface>` points to. -/
abbrev ChanId := Nat

/-- Enumeration `webrtc::DataChannelInterface::DataState`. -/
inductive DataState where
  | kConnecting
  | kOpen
  | kClosing
  | kClosed
  deriving DecidableEq, Repr

/-- Enumeration `webrtc::PeerConnectionInterface::PeerConnectionState`. -/
inductive PeerConnectionState where
  | kNew
  | kConnecting
  | kConnected
  | kDisconnected
  | kFailed
  | kClosed
  deriving DecidableEq, Repr

/-- Enumeration `webrtc::PeerConnectionInterface::IceConnectionState`. -/
inductive IceConnectionState where
  | kIceConnectionNew
  | kIceConnectionChecking
  | kIceConnectionConnected
  | kIceConnectionCompleted
  | kIceConnectionFailed
  | kIceConnectionDisconnected
  | kIceConnectionClosed
  deriving DecidableEq, Repr

/-- Enumeration `webrtc::PeerConnectionInterface::IceGatheringState`. -/
inductive IceGatheringState where
  | kIceGatheringNew
  | kIceGatheringGathering
  | kIceGatheringComplete
  deriving DecidableEq, Repr

/-- Enumeration `webrtc::PeerConnectionInterface::SignalingState`. -/
inductive SignalingState where
  | kStable
  | kHaveLocalOffer
  | kHaveLocalPrAnswer
  | kHaveRemoteOffer
  | kHaveRemotePrAnswer
  | kClosed
  deriving DecidableEq, Repr

/-- Enumeration `webrtc::SdpType`, the result of `GetType()`. -/
inductive SdpType where
  | kOffer
  | kPrAnswer
  | kAnswer
  | kRollback
  deriving DecidableEq, Repr

/-- A `webrtc::SessionDescriptionInterface` object: `addr` is the identity of
the instance (its address), `kind` is what `GetType()` returns and `body` is
the text `ToString` writes. -/
structure SessionDescription where
  addr : Nat
  kind : SdpType
  body : String
  deriving DecidableEq, Repr

/-- A `webrtc::IceCandidateInterface` object, by what the source reads from
it: `sdp_mid()`, `sdp_mline_index()` and the text `ToString` writes. -/
structure IceCandidate where
  sdp_mid : String
  sdp_mline_index : Int
  sdp : String
  deriving DecidableEq, Repr

/-- The two endpoints created by `main`: `pc1` (observed by `observer1`) and
`pc2` (observed by `observer2`). -/
inductive Peer where
  | pc1
  | pc2
  deriving DecidableEq, Repr

/-- Requests the program makes to the engine. -/
inductive EngineCall where
  | InitializeSSL
  | CleanupSSL
  | CreatePeerConnectionFactory
  | CreatePeerConnectionOrError (p : Peer)
  | CreateDataChannelOrError (p : Peer) (label : String)
  | RegisterObserver (c : ChanId)
  | Send (c : ChanId) (msg : String)
  | CreateOffer (p : Peer)
  | CreateAnswer (p : Peer)
  | SetLocalDescription (p : Peer) (desc : Option SessionDescription)
  | SetRemoteDescription (p : Peer) (desc : Option SessionDescription)
  | AddIceCandidate (p : Peer) (candidate : IceCandidate)
  deriving DecidableEq, Repr

/-! ## sdp_observer.h -/

/-- Class `CreateSDPObserver`: `created_sdp_` is a `unique_ptr` (null is
`none`), `success_` a plain `bool`. -/
structure CreateSDPObserver where
  created_sdp_ : Option SessionDescription
  success_ : Bool
  deriving DecidableEq, Repr

namespace CreateSDPObserver

/-- `CreateSDPObserver::Create()`: default member initialisers. -/
def Create : CreateSDPObserver :=
  { created_sdp_ := none, success_ := false }

/-- `OnSuccess(desc)`: `created_sdp_.reset(desc); success_ = true;`.  The
argument is dereferenced by the method, so it is never null. -/
def OnSuccess (o : CreateSDPObserver) (desc : SessionDescription) : CreateSDPObserver :=
  { o with created_sdp_ := some desc, success_ := true }

/-- `OnFailure(error)`: `success_ = false;`. -/
def OnFailure (o : CreateSDPObserver) (_error : String) : CreateSDPObserver :=
  { o with success_ := false }

/-- `TakeCreatedSDP()`: `return std::move(created_sdp_);`, which hands the
pointer out and leaves the member null. -/
def TakeCreatedSDP (o : CreateSDPObserver) : Option SessionDescription × CreateSDPObserver :=
  (o.created_sdp_, { o with created_sdp_ := none })

/-- `IsSuccessful()`. -/
def IsSuccessful (o : CreateSDPObserver) : Bool := o.success_

end CreateSDPObserver

/-- Class `SetSDPObserver`.  `main` creates four of them and never calls
`IsSuccessful()` on any. -/
structure SetSDPObserver where
  success_ : Bool
  deriving DecidableEq, Repr

namespace SetSDPObserver

/-- `SetSDPObserver::Create()`. -/
def Create : SetSDPObserver := { success_ := false }

/-- `OnSuccess()`: `success_ = true;`. -/
def OnSuccess (_o : SetSDPObserver) : SetSDPObserver := { success_ := true }

/-- `OnFailure(error)`: `success_ = false;`. -/
def OnFailure (_o : SetSDPObserver) (_error : String) : SetSDPObserver := { success_ := false }

/-- `IsSuccessful()`. -/
def IsSuccessful (o : SetSDPObserver) : Bool := o.success_

end SetSDPObserver

/-- The callbacks of `webrtc::CreateSessionDescriptionObserver`. -/
inductive SdpCallback where
  | OnSuccess (desc : SessionDescription)
  | OnFailure (error : String)
  deriving DecidableEq, Repr

/-- Deliver one engine callback to a `CreateSDPObserver`. -/
def SdpCallback.deliver (o : CreateSDPObserver) : SdpCallback → CreateSDPObserver
  | .OnSuccess desc => o.OnSuccess desc
  | .OnFailure error => o.OnFailure error

/-- What can happen to a `CreateSDPObserver` other than `OnSuccess`: the
engine reports a failure, or the driver takes the description. -/
inductive SdpOtherUse where
  | OnFailure (error : String)
  | TakeCreatedSDP
  deriving DecidableEq, Repr

/-- One `SdpOtherUse` applied to the observer. -/
def SdpOtherUse.apply (o : CreateSDPObserver) : SdpOtherUse → CreateSDPObserver
  | .OnFailure error => o.OnFailure error
  | .TakeCreatedSDP => o.TakeCreatedSDP.2

/-! ## data_channel_observer.h -/

/-- Class `DataChannelObserver`: `data_channel_` is a `scoped_refptr` (null
is `none`), `message_received_` an atomic flag. -/
structure DataChannelObserver where
  label_ : String
  data_channel_ : Option ChanId
  message_received_ : Bool
  deriving DecidableEq, Repr

namespace DataChannelObserver

/-- Constructor `DataChannelObserver(label)`. -/
def new (label : String) : DataChannelObserver :=
  { label_ := label, data_channel_ := none, message_received_ := false }

/-- `SendHelloMessage()`: when a channel is bound and `state()` is `kOpen`,
one `Send` of the greeting.  The result of `Send` only selects what is
printed.  `state` is the engine's answer to `data_channel_->state()`. -/
def SendHelloMessage (state : ChanId → DataState) (o : DataChannelObserver) : List EngineCall :=
  match o.data_channel_ with
  | some c =>
    if state c = DataState.kOpen then
      [EngineCall.Send c ("Hello from " ++ o.label_ ++ "!")]
    else []
  | none => []

/-- `OnStateChange()`: with a bound channel, switch on `state()`; the `kOpen`
case calls `SendHelloMessage`.  No member is written. -/
def OnStateChange (state : ChanId → DataState) (o : DataChannelObserver) : List EngineCall :=
  match o.data_channel_ with
  | some c =>
    match state c with
    | DataState.kConnecting => []
    | DataState.kOpen => SendHelloMessage state o
    | DataState.kClosing => []
    | DataState.kClosed => []
  | none => []

/-- `OnMessage(buffer)`: `message_received_ = true;`. -/
def OnMessage (o : DataChannelObserver) (_buffer : String) : DataChannelObserver :=
  { o with message_received_ := true }

/-- `SetDataChannel(channel)`: store the handle and, when it is not null,
register the observer on it. -/
def SetDataChannel (o : DataChannelObserver) (channel : Option ChanId) :
    DataChannelObserver × List EngineCall :=
  ({ o with data_channel_ := channel },
   match channel with
   | some c => [EngineCall.RegisterObserver c]
   | none => [])

/-- `HasReceivedMessage()`. -/
def HasReceivedMessage (o : DataChannelObserver) : Bool := o.message_received_

end DataChannelObserver

/-- What can happen around one `DataChannelObserver`: the three public
methods, and the engine moving a channel into another state. -/
inductive DcEvent where
  | SetDataChannel (channel : Option ChanId)
  | OnStateChange
  | OnMessage (buffer : String)
  | engineState (c : ChanId) (s : DataState)

/-- A `DataChannelObserver` together with the engine state it reads
(`state`) and the requests it has made (`calls`, oldest first). -/
structure DcWorld where
  obs : DataChannelObserver
  state : ChanId → DataState
  calls : List EngineCall

namespace DcWorld

/-- A fresh observer; every channel is still `kConnecting`. -/
def init (label : String) : DcWorld :=
  { obs := DataChannelObserver.new label, state := fun _ => DataState.kConnecting, calls := [] }

/-- One event. -/
def step (w : DcWorld) : DcEvent → DcWorld
  | .SetDataChannel channel =>
    { w with obs := (w.obs.SetDataChannel channel).1,
             calls := w.calls ++ (w.obs.SetDataChannel channel).2 }
  | .OnStateChange =>
    { w with calls := w.calls ++ w.obs.OnStateChange w.state }
  | .OnMessage buffer =>
    { w with obs := w.obs.OnMessage buffer }
  | .engineState c s =>
    { w with state := fun x => if x = c then s else w.state x }

/-- A sequence of events, first to last. -/
def run (w : DcWorld) (evs : List DcEvent) : DcWorld := evs.foldl step w

/-- Is the request a `Send`? -/
def isSend : EngineCall → Bool
  | .Send _ _ => true
  | _ => false

/-- Number of `Send` requests made so far. -/
def sendCount (w : DcWorld) : Nat := (w.calls.filter isSend).length

/-- A channel is bound and the engine reports it `kOpen`. -/
def boundOpen (w : DcWorld) : Bool :=
  match w.obs.data_channel_ with
  | some c => decide (w.state c = DataState.kOpen)
  | none => false

/-- Is the event the `OnStateChange` callback? -/
def isStateChange : DcEvent → Bool
  | .OnStateChange => true
  | _ => false

/-- Number of `OnStateChange` callbacks in `evs` that are delivered at a
moment when a channel is bound and `kOpen`. -/
def openNotifications : DcWorld → List DcEvent → Nat
  | _, [] => 0
  | w, ev :: evs =>
    (if isStateChange ev && boundOpen w then 1 else 0) + openNotifications (w.step ev) evs

end DcWorld

/-! ## simple_peer_connection_observer.h -/

/-- Class `SimplePeerConnectionObserver`: `data_observer_` is the owned
`DataChannelObserver`, `ice_candidates_` the vector of stored candidates in
`push_back` order, the three flags are atomics. -/
structure SimplePeerConnectionObserver where
  name_ : String
  data_observer_ : DataChannelObserver
  ice_candidates_ : List IceCandidate
  ice_connected_ : Bool
  ice_gathering_complete_ : Bool
  peer_connected_ : Bool
  deriving DecidableEq, Repr

namespace SimplePeerConnectionObserver

/-- Constructor `SimplePeerConnectionObserver(name)`. -/
def new (name : String) : SimplePeerConnectionObserver :=
  { name_ := name, data_observer_ := DataChannelObserver.new name, ice_candidates_ := [],
    ice_connected_ := false, ice_gathering_complete_ := false, peer_connected_ := false }

/-- `OnSignalingChange(new_state)`: prints only. -/
def OnSignalingChange (o : SimplePeerConnectionObserver) (_new_state : SignalingState) :
    SimplePeerConnectionObserver := o

/-- `OnAddTrack(receiver, streams)`: prints only. -/
def OnAddTrack (o : SimplePeerConnectionObserver) : SimplePeerConnectionObserver := o

/-- `OnRemoveTrack(receiver)`: prints only. -/
def OnRemoveTrack (o : SimplePeerConnectionObserver) : SimplePeerConnectionObserver := o

/-- `OnDataChannel(channel)`: `data_observer_->SetDataChannel(channel)`.  The
handle is dereferenced first, so it is not null. -/
def OnDataChannel (o : SimplePeerConnectionObserver) (channel : ChanId) :
    SimplePeerConnectionObserver × List EngineCall :=
  ({ o with data_observer_ := (o.data_observer_.SetDataChannel (some channel)).1 },
   (o.data_observer_.SetDataChannel (some channel)).2)

/-- `OnRenegotiationNeeded()`: prints only. -/
def OnRenegotiationNeeded (o : SimplePeerConnectionObserver) : SimplePeerConnectionObserver := o

/-- `OnIceConnectionChange(new_state)`. -/
def OnIceConnectionChange (o : SimplePeerConnectionObserver) (new_state : IceConnectionState) :
    SimplePeerConnectionObserver :=
  if new_state = IceConnectionState.kIceConnectionConnected then
    { o with ice_connected_ := true }
  else o

/-- `OnIceGatheringChange(new_state)`. -/
def OnIceGatheringChange (o : SimplePeerConnectionObserver) (new_state : IceGatheringState) :
    SimplePeerConnectionObserver :=
  if new_state = IceGatheringState.kIceGatheringComplete then
    { o with ice_gathering_complete_ := true }
  else o

/-- `OnIceCandidate(candidate)`: rebuild the candidate with the engine's
`CreateIceCandidate(sdp_mid, sdp_mline_index, sdp, &error)` and `push_back`
the result unless it is null. -/
def OnIceCandidate (CreateIceCandidate : String → Int → String → Option IceCandidate)
    (o : SimplePeerConnectionObserver) (candidate : IceCandidate) :
    SimplePeerConnectionObserver :=
  match CreateIceCandidate candidate.sdp_mid candidate.sdp_mline_index candidate.sdp with
  | some ice_candidate => { o with ice_candidates_ := o.ice_candidates_ ++ [ice_candidate] }
  | none => o

/-- `OnConnectionChange(new_state)`. -/
def OnConnectionChange (o : SimplePeerConnectionObserver) (new_state : PeerConnectionState) :
    SimplePeerConnectionObserver :=
  if new_state = PeerConnectionState.kConnected then
    { o with peer_connected_ := true }
  else o

/-- `IsIceConnected()`. -/
def IsIceConnected (o : SimplePeerConnectionObserver) : Bool := o.ice_connected_

/-- `IsIceGatheringComplete()`. -/
def IsIceGatheringComplete (o : SimplePeerConnectionObserver) : Bool := o.ice_gathering_complete_

/-- `IsPeerConnected()`. -/
def IsPeerConnected (o : SimplePeerConnectionObserver) : Bool := o.peer_connected_

/-- `HasReceivedMessage()`: forwards to the data observer. -/
def HasReceivedMessage (o : SimplePeerConnectionObserver) : Bool :=
  o.data_observer_.HasReceivedMessage

/-- `GetIceCandidates()`. -/
def GetIceCandidates (o : SimplePeerConnectionObserver) : List IceCandidate := o.ice_candidates_

/-- `ClearIceCandidates()`. -/
def ClearIceCandidates (o : SimplePeerConnectionObserver) : SimplePeerConnectionObserver :=
  { o with ice_candidates_ := [] }

/-- `GetDataObserver()`. -/
def GetDataObserver (o : SimplePeerConnectionObserver) : DataChannelObserver := o.data_observer_

end SimplePeerConnectionObserver

/-- The callbacks of `webrtc::PeerConnectionObserver` that the class
overrides. -/
inductive PcCallback where
  | OnSignalingChange (new_state : SignalingState)
  | OnAddTrack
  | OnRemoveTrack
  | OnDataChannel (channel : ChanId)
  | OnRenegotiationNeeded
  | OnIceConnectionChange (new_state : IceConnectionState)
  | OnIceGatheringChange (new_state : IceGatheringState)
  | OnIceCandidate (candidate : IceCandidate)
  | OnConnectionChange (new_state : PeerConnectionState)
  deriving DecidableEq, Repr

/-- Deliver one engine callback to a `SimplePeerConnectionObserver`; the
second component lists the engine requests made inside the callback. -/
def PcCallback.deliver (CreateIceCandidate : String → Int → String → Option IceCandidate)
    (o : SimplePeerConnectionObserver) : PcCallback → SimplePeerConnectionObserver × List EngineCall
  | .OnSignalingChange new_state => (o.OnSignalingChange new_state, [])
  | .OnAddTrack => (o.OnAddTrack, [])
  | .OnRemoveTrack => (o.OnRemoveTrack, [])
  | .OnDataChannel channel => o.OnDataChannel channel
  | .OnRenegotiationNeeded => (o.OnRenegotiationNeeded, [])
  | .OnIceConnectionChange new_state => (o.OnIceConnectionChange new_state, [])
  | .OnIceGatheringChange new_state => (o.OnIceGatheringChange new_state, [])
  | .OnIceCandidate candidate => (o.OnIceCandidate CreateIceCandidate candidate, [])
  | .OnConnectionChange new_state => (o.OnConnectionChange new_state, [])

/-- Deliver a sequence of callbacks, first to last. -/
def deliverAll (CreateIceCandidate : String → Int → String → Option IceCandidate)
    (o : SimplePeerConnectionObserver) (cbs : List PcCallback) : SimplePeerConnectionObserver :=
  cbs.foldl (fun acc cb => (cb.deliver CreateIceCandidate acc).1) o

/-! ## The engine as an input

`main` runs on its own thread while the engine delivers callbacks from its
signaling thread.  The embedding interleaves the two at program points: before
every observer access, engine request and sleep of the driver, the events the
engine has produced since the previous program point are delivered, in order.
Which events those are is given by `Engine.events`, indexed by the number of
the program point. -/

/-- Something the engine does between two program points of `main`: a
callback on one of the four observers `main` reads (`dcOnStateChange` and
`dcOnMessage` are the callbacks of an endpoint's `DataChannelObserver`), or a
state change of a data channel.  Callbacks on the `SetSDPObserver` instances
change nothing `main` reads and are left out. -/
inductive Event where
  | pc (p : Peer) (cb : PcCallback)
  | dcOnStateChange (p : Peer)
  | dcOnMessage (p : Peer) (buffer : String)
  | offer (cb : SdpCallback)
  | answer (cb : SdpCallback)
  | channelState (c : ChanId) (s : DataState)
  deriving DecidableEq, Repr

/-- Everything the engine decides in one run.

* `factory_ok`: `CreatePeerConnectionFactory` returned a non-null factory;
* `pc1_ok`, `pc2_ok`: `CreatePeerConnectionOrError` returned `ok()`;
* `data_channel`: the channel of `CreateDataChannelOrError`, `none` on error;
* `CreateIceCandidate`, `CreateSessionDescription`: the engine functions of
  these names, `none` standing for a null result (the second one returns the
  type and text of the new object);
* `events k`: what is delivered at program point `k`. -/
structure Engine where
  factory_ok : Bool
  pc1_ok : Bool
  pc2_ok : Bool
  data_channel : Option ChanId
  CreateIceCandidate : String → Int → String → Option IceCandidate
  CreateSessionDescription : SdpType → String → Option (SdpType × String)
  events : Nat → List Event

/-- The observer getters `main` polls. -/
inductive Probe where
  | offerSuccessful
  | answerSuccessful
  | gatheringComplete (p : Peer)
  | peerConnected (p : Peer)
  | receivedMessage (p : Peer)
  deriving DecidableEq, Repr

/-- The places where `main` sleeps for 100 ms: its five poll loops and the
delay inside `LocalSignaling::ExchangeSDPs`. -/
inductive Phase where
  | offer
  | settle
  | answer
  | gathering
  | connection
  | message
  deriving DecidableEq, Repr

/-- One entry of the run's record.  `call` is an engine request made by the
driver, `callback` one made inside an observer callback, `read` a getter the
driver evaluated (with the line of `main.cpp` that evaluates it, and its
result), `take` a `TakeCreatedSDP()` of the driver (with its line and result),
`sleep` a 100 ms sleep, and `exchange` marks an entry into
`LocalSignaling::ExchangeICECandidates`. -/
inductive Action where
  | call (c : EngineCall)
  | callback (c : EngineCall)
  | read (line : Nat) (probe : Probe) (value : Bool)
  | take (line : Nat) (desc : Option SessionDescription)
  | sleep (phase : Phase)
  | exchange
  deriving DecidableEq, Repr

/-- The state of a run: the four observers `main` reads, the engine's
data-channel states, the record so far (oldest first), the number of the next
program point, the address of the next description allocated by
`CreateSessionDescription`, and `invalidated`: the iterators of the range-for
the driver entered last have been invalidated by a `push_back` into the vector
it walks.  What the C++ program does from there is undefined; such a state is
not run any further. -/
structure World where
  observer1 : SimplePeerConnectionObserver
  observer2 : SimplePeerConnectionObserver
  offer_observer : CreateSDPObserver
  answer_observer : CreateSDPObserver
  chanState : ChanId → DataState
  trace : List Action
  clock : Nat
  next_addr : Nat
  invalidated : Bool

namespace World

/-- State at the first statement of `main`.  The observers are assigned again
where `main` constructs them. -/
def start : World :=
  { observer1 := SimplePeerConnectionObserver.new "Peer1",
    observer2 := SimplePeerConnectionObserver.new "Peer2",
    offer_observer := CreateSDPObserver.Create,
    answer_observer := CreateSDPObserver.Create,
    chanState := fun _ => DataState.kConnecting,
    trace := [], clock := 0, next_addr := 0, invalidated := false }

/-- The observer of an endpoint. -/
def observer (w : World) : Peer → SimplePeerConnectionObserver
  | .pc1 => w.observer1
  | .pc2 => w.observer2

/-- Replace the observer of an endpoint. -/
def setObserver (w : World) (p : Peer) (o : SimplePeerConnectionObserver) : World :=
  match p with
  | .pc1 => { w with observer1 := o }
  | .pc2 => { w with observer2 := o }

/-- Append entries to the record. -/
def log (w : World) (as : List Action) : World :=
  { w with trace := w.trace ++ as }

/-- The value a getter returns in this state. -/
def probe (w : World) : Probe → Bool
  | .offerSuccessful => w.offer_observer.IsSuccessful
  | .answerSuccessful => w.answer_observer.IsSuccessful
  | .gatheringComplete p => (w.observer p).IsIceGatheringComplete
  | .peerConnected p => (w.observer p).IsPeerConnected
  | .receivedMessage p => (w.observer p).HasReceivedMessage

end World

/-- Deliver one engine event. -/
def deliver (e : Engine) (w : World) : Event → World
  | .pc p cb =>
    ((w.setObserver p (cb.deliver e.CreateIceCandidate (w.observer p)).1).log
      ((cb.deliver e.CreateIceCandidate (w.observer p)).2.map Action.callback))
  | .dcOnStateChange p =>
    w.log (((w.observer p).data_observer_.OnStateChange w.chanState).map Action.callback)
  | .dcOnMessage p buffer =>
    w.setObserver p
      { w.observer p with data_observer_ := (w.observer p).data_observer_.OnMessage buffer }
  | .offer cb => { w with offer_observer := cb.deliver w.offer_observer }
  | .answer cb => { w with answer_observer := cb.deliver w.answer_observer }
  | .channelState c s => { w with chanState := fun x => if x = c then s else w.chanState x }

/-- A program point: deliver the events the engine has for it. -/
def tick (e : Engine) (w : World) : World :=
  { (e.events w.clock).foldl (deliver e) w with clock := w.clock + 1 }

/-- The driver makes an engine request. -/
def call (e : Engine) (c : EngineCall) (w : World) : World :=
  (tick e w).log [Action.call c]

/-- The driver sleeps 100 ms. -/
def sleep (e : Engine) (ph : Phase) (w : World) : World :=
  (tick e w).log [Action.sleep ph]

/-- The driver evaluates an observer getter at line `line`. -/
def read (e : Engine) (line : Nat) (pr : Probe) (w : World) : Bool × World :=
  ((tick e w).probe pr, (tick e w).log [Action.read line pr ((tick e w).probe pr)])

/-- The driver calls `TakeCreatedSDP()` on the offer observer. -/
def takeOffer (e : Engine) (line : Nat) (w : World) : Option SessionDescription × World :=
  ((tick e w).offer_observer.TakeCreatedSDP.1,
   { tick e w with offer_observer := (tick e w).offer_observer.TakeCreatedSDP.2 }.log
     [Action.take line (tick e w).offer_observer.TakeCreatedSDP.1])

/-- The driver calls `TakeCreatedSDP()` on the answer observer. -/
def takeAnswer (e : Engine) (line : Nat) (w : World) : Option SessionDescription × World :=
  ((tick e w).answer_observer.TakeCreatedSDP.1,
   { tick e w with answer_observer := (tick e w).answer_observer.TakeCreatedSDP.2 }.log
     [Action.take line (tick e w).answer_observer.TakeCreatedSDP.1])

/-- Condition `!a(observer1) || !a(observer2)`, left to right: the second
getter is evaluated only when the first returned true. -/
def notBoth (e : Engine) (line : Nat) (a : Peer → Probe) (w : World) : Bool × World :=
  if (read e line (a .pc1) w).1 then
    (!(read e line (a .pc2) (read e line (a .pc1) w).2).1,
     (read e line (a .pc2) (read e line (a .pc1) w).2).2)
  else (true, (read e line (a .pc1) w).2)

/-- Condition `a(observer1) && a(observer2)`, left to right: the second
getter is evaluated only when the first returned true. -/
def both (e : Engine) (line : Nat) (a : Peer → Probe) (w : World) : Bool × World :=
  if (read e line (a .pc1) w).1 then read e line (a .pc2) (read e line (a .pc1) w).2
  else (false, (read e line (a .pc1) w).2)

/-! ## local_signaling.h -/

namespace LocalSignaling

/-- `ExchangeSDPs(pc1, pc2, offer, answer_observer)`: `SetRemoteDescription`
on pc2 with the released pointer, the 100 ms delay, `CreateAnswer` on pc2. -/
def ExchangeSDPs (e : Engine) (offer : Option SessionDescription) (w : World) : World :=
  call e (.CreateAnswer .pc2) (sleep e .settle (call e (.SetRemoteDescription .pc2 offer) w))

/-- What is left of a range-for over the candidate vector of observer `src`,
the elements between the loop's iterator and its end iterator being `cs`: one
`AddIceCandidate` on `pc` per element, front to back.  The loop walks the live
vector (`GetIceCandidates()` returns a reference to `ice_candidates_`).  When
a callback has stored a candidate in that vector at the program point of the
next request, its `push_back` has invalidated the iterators of the loop (all
of them when the vector reallocates, the end iterator in any case) and the
element read next may lie in freed storage: the state is marked `invalidated`
and the walk stops before that request.  After its last request the loop only
increments and compares its own iterators and is left; what is delivered at
the next program point arrives when the loop is over. -/
def addAll (e : Engine) (src pc : Peer) : List IceCandidate → World → World
  | [], w => w
  | candidate :: rest, w =>
    if ((tick e w).observer src).GetIceCandidates = (w.observer src).GetIceCandidates then
      addAll e src pc rest (call e (.AddIceCandidate pc candidate) w)
    else { tick e w with invalidated := true }

/-- The first range-for of `ExchangeICECandidates`: `begin()` and `end()` of
`observer1->GetIceCandidates()` are taken (the iterators are valid then), and
the elements go to pc2. -/
def relay1 (e : Engine) (w : World) : World :=
  addAll e .pc1 .pc2 (tick e (w.log [Action.exchange])).observer1.GetIceCandidates
    { tick e (w.log [Action.exchange]) with invalidated := false }

/-- The second range-for: the elements of observer2 go to pc1. -/
def relay2 (e : Engine) (w : World) : World :=
  addAll e .pc2 .pc1 (tick e w).observer2.GetIceCandidates
    { tick e w with invalidated := false }

/-- `observer1->ClearIceCandidates();`. -/
def clear1 (e : Engine) (w : World) : World :=
  { tick e w with observer1 := (tick e w).observer1.ClearIceCandidates }

/-- `observer2->ClearIceCandidates();`. -/
def clear2 (e : Engine) (w : World) : World :=
  { tick e w with observer2 := (tick e w).observer2.ClearIceCandidates }

/-- `ExchangeICECandidates(pc1, pc2, observer1, observer2)`: the two
range-fors and the two `ClearIceCandidates()`.  A range-for whose iterators
were invalidated ends the batch in that state. -/
def ExchangeICECandidates (e : Engine) (w : World) : World :=
  if (relay1 e w).invalidated then relay1 e w
  else if (relay2 e (relay1 e w)).invalidated then relay2 e (relay1 e w)
  else clear2 e (clear1 e (relay2 e (relay1 e w)))

end LocalSignaling

/-! ## main.cpp -/

/-- The three lines of the connection summary. -/
structure Summary where
  peer1_connected : Bool
  peer2_connected : Bool
  messages_exchanged : Bool
  deriving DecidableEq, Repr

/-- How a run ends: `exit` is the value `main` returns, `none` when the run
instead dereferences a null pointer or walks a vector whose iterators were
invalidated; `summary` is what the connection summary printed, when it was
printed; `world` is the final state. -/
structure Result where
  exit : Option Int
  summary : Option Summary
  world : World

/-- Outcome of one stage of `main`: it returned, or it goes on. -/
inductive Step where
  | done (r : Result)
  | next (w : World)

/-- Loop `while (!observer->IsSuccessful() && timeout-- > 0) sleep_for(100ms);`
at line `line`, with `timeout` holding `n` when the condition is evaluated.  With `n = 0` the
condition is false whatever the getter returns. -/
def waitSuccessful (e : Engine) (line : Nat) (pr : Probe) (ph : Phase) : Nat → World → World
  | 0, w => (read e line pr w).2
  | n + 1, w =>
    if (read e line pr w).1 then (read e line pr w).2
    else waitSuccessful e line pr ph n (sleep e ph (read e line pr w).2)

/-- Loop `while ((!a(observer1) || !a(observer2)) && timeout-- > 0)
sleep_for(100ms);` at line `line`, with `timeout` holding `n` when the
condition is evaluated. -/
def waitBoth (e : Engine) (line : Nat) (a : Peer → Probe) (ph : Phase) : Nat → World → World
  | 0, w => (notBoth e line a w).2
  | n + 1, w =>
    if (notBoth e line a w).1 then waitBoth e line a ph n (sleep e ph (notBoth e line a w).2)
    else (notBoth e line a w).2

/-- The ICE gathering loop (line 188): as `waitBoth` on
`IsIceGatheringComplete`, with the body also running `ExchangeICECandidates`
when `timeout % 10 == 0`, where `timeout` has already been decremented to
`n`.  The loop is not run beyond a batch that ends `invalidated`. -/
def gatheringLoop (e : Engine) : Nat → World → World
  | 0, w => (notBoth e 188 .gatheringComplete w).2
  | n + 1, w =>
    if (notBoth e 188 .gatheringComplete w).1 then
      if n % 10 = 0 then
        if (LocalSignaling.ExchangeICECandidates e
            (sleep e .gathering (notBoth e 188 .gatheringComplete w).2)).invalidated then
          LocalSignaling.ExchangeICECandidates e
            (sleep e .gathering (notBoth e 188 .gatheringComplete w).2)
        else
          gatheringLoop e n
            (LocalSignaling.ExchangeICECandidates e
              (sleep e .gathering (notBoth e 188 .gatheringComplete w).2))
      else gatheringLoop e n (sleep e .gathering (notBoth e 188 .gatheringComplete w).2)
    else (notBoth e 188 .gatheringComplete w).2

/-- `webrtc::CreateSessionDescription(type, sdp)` as called by `main`: a new
instance at the next free address, or null. -/
def newDescription (e : Engine) (kind : SdpType) (sdp : String) (w : World) :
    Option SessionDescription × World :=
  match e.CreateSessionDescription kind sdp with
  | some (k, b) =>
    (some { addr := w.next_addr, kind := k, body := b }, { w with next_addr := w.next_addr + 1 })
  | none => (none, w)

/-- Line 116, `observer1->GetDataObserver()->SetDataChannel(data_channel)`
called by the driver: the requests made inside are requests of the driver. -/
def bindDataChannel (e : Engine) (dc : ChanId) (w : World) : World :=
  { tick e w with observer1 :=
      { (tick e w).observer1 with
        data_observer_ := ((tick e w).observer1.GetDataObserver.SetDataChannel (some dc)).1 } }.log
    (((tick e w).observer1.GetDataObserver.SetDataChannel (some dc)).2.map Action.call)

/-- Lines 29 to 117: SSL, factory, observers, the two peer connections, the
data channel and its binding to observer1's data observer.  A failed creation
returns -1.  (Creating and starting the three threads is not recorded.) -/
def setup (e : Engine) : Step :=
  let w1 := call e .CreatePeerConnectionFactory (call e .InitializeSSL World.start)
  if !e.factory_ok then Step.done { exit := some (-1), summary := none, world := w1 } else
  let w2 := call e (.CreatePeerConnectionOrError .pc1)
    { w1 with observer1 := SimplePeerConnectionObserver.new "Peer1",
              observer2 := SimplePeerConnectionObserver.new "Peer2" }
  if !e.pc1_ok then Step.done { exit := some (-1), summary := none, world := w2 } else
  let w3 := call e (.CreatePeerConnectionOrError .pc2) w2
  if !e.pc2_ok then Step.done { exit := some (-1), summary := none, world := w3 } else
  let w4 := call e (.CreateDataChannelOrError .pc1 "hello_channel") w3
  match e.data_channel with
  | none => Step.done { exit := some (-1), summary := none, world := w4 }
  | some dc => Step.next (bindDataChannel e dc w4)

/-- Lines 119 to 129: the offer observer is created, `CreateOffer` on pc1,
then the offer wait with budget 50. -/
def offerWait (e : Engine) (w : World) : World :=
  waitSuccessful e 127 .offerSuccessful .offer 50
    (call e (.CreateOffer .pc1) { w with offer_observer := CreateSDPObserver.Create })

/-- Lines 138 to 147: the text and type of the offer are read, the copies
`offer_for_pc1` and `offer_for_pc2` are created, and `SetLocalDescription` on
pc1 gets the first.  The second copy is handed on. -/
def offerHandoff (e : Engine) (offer : SessionDescription) (w : World) :
    World × Option SessionDescription :=
  let c1 := newDescription e offer.kind offer.body w
  let c2 := newDescription e offer.kind offer.body c1.2
  (call e (.SetLocalDescription .pc1 c1.1) c2.2, c2.1)

/-- Lines 119 to 131: the offer wait and the getter of the check after it. -/
def offerCheck (e : Engine) (w : World) : Bool × World :=
  read e 131 .offerSuccessful (offerWait e w)

/-- Lines 119 to 147: the offer wait, the check after it, `TakeCreatedSDP`
and the hand-off.  A null offer is dereferenced at line 139. -/
def offerStage (e : Engine) (w : World) : Step × Option SessionDescription :=
  let chk := offerCheck e w
  if !chk.1 then
    (Step.done { exit := some (-1), summary := none, world := chk.2 }, none)
  else
    let tk := takeOffer e 137 chk.2
    match tk.1 with
    | none => (Step.done { exit := none, summary := none, world := tk.2 }, none)
    | some offer => (Step.next (offerHandoff e offer tk.2).1, (offerHandoff e offer tk.2).2)

/-- Lines 149 to 160: the answer observer is created, `ExchangeSDPs`, then
the answer wait with budget 50. -/
def answerWait (e : Engine) (offer_for_pc2 : Option SessionDescription) (w : World) : World :=
  waitSuccessful e 158 .answerSuccessful .answer 50
    (LocalSignaling.ExchangeSDPs e offer_for_pc2
      { w with answer_observer := CreateSDPObserver.Create })

/-- Lines 168 to 181: the text and type of the answer are read, the copies
`answer_for_pc2` and `answer_for_pc1` are created (in this order), then
`SetLocalDescription` on pc2 and `SetRemoteDescription` on pc1. -/
def answerHandoff (e : Engine) (answer : SessionDescription) (w : World) : World :=
  let c2 := newDescription e answer.kind answer.body w
  let c1 := newDescription e answer.kind answer.body c2.2
  call e (.SetRemoteDescription .pc1 c1.1) (call e (.SetLocalDescription .pc2 c2.1) c1.2)

/-- Lines 149 to 162: the answer wait and the getter of the check after
it. -/
def answerCheck (e : Engine) (offer_for_pc2 : Option SessionDescription) (w : World) :
    Bool × World :=
  read e 162 .answerSuccessful (answerWait e offer_for_pc2 w)

/-- Lines 149 to 181: the answer wait, the check after it, `TakeCreatedSDP`
and the hand-off.  A null answer is dereferenced at line 169. -/
def answerStage (e : Engine) (offer_for_pc2 : Option SessionDescription) (w : World) : Step :=
  let chk := answerCheck e offer_for_pc2 w
  if !chk.1 then
    Step.done { exit := some (-1), summary := none, world := chk.2 }
  else
    let tk := takeAnswer e 167 chk.2
    match tk.1 with
    | none => Step.done { exit := none, summary := none, world := tk.2 }
    | some answer => Step.next (answerHandoff e answer tk.2)

/-- Lines 185 to 198: the gathering loop with budget 100 and the final
`ExchangeICECandidates`, which is not reached when the loop ended
`invalidated`. -/
def gatheringStage (e : Engine) (w : World) : World :=
  if (gatheringLoop e 100 w).invalidated then gatheringLoop e 100 w
  else LocalSignaling.ExchangeICECandidates e (gatheringLoop e 100 w)

/-- Lines 202 to 226: the connection wait with budget 100; when both
observers are then connected, the message wait with budget 50 and the check
that selects the printed line. -/
def connectionStage (e : Engine) (w : World) : World :=
  let w1 := waitBoth e 204 .peerConnected .connection 100 w
  if (both e 208 .peerConnected w1).1 then
    (both e 218 .receivedMessage
      (waitBoth e 214 .receivedMessage .message 50 (both e 208 .peerConnected w1).2)).2
  else (both e 208 .peerConnected w1).2

/-- Lines 228 to 241: the connection summary, `CleanupSSL`, `return 0`. -/
def report (e : Engine) (w : World) : Result :=
  let r1 := read e 230 (.peerConnected .pc1) w
  let r2 := read e 231 (.peerConnected .pc2) r1.2
  let r3 := both e 232 .receivedMessage r2.2
  { exit := some 0,
    summary := some { peer1_connected := r1.1, peer2_connected := r2.1, messages_exchanged := r3.1 },
    world := call e .CleanupSSL r3.2 }

/-- Lines 185 to 241: gathering, connection and message waits, summary and
return.  A run whose gathering stage ended `invalidated` has no defined
continuation: it returns no value and prints no summary. -/
def lateStages (e : Engine) (w : World) : Result :=
  if (gatheringStage e w).invalidated then
    { exit := none, summary := none, world := gatheringStage e w }
  else report e (connectionStage e (gatheringStage e w))

/-- Function `main`. -/
def main (e : Engine) : Result :=
  match setup e with
  | .done r => r
  | .next w =>
    match offerStage e w with
    | (.done r, _) => r
    | (.next w1, offer_for_pc2) =>
      match answerStage e offer_for_pc2 w1 with
      | .done r => r
      | .next w2 => lateStages e w2

/-! ## Names for the states a run passes through -/

/-- State and second copy after the offer hand-off, in a run that passed
line 117 in state `w` and took `offer` at line 137. -/
def afterOffer (e : Engine) (offer : SessionDescription) (w : World) :
    World × Option SessionDescription :=
  offerHandoff e offer (takeOffer e 137 (offerCheck e w).2).2

/-- The answer check of such a run. -/
def answerCheckOf (e : Engine) (offer : SessionDescription) (w : World) : Bool × World :=
  answerCheck e (afterOffer e offer w).2 (afterOffer e offer w).1

/-- State after the answer hand-off, when the run took `answer` at line
167. -/
def afterAnswer (e : Engine) (offer answer : SessionDescription) (w : World) : World :=
  answerHandoff e answer (takeAnswer e 167 (answerCheckOf e offer w).2).2

/-! ## Reading the record -/

/-- The requests of a run that gets through line 117 with data channel `dc`,
up to that line. -/
def setupCalls (dc : ChanId) : List EngineCall :=
  [.InitializeSSL, .CreatePeerConnectionFactory, .CreatePeerConnectionOrError .pc1,
   .CreatePeerConnectionOrError .pc2, .CreateDataChannelOrError .pc1 "hello_channel",
   .RegisterObserver dc]

/-- The request of an entry that is a request of the driver. -/
def Action.asCall : Action → Option EngineCall
  | .call c => some c
  | _ => none

/-- The engine requests the driver made, in order. -/
def driverCalls (tr : List Action) : List EngineCall :=
  tr.filterMap Action.asCall

/-- Is the entry an evaluation of getter `pr` that returned `v`? -/
def Action.isRead (pr : Probe) (v : Bool) : Action → Bool
  | .read _ p x => p == pr && x == v
  | _ => false

/-- Number of sleeps of a phase. -/
def sleepCount (ph : Phase) (tr : List Action) : Nat :=
  tr.count (Action.sleep ph)

/-- Number of entries into `ExchangeICECandidates`. -/
def exchangeCount (tr : List Action) : Nat :=
  tr.count Action.exchange

/-- The record of `w2` is the record of `w1` followed by entries that all
satisfy `P`. -/
def Adds (P : Action → Prop) (w1 w2 : World) : Prop :=
  ∃ ext : List Action, w2.trace = w1.trace ++ ext ∧ ∀ a ∈ ext, P a

/-- A property of states that every delivery of engine events and every
extension of the record preserves. -/
def Stable (e : Engine) (I : World → Prop) : Prop :=
  (∀ w, I w → I (tick e w)) ∧ (∀ w as, I w → I (w.log as))

/-- The requests observers make inside callbacks are `RegisterObserver` and
`Send`; `P` holds of these. -/
def CallbackClosed (P : Action → Prop) : Prop :=
  (∀ c, P (Action.callback (EngineCall.RegisterObserver c)))
  ∧ (∀ c msg, P (Action.callback (EngineCall.Send c msg)))

/-- The parts of a run of `main`, in the order they are executed. -/
inductive Segment where
  | setup (dc : ChanId)
  | offerWait
  | offerHandoff
  | exchangeSDPs
  | answerPoll
  | answerHandoff
  | gathering
  | connection
  | report

/-- The entries each part of a run can add to the record.  The checks at
lines 131 and 162 are not part of a segment. -/
inductive Emits : Segment → Action → Prop where
  | register (s : Segment) (c : ChanId) : Emits s (.callback (.RegisterObserver c))
  | send (s : Segment) (c : ChanId) (msg : String) : Emits s (.callback (.Send c msg))
  | setupCall (dc : ChanId) (c : EngineCall) (h : c ∈ setupCalls dc) :
      Emits (.setup dc) (.call c)
  | createOffer : Emits .offerWait (.call (.CreateOffer .pc1))
  | readOffer (v : Bool) : Emits .offerWait (.read 127 .offerSuccessful v)
  | sleepOffer : Emits .offerWait (.sleep .offer)
  | takeOffer (d : Option SessionDescription) : Emits .offerHandoff (.take 137 d)
  | setLocal1 (d : Option SessionDescription) :
      Emits .offerHandoff (.call (.SetLocalDescription .pc1 d))
  | setRemote2 (d : Option SessionDescription) :
      Emits .exchangeSDPs (.call (.SetRemoteDescription .pc2 d))
  | settle : Emits .exchangeSDPs (.sleep .settle)
  | createAnswer : Emits .exchangeSDPs (.call (.CreateAnswer .pc2))
  | readAnswer (v : Bool) : Emits .answerPoll (.read 158 .answerSuccessful v)
  | sleepAnswer : Emits .answerPoll (.sleep .answer)
  | takeAnswer (d : Option SessionDescription) : Emits .answerHandoff (.take 167 d)
  | setLocal2 (d : Option SessionDescription) :
      Emits .answerHandoff (.call (.SetLocalDescription .pc2 d))
  | setRemote1 (d : Option SessionDescription) :
      Emits .answerHandoff (.call (.SetRemoteDescription .pc1 d))
  | readGathering (p : Peer) (v : Bool) : Emits .gathering (.read 188 (.gatheringComplete p) v)
  | sleepGathering : Emits .gathering (.sleep .gathering)
  | exchange : Emits .gathering .exchange
  | addCandidate (p : Peer) (c : IceCandidate) : Emits .gathering (.call (.AddIceCandidate p c))
  | readConnected (p : Peer) (v : Bool) : Emits .connection (.read 204 (.peerConnected p) v)
  | sleepConnection : Emits .connection (.sleep .connection)
  | checkConnected (p : Peer) (v : Bool) : Emits .connection (.read 208 (.peerConnected p) v)
  | readMessage (p : Peer) (v : Bool) : Emits .connection (.read 214 (.receivedMessage p) v)
  | sleepMessage : Emits .connection (.sleep .message)
  | checkMessage (p : Peer) (v : Bool) : Emits .connection (.read 218 (.receivedMessage p) v)
  | summary1 (v : Bool) : Emits .report (.read 230 (.peerConnected .pc1) v)
  | summary2 (v : Bool) : Emits .report (.read 231 (.peerConnected .pc2) v)
  | summary3 (p : Peer) (v : Bool) : Emits .report (.read 232 (.receivedMessage p) v)
  | cleanup : Emits .report (.call .CleanupSSL)

/-- An entry one of the listed parts of a run can add. -/
def EmitsAny (ss : List Segment) (a : Action) : Prop :=
  ∃ s ∈ ss, Emits s a

/-! ## Sample engines -/

/-- An engine on which every factory call succeeds, the data channel is
channel 0, the two `Create...` functions return what they are given, and no
callback is ever delivered. -/
def quietEngine : Engine :=
  { factory_ok := true, pc1_ok := true, pc2_ok := true, data_channel := some 0,
    CreateIceCandidate := fun mid index sdp => some { sdp_mid := mid, sdp_mline_index := index, sdp := sdp },
    CreateSessionDescription := fun kind sdp => some (kind, sdp),
    events := fun _ => [] }

/-- As `quietEngine`, but the offer is created during the first poll of the
offer wait, and during the first poll of the answer wait the answer is
created, both endpoints complete gathering and become connected, and endpoint
1 (only) receives a message. -/
def oneSidedEngine : Engine :=
  { quietEngine with
    events := fun k =>
      if k = 7 then
        [Event.offer (.OnSuccess { addr := 1000, kind := .kOffer, body := "offer" })]
      else if k = 14 then
        [Event.answer (.OnSuccess { addr := 1001, kind := .kAnswer, body := "answer" }),
         Event.pc .pc1 (.OnIceGatheringChange .kIceGatheringComplete),
         Event.pc .pc2 (.OnIceGatheringChange .kIceGatheringComplete),
         Event.pc .pc1 (.OnConnectionChange .kConnected),
         Event.pc .pc2 (.OnConnectionChange .kConnected),
         Event.dcOnMessage .pc1 "Hello from Peer2!"]
      else [] }

/-! ## The relay cadence, as the specification words it -/

/-- The gathering sleeps and batch markers of loop iterations `i + 1` to
`i + n`: every iteration sleeps once, and an iteration whose number is a
multiple of 10 then runs a relay batch. -/
def cadenceFrom (i : Nat) : Nat → List Action
  | 0 => []
  | n + 1 =>
    (if (i + 1) % 10 = 0 then [Action.sleep Phase.gathering, Action.exchange]
     else [Action.sleep Phase.gathering]) ++ cadenceFrom (i + 1) n

/-- The gathering sleeps and batch markers of a gathering stage whose loop
body runs `n` times: the loop's, then the one unconditional batch. -/
def cadence (n : Nat) : List Action :=
  cadenceFrom 0 n ++ [Action.exchange]

/-- Is the entry a gathering sleep or a batch marker? -/
def Action.isCadence : Action → Bool
  | .sleep .gathering => true
  | .exchange => true
  | _ => false

/-- The gathering sleeps and batch markers of `n` iterations of the loop as
the code counts them: `timeout` holds `m` before the first of them, and an
iteration runs a batch when the decremented `timeout` is a multiple of 10. -/
def countdownCadence : Nat → Nat → List Action
  | _, 0 => []
  | 0, _ + 1 => []
  | m + 1, n + 1 =>
    (if m % 10 = 0 then [Action.sleep Phase.gathering, Action.exchange]
     else [Action.sleep Phase.gathering]) ++ countdownCadence m n

/-- A state with stored candidates: two on observer1, one on observer2. -/
def relaySample : World :=
  { World.start with
    observer1 :=
      { SimplePeerConnectionObserver.new "Peer1" with
        ice_candidates_ :=
          [{ sdp_mid := "0", sdp_mline_index := 0, sdp := "candidate:1 udp host" },
           { sdp_mid := "0", sdp_mline_index := 0, sdp := "candidate:2 udp srflx" }] },
    observer2 :=
      { SimplePeerConnectionObserver.new "Peer2" with
        ice_candidates_ :=
          [{ sdp_mid := "0", sdp_mline_index := 0, sdp := "candidate:3 udp host" }] } }

/-- Is the request one of `SetLocalDescription`, `SetRemoteDescription`,
`CreateAnswer`? -/
def EngineCall.isDescriptionCall : EngineCall → Bool
  | .SetLocalDescription _ _ => true
  | .SetRemoteDescription _ _ => true
  | .CreateAnswer _ => true
  | _ => false

/-- Is the entry part of the description hand-off: a `TakeCreatedSDP()` of
the driver, or a `SetLocalDescription`, `SetRemoteDescription` or
`CreateAnswer` request made by any thread? -/
def Action.isHandoff : Action → Bool
  | .call c => c.isDescriptionCall
  | .callback c => c.isDescriptionCall
  | .take _ _ => true
  | _ => false

/-- A candidate the engine discovers late. -/
def lateCandidate : IceCandidate :=
  { sdp_mid := "0", sdp_mline_index := 0, sdp := "candidate:4 udp relay" }

/-- As `quietEngine`, but at program point 4 the engine calls
`OnIceCandidate(lateCandidate)` on observer1.  In a relay batch started from
`relaySample` at program point 0, that is while the second range-for runs:
after observer1's list was relayed, before it is cleared. -/
def lateCandidateEngine : Engine :=
  { quietEngine with
    events := fun k =>
      if k = 4 then [Event.pc .pc1 (.OnIceCandidate lateCandidate)] else [] }

/-- As `quietEngine`, but at program point 2 the engine calls
`OnIceCandidate(lateCandidate)` on observer1.  In a relay batch started from
`relaySample` at program point 0, that is while the first range-for runs:
after observer1's first candidate was relayed, before the loop reads the
second. -/
def midLoopEngine : Engine :=
  { quietEngine with
    events := fun k =>
      if k = 2 then [Event.pc .pc1 (.OnIceCandidate lateCandidate)] else [] }

/-- A candidate reported to endpoint 1. -/
def hostCandidate1 : IceCandidate :=
  { sdp_mid := "0", sdp_mline_index := 0, sdp := "candidate:1 udp host" }

/-- A candidate reported to endpoint 2. -/
def hostCandidate2 : IceCandidate :=
  { sdp_mid := "0", sdp_mline_index := 0, sdp := "candidate:3 udp host" }

/-- As `quietEngine`, but at program point 3 the engine reports one candidate
to each endpoint.  In a gathering stage started from `World.start` that is
during the second turn of the loop, before the first relay batch (whose
program points are 20 to 25). -/
def candidateEngine : Engine :=
  { quietEngine with
    events := fun k =>
      if k = 3 then
        [Event.pc .pc1 (.OnIceCandidate hostCandidate1),
         Event.pc .pc2 (.OnIceCandidate hostCandidate2)]
      else [] }

/-- As `candidateEngine`, but a further candidate is reported to endpoint 1
at program point 21: in a gathering stage started from `World.start`, between
the start of the first range-for of the first batch and its first
`AddIceCandidate`. -/
def invalidatingEngine : Engine :=
  { quietEngine with
    events := fun k =>
      if k = 3 then
        [Event.pc .pc1 (.OnIceCandidate hostCandidate1),
         Event.pc .pc2 (.OnIceCandidate hostCandidate2)]
      else if k = 21 then [Event.pc .pc1 (.OnIceCandidate lateCandidate)]
      else [] }

/-! ## Words for the statements about the poll loops -/

/-- Everything that can happen to a `CreateSDPObserver`, in the order it
happens: the two engine callbacks and the driver's `TakeCreatedSDP()`. -/
inductive SdpUse where
  | callback (cb : SdpCallback)
  | TakeCreatedSDP
  deriving DecidableEq, Repr

/-- One `SdpUse` applied to the observer. -/
def SdpUse.apply (o : CreateSDPObserver) : SdpUse → CreateSDPObserver
  | .callback cb => cb.deliver o
  | .TakeCreatedSDP => o.TakeCreatedSDP.2

/-- Is the callback `OnSuccess`? -/
def SdpCallback.isSuccess : SdpCallback → Bool
  | .OnSuccess _ => true
  | .OnFailure _ => false

/-- The most recent callback among the uses, if there is one. -/
def lastCallback : List SdpUse → Option SdpCallback
  | [] => none
  | .callback cb :: rest =>
    match lastCallback rest with
    | some later => some later
    | none => some cb
  | .TakeCreatedSDP :: rest => lastCallback rest

/-- Is the entry something the driver did (anything but a request made
inside a callback)? -/
def Action.isDriver : Action → Bool
  | .callback _ => false
  | _ => true

/-- What the driver did, in order. -/
def driverRecord (tr : List Action) : List Action :=
  tr.filter Action.isDriver

/-- The driver's entries of a wait on `IsSuccessful()` at line `line` whose
body runs `k` times: `k` times a getter evaluation returning false and a
sleep, then the evaluation (returning `v`) after which the loop is left. -/
def pollRecord (line : Nat) (pr : Probe) (ph : Phase) : Nat → Bool → List Action
  | 0, v => [Action.read line pr v]
  | k + 1, v => Action.read line pr false :: Action.sleep ph :: pollRecord line pr ph k v

/-- What the driver does in a run that gets through setup with data channel
`dc` and never sees the offer observer successful: setup, `CreateOffer`, 50
polls with their sleeps, the 51st evaluation of the loop condition, and the
check at line 131. -/
def offerTimeoutRecord (dc : ChanId) : List Action :=
  (setupCalls dc).map Action.call ++ [Action.call (EngineCall.CreateOffer Peer.pc1)]
    ++ pollRecord 127 Probe.offerSuccessful Phase.offer 50 false
    ++ [Action.read 131 Probe.offerSuccessful false]

/-- As `quietEngine`, but the engine reports the failure of the offer
creation during the first poll of the offer wait, and once more later. -/
def offerFailureEngine : Engine :=
  { quietEngine with
    events := fun k =>
      if k = 7 then [Event.offer (.OnFailure "failed to create offer")]
      else if k = 20 then [Event.offer (.OnFailure "failed again")]
      else [] }

/-- Is the entry a getter evaluation at line `line` or a sleep of phase
`ph`? -/
def Action.inLoop (line : Nat) (ph : Phase) : Action → Bool
  | .read l _ _ => l == line
  | .sleep p => p == ph
  | _ => false

/-- The entries of one evaluation, at line `line`, of a condition on getter
`a` of both observers (`!a(observer1) || !a(observer2)`): `c.1` is what
observer1 returned, and `c.2` what observer2 returned when it was asked, which
is when `c.1` is true. -/
def condRecord (line : Nat) (a : Peer → Probe) (c : Bool × Bool) : List Action :=
  if c.1 then [Action.read line (a Peer.pc1) true, Action.read line (a Peer.pc2) c.2]
  else [Action.read line (a Peer.pc1) false]

/-- Both getters returned true in this evaluation: what the loop waits for is
met. -/
def bothTrue (c : Bool × Bool) : Bool := c.1 && c.2

/-- The getter evaluations and sleeps of a wait on both observers whose body
runs once per element of `its`: each iteration is an evaluation of the
condition followed by a sleep, and `fin` is the evaluation after which the
loop is left. -/
def waitBothRecord (line : Nat) (a : Peer → Probe) (ph : Phase) :
    List (Bool × Bool) → Bool × Bool → List Action
  | [], fin => condRecord line a fin
  | c :: cs, fin => condRecord line a c ++ Action.sleep ph :: waitBothRecord line a ph cs fin

/-- The iteration budget of each place where `main` sleeps: the initial value
of `timeout` for the five poll loops, 1 for the delay in `ExchangeSDPs`. -/
def budget : Phase → Nat
  | .offer => 50
  | .settle => 1
  | .answer => 50
  | .gathering => 100
  | .connection => 100
  | .message => 50

/-- Number of sleeps of the five poll loops. -/
def pollSleeps (tr : List Action) : Nat :=
  sleepCount Phase.offer tr + sleepCount Phase.answer tr + sleepCount Phase.gathering tr
    + sleepCount Phase.connection tr + sleepCount Phase.message tr

/-- The state a stage ends in. -/
def Step.world : Step → World
  | .done r => r.world
  | .next w => w

/-- The record of `w2` holds at most `b ph` more sleeps of each phase `ph`
than the record of `w1`. -/
def AddsSleeps (b : Phase → Nat) (w1 w2 : World) : Prop :=
  ∀ ph, sleepCount ph w2.trace ≤ sleepCount ph w1.trace + b ph

/-- The bound that allows `n` sleeps of phase `ph` and none of the others. -/
def only (ph : Phase) (n : Nat) : Phase → Nat :=
  fun q => if q = ph then n else 0

/-- Is the entry a getter evaluation at line `line`? -/
def Action.atLine (line : Nat) : Action → Bool
  | .read l _ _ => l == line
  | _ => false

/-- An entry that a run can add before it reaches the connection wait: an
entry of one of the earlier parts, or one of the two checks. -/
def PreConnection (dc : ChanId) (a : Action) : Prop :=
  EmitsAny [Segment.setup dc, Segment.offerWait, Segment.offerHandoff, Segment.exchangeSDPs,
      Segment.answerPoll, Segment.answerHandoff, Segment.gathering] a
  ∨ (∃ v, a = Action.read 131 Probe.offerSuccessful v)
  ∨ (∃ v, a = Action.read 162 Probe.answerSuccessful v)

/-- As `quietEngine`, but the offer is created during the first poll of the
offer wait and the answer during the first poll of the answer wait.  Nothing
else is delivered: gathering never completes and no endpoint ever becomes
connected. -/
def neverConnectedEngine : Engine :=
  { quietEngine with
    events := fun k =>
      if k = 7 then
        [Event.offer (.OnSuccess { addr := 1000, kind := .kOffer, body := "offer" })]
      else if k = 14 then
        [Event.answer (.OnSuccess { addr := 1001, kind := .kAnswer, body := "answer" })]
      else [] }

/-! # Theorems -/

set_option maxRecDepth 100000

/-! ## The observers (C1, C3, C8, C2) -/

theorem PcCallback.deliver_peer_connected
    (cic : String → Int → String → Option IceCandidate) (o : SimplePeerConnectionObserver)
    (cb : PcCallback) (h : o.peer_connected_ = true) :
    (cb.deliver cic o).1.peer_connected_ = true := by
  cases cb <;>
    simp [PcCallback.deliver, SimplePeerConnectionObserver.OnSignalingChange,
      SimplePeerConnectionObserver.OnAddTrack, SimplePeerConnectionObserver.OnRemoveTrack,
      SimplePeerConnectionObserver.OnDataChannel, SimplePeerConnectionObserver.OnRenegotiationNeeded,
      SimplePeerConnectionObserver.OnIceConnectionChange,
      SimplePeerConnectionObserver.OnIceGatheringChange,
      SimplePeerConnectionObserver.OnIceCandidate,
      SimplePeerConnectionObserver.OnConnectionChange, h]
  all_goals (split <;> simp [h])

theorem PcCallback.deliver_peer_connected_eq
    (cic : String → Int → String → Option IceCandidate) (o : SimplePeerConnectionObserver)
    (cb : PcCallback) (h : cb ≠ PcCallback.OnConnectionChange PeerConnectionState.kConnected) :
    (cb.deliver cic o).1.peer_connected_ = o.peer_connected_ := by
  cases cb <;>
    simp [PcCallback.deliver, SimplePeerConnectionObserver.OnSignalingChange,
      SimplePeerConnectionObserver.OnAddTrack, SimplePeerConnectionObserver.OnRemoveTrack,
      SimplePeerConnectionObserver.OnDataChannel, SimplePeerConnectionObserver.OnRenegotiationNeeded,
      SimplePeerConnectionObserver.OnIceConnectionChange,
      SimplePeerConnectionObserver.OnIceGatheringChange,
      SimplePeerConnectionObserver.OnIceCandidate,
      SimplePeerConnectionObserver.OnConnectionChange]
  all_goals first
    | (split <;> rfl)
    | (split
       · next hs => subst hs; exact absurd rfl h
       · rfl)

theorem deliverAll_peer_connected
    (cic : String → Int → String → Option IceCandidate) (cbs : List PcCallback) :
    ∀ o : SimplePeerConnectionObserver, o.peer_connected_ = true →
      (deliverAll cic o cbs).peer_connected_ = true := by
  induction cbs with
  | nil => intro o h; simpa [deliverAll] using h
  | cons cb rest ih =>
    intro o h
    have := ih (cb.deliver cic o).1 (PcCallback.deliver_peer_connected cic o cb h)
    simpa [deliverAll] using this

theorem deliverAll_peer_connected_eq
    (cic : String → Int → String → Option IceCandidate) (cbs : List PcCallback) :
    ∀ o : SimplePeerConnectionObserver,
      (∀ cb ∈ cbs, cb ≠ PcCallback.OnConnectionChange PeerConnectionState.kConnected) →
      (deliverAll cic o cbs).peer_connected_ = o.peer_connected_ := by
  induction cbs with
  | nil => intro o _; simp [deliverAll]
  | cons cb rest ih =>
    intro o h
    have h1 := ih (cb.deliver cic o).1 (fun c hc => h c (List.mem_cons_of_mem _ hc))
    have h2 := PcCallback.deliver_peer_connected_eq cic o cb (h cb (List.mem_cons_self _ _))
    simp only [deliverAll, List.foldl_cons] at h1 ⊢
    rw [h1, h2]

/-- C1: once `IsPeerConnected()` is true it stays true under every finite
sequence of observer callbacks (whatever states they carry); a single
`OnConnectionChange(kConnected)` makes it true from any state; and a newly
constructed observer reports false as long as no `OnConnectionChange(kConnected)`
has been delivered. -/
theorem ever_connected_latch_monotonic
    (cic : String → Int → String → Option IceCandidate) (o : SimplePeerConnectionObserver)
    (cbs : List PcCallback) :
    (o.IsPeerConnected = true → (deliverAll cic o cbs).IsPeerConnected = true)
    ∧ (o.OnConnectionChange PeerConnectionState.kConnected).IsPeerConnected = true
    ∧ (deliverAll cic o (cbs ++ [PcCallback.OnConnectionChange PeerConnectionState.kConnected])).IsPeerConnected
        = true
    ∧ ((∀ cb ∈ cbs, cb ≠ PcCallback.OnConnectionChange PeerConnectionState.kConnected) →
        ∀ name : String,
          (deliverAll cic (SimplePeerConnectionObserver.new name) cbs).IsPeerConnected = false) := by
  refine ⟨deliverAll_peer_connected cic cbs o, ?_, ?_, ?_⟩
  · simp [SimplePeerConnectionObserver.OnConnectionChange,
      SimplePeerConnectionObserver.IsPeerConnected]
  · simp [deliverAll, List.foldl_append, PcCallback.deliver,
      SimplePeerConnectionObserver.OnConnectionChange,
      SimplePeerConnectionObserver.IsPeerConnected]
  · intro h name
    have := deliverAll_peer_connected_eq cic cbs (SimplePeerConnectionObserver.new name) h
    simpa [SimplePeerConnectionObserver.IsPeerConnected, SimplePeerConnectionObserver.new] using this

/-- C1 at a concrete input: a connected observer that then sees Disconnected,
Failed, Closed, an ICE change, a gathering change, a candidate and a
signaling change is still connected. -/
theorem ever_connected_latch_monotonic_witness :
    (deliverAll (fun m i s => some ⟨m, i, s⟩)
      ((SimplePeerConnectionObserver.new "Peer1").OnConnectionChange PeerConnectionState.kConnected)
      [PcCallback.OnConnectionChange PeerConnectionState.kDisconnected,
       PcCallback.OnConnectionChange PeerConnectionState.kFailed,
       PcCallback.OnConnectionChange PeerConnectionState.kClosed,
       PcCallback.OnIceConnectionChange IceConnectionState.kIceConnectionDisconnected,
       PcCallback.OnIceGatheringChange IceGatheringState.kIceGatheringComplete,
       PcCallback.OnIceCandidate ⟨"0", 0, "candidate"⟩,
       PcCallback.OnSignalingChange SignalingState.kClosed]).IsPeerConnected = true :=
  (ever_connected_latch_monotonic (fun m i s => some ⟨m, i, s⟩)
    ((SimplePeerConnectionObserver.new "Peer1").OnConnectionChange PeerConnectionState.kConnected)
    _).1 (by decide)

theorem SdpOtherUse.foldl_created_none (uses : List SdpOtherUse) :
    ∀ o : CreateSDPObserver, o.created_sdp_ = none →
      (uses.foldl SdpOtherUse.apply o).created_sdp_ = none := by
  induction uses with
  | nil => intro o h; simpa using h
  | cons u rest ih =>
    intro o h
    simp only [List.foldl_cons]
    apply ih
    cases u <;> simp [SdpOtherUse.apply, CreateSDPObserver.OnFailure,
      CreateSDPObserver.TakeCreatedSDP, h]

/-- C3: after `OnSuccess(d)` the first `TakeCreatedSDP()` returns `d` and
leaves the observer without a description; after that, whatever further
`TakeCreatedSDP` and `OnFailure` calls happen, `TakeCreatedSDP()` returns
null as long as no `OnSuccess` intervenes; and on an observer that has never
seen `OnSuccess` it returns null as well. -/
theorem take_created_sdp_transfers_once
    (o : CreateSDPObserver) (d : SessionDescription) (uses : List SdpOtherUse) :
    (o.OnSuccess d).TakeCreatedSDP.1 = some d
    ∧ (o.OnSuccess d).TakeCreatedSDP.2.created_sdp_ = none
    ∧ (o.OnSuccess d).TakeCreatedSDP.2.TakeCreatedSDP.1 = none
    ∧ (uses.foldl SdpOtherUse.apply (o.OnSuccess d).TakeCreatedSDP.2).TakeCreatedSDP.1 = none
    ∧ (uses.foldl SdpOtherUse.apply CreateSDPObserver.Create).TakeCreatedSDP.1 = none := by
  refine ⟨rfl, rfl, rfl, ?_, ?_⟩
  · exact SdpOtherUse.foldl_created_none uses _ rfl
  · exact SdpOtherUse.foldl_created_none uses _ rfl

theorem DcWorld.step_message_received (w : DcWorld) (ev : DcEvent)
    (h : w.obs.message_received_ = true) : (w.step ev).obs.message_received_ = true := by
  cases ev <;> simp [DcWorld.step, DataChannelObserver.SetDataChannel,
    DataChannelObserver.OnMessage, h]

theorem DcWorld.run_message_received (evs : List DcEvent) :
    ∀ w : DcWorld, w.obs.message_received_ = true → (w.run evs).obs.message_received_ = true := by
  induction evs with
  | nil => intro w h; simpa [DcWorld.run] using h
  | cons ev rest ih =>
    intro w h
    have := ih (w.step ev) (DcWorld.step_message_received w ev h)
    simpa [DcWorld.run] using this

/-- C8: `HasReceivedMessage()` is false on a new observer; after `OnMessage`
it is true, in particular on an observer that has no channel bound; and once
true it stays true under every later sequence of `OnMessage`, `OnStateChange`
and `SetDataChannel` (and of engine state changes). -/
theorem message_received_latch
    (label buffer : String) (w : DcWorld) (evs : List DcEvent) :
    (DataChannelObserver.new label).HasReceivedMessage = false
    ∧ (DataChannelObserver.new label).data_channel_ = none
    ∧ ((DataChannelObserver.new label).OnMessage buffer).HasReceivedMessage = true
    ∧ (w.obs.OnMessage buffer).HasReceivedMessage = true
    ∧ ((w.step (DcEvent.OnMessage buffer)).run evs).obs.HasReceivedMessage = true
    ∧ (w.obs.HasReceivedMessage = true → (w.run evs).obs.HasReceivedMessage = true) := by
  refine ⟨rfl, rfl, rfl, rfl, ?_, ?_⟩
  · exact DcWorld.run_message_received evs _ rfl
  · exact DcWorld.run_message_received evs w

/-- C8 at a concrete input: a message arrives before any channel is bound;
binding, state changes and a second message leave the latch set. -/
theorem message_received_latch_witness :
    (((DcWorld.init "Peer2").step (DcEvent.OnMessage "Hello from Peer1!")).run
      [DcEvent.SetDataChannel (some 1), DcEvent.engineState 1 DataState.kOpen,
       DcEvent.OnStateChange, DcEvent.OnMessage "again", DcEvent.engineState 1 DataState.kClosed,
       DcEvent.OnStateChange, DcEvent.SetDataChannel none]).obs.HasReceivedMessage = true :=
  (message_received_latch "Peer2" "Hello from Peer1!"
    ((DcWorld.init "Peer2").step (DcEvent.OnMessage "Hello from Peer1!")) _).2.2.2.2.2 (by decide)

theorem DcWorld.sendCount_step (w : DcWorld) (ev : DcEvent) :
    (w.step ev).sendCount
      = w.sendCount + (if DcWorld.isStateChange ev && w.boundOpen then 1 else 0) := by
  cases ev with
  | SetDataChannel channel =>
    cases channel <;>
      simp [DcWorld.step, DcWorld.sendCount, DcWorld.isStateChange,
        DataChannelObserver.SetDataChannel, DcWorld.isSend]
  | OnStateChange =>
    simp only [DcWorld.step, DcWorld.sendCount, DcWorld.isStateChange, DcWorld.boundOpen,
      DataChannelObserver.OnStateChange, DataChannelObserver.SendHelloMessage, Bool.true_and]
    cases hb : w.obs.data_channel_ with
    | none => simp
    | some c => cases hs : w.state c <;> simp [hs, DcWorld.isSend]
  | OnMessage buffer => simp [DcWorld.step, DcWorld.sendCount, DcWorld.isStateChange]
  | engineState c s => simp [DcWorld.step, DcWorld.sendCount, DcWorld.isStateChange]

theorem DcWorld.sendCount_run (evs : List DcEvent) :
    ∀ w : DcWorld, (w.run evs).sendCount = w.sendCount + w.openNotifications evs := by
  induction evs with
  | nil => intro w; simp [DcWorld.run, DcWorld.openNotifications]
  | cons ev rest ih =>
    intro w
    have h := ih (w.step ev)
    simp only [DcWorld.run, List.foldl_cons] at h ⊢
    rw [h, DcWorld.sendCount_step, DcWorld.openNotifications]
    omega

theorem DcWorld.openNotifications_replicate (k : Nat) :
    ∀ w : DcWorld, w.boundOpen = true →
      w.openNotifications (List.replicate k DcEvent.OnStateChange) = k := by
  induction k with
  | zero => intro w _; simp [DcWorld.openNotifications]
  | succ n ih =>
    intro w h
    have hb : (w.step DcEvent.OnStateChange).boundOpen = true := by
      simpa [DcWorld.step, DcWorld.boundOpen] using h
    simp only [List.replicate_succ, DcWorld.openNotifications, DcWorld.isStateChange, h,
      Bool.and_self, if_true, ih _ hb]
    omega

/-- C2 as stated fails: with the channel bound and then opened, two
`OnStateChange` callbacks while it is Open give two `Send` calls; and when the
channel is already Open at the time it is bound, and no `OnStateChange`
follows, no `Send` is made at all. -/
theorem greeting_not_exactly_once :
    (((DcWorld.init "Peer1").run
        [DcEvent.SetDataChannel (some 0), DcEvent.engineState 0 DataState.kOpen,
         DcEvent.OnStateChange, DcEvent.OnStateChange]).boundOpen = true
      ∧ ((DcWorld.init "Peer1").run
        [DcEvent.SetDataChannel (some 0), DcEvent.engineState 0 DataState.kOpen,
         DcEvent.OnStateChange, DcEvent.OnStateChange]).sendCount = 2)
    ∧ (((DcWorld.init "Peer2").run
        [DcEvent.engineState 0 DataState.kOpen, DcEvent.SetDataChannel (some 0)]).boundOpen = true
      ∧ ((DcWorld.init "Peer2").run
        [DcEvent.engineState 0 DataState.kOpen, DcEvent.SetDataChannel (some 0)]).sendCount = 0) := by
  decide

/-- C2, amended: the observer issues one `Send` per `OnStateChange` callback
that is delivered while a channel is bound and Open, and none otherwise; in
particular `SetDataChannel` itself never sends, so with the channel bound
(before or after it opened) and `OnStateChange` then firing `k` times while it
is Open, the number of `Send` calls is `k`: exactly 1 precisely when one such
callback is delivered. -/
theorem greeting_sent_per_open_notification
    (w : DcWorld) (evs : List DcEvent) (channel : Option ChanId) (label : String) (c : ChanId)
    (k : Nat) :
    (w.run evs).sendCount = w.sendCount + w.openNotifications evs
    ∧ (w.step (DcEvent.SetDataChannel channel)).sendCount = w.sendCount
    ∧ ((DcWorld.init label).run
        ([DcEvent.SetDataChannel (some c), DcEvent.engineState c DataState.kOpen]
          ++ List.replicate k DcEvent.OnStateChange)).sendCount = k
    ∧ ((DcWorld.init label).run
        ([DcEvent.engineState c DataState.kOpen, DcEvent.SetDataChannel (some c)]
          ++ List.replicate k DcEvent.OnStateChange)).sendCount = k := by
  refine ⟨DcWorld.sendCount_run evs w, ?_, ?_, ?_⟩
  · simp [DcWorld.sendCount_step, DcWorld.isStateChange]
  · have hb : ((DcWorld.init label).run
        [DcEvent.SetDataChannel (some c), DcEvent.engineState c DataState.kOpen]).boundOpen
        = true := by
      simp [DcWorld.run, DcWorld.step, DcWorld.init, DcWorld.boundOpen,
        DataChannelObserver.SetDataChannel, DataChannelObserver.new]
    have h0 : ((DcWorld.init label).run
        [DcEvent.SetDataChannel (some c), DcEvent.engineState c DataState.kOpen]).sendCount
        = 0 := by
      simp [DcWorld.run, DcWorld.step, DcWorld.init, DcWorld.sendCount,
        DataChannelObserver.SetDataChannel, DataChannelObserver.new, DcWorld.isSend]
    have := DcWorld.sendCount_run (List.replicate k DcEvent.OnStateChange)
      ((DcWorld.init label).run
        [DcEvent.SetDataChannel (some c), DcEvent.engineState c DataState.kOpen])
    rw [DcWorld.openNotifications_replicate k _ hb, h0] at this
    simpa [DcWorld.run, List.foldl_append] using this
  · have hb : ((DcWorld.init label).run
        [DcEvent.engineState c DataState.kOpen, DcEvent.SetDataChannel (some c)]).boundOpen
        = true := by
      simp [DcWorld.run, DcWorld.step, DcWorld.init, DcWorld.boundOpen,
        DataChannelObserver.SetDataChannel, DataChannelObserver.new]
    have h0 : ((DcWorld.init label).run
        [DcEvent.engineState c DataState.kOpen, DcEvent.SetDataChannel (some c)]).sendCount
        = 0 := by
      simp [DcWorld.run, DcWorld.step, DcWorld.init, DcWorld.sendCount,
        DataChannelObserver.SetDataChannel, DataChannelObserver.new, DcWorld.isSend]
    have := DcWorld.sendCount_run (List.replicate k DcEvent.OnStateChange)
      ((DcWorld.init label).run
        [DcEvent.engineState c DataState.kOpen, DcEvent.SetDataChannel (some c)])
    rw [DcWorld.openNotifications_replicate k _ hb, h0] at this
    simpa [DcWorld.run, List.foldl_append] using this

/-! ## How the record grows -/

theorem Adds.refl (P : Action → Prop) (w : World) : Adds P w w :=
  ⟨[], by simp, by simp⟩

theorem Adds.trans {P : Action → Prop} {w1 w2 w3 : World}
    (h12 : Adds P w1 w2) (h23 : Adds P w2 w3) : Adds P w1 w3 := by
  obtain ⟨x, hx, hpx⟩ := h12
  obtain ⟨y, hy, hpy⟩ := h23
  refine ⟨x ++ y, by rw [hy, hx, List.append_assoc], ?_⟩
  intro a ha
  rcases List.mem_append.mp ha with h | h
  · exact hpx a h
  · exact hpy a h

theorem Adds.mono {P Q : Action → Prop} {w1 w2 : World} (h : Adds P w1 w2)
    (hpq : ∀ a, P a → Q a) : Adds Q w1 w2 := by
  obtain ⟨x, hx, hp⟩ := h
  exact ⟨x, hx, fun a ha => hpq a (hp a ha)⟩

theorem Adds.of_trace_eq {P : Action → Prop} {w1 w2 : World} (h : w2.trace = w1.trace) :
    Adds P w1 w2 :=
  ⟨[], by simp [h], by simp⟩

theorem Adds.update (P : Action → Prop) (w1 w2 : World) (h : w2.trace = w1.trace) :
    Adds P w1 w2 :=
  ⟨[], by simp [h], by simp⟩

theorem Adds.log {P : Action → Prop} (w : World) (as : List Action) (h : ∀ a ∈ as, P a) :
    Adds P w (w.log as) :=
  ⟨as, rfl, h⟩

theorem Adds.mem_left {P : Action → Prop} {w1 w2 : World} (h : Adds P w1 w2) {a : Action}
    (ha : a ∈ w1.trace) : a ∈ w2.trace := by
  obtain ⟨x, hx, _⟩ := h
  rw [hx]
  exact List.mem_append_left _ ha

theorem Adds.mem_cases {P : Action → Prop} {w1 w2 : World} (h : Adds P w1 w2) {a : Action}
    (ha : a ∈ w2.trace) : a ∈ w1.trace ∨ P a := by
  obtain ⟨x, hx, hp⟩ := h
  rw [hx] at ha
  rcases List.mem_append.mp ha with h1 | h1
  · exact Or.inl h1
  · exact Or.inr (hp a h1)

theorem Adds.filterMap_eq {β : Type} {f : Action → Option β} {w1 w2 : World}
    (h : Adds (fun a => f a = none) w1 w2) :
    w2.trace.filterMap f = w1.trace.filterMap f := by
  obtain ⟨x, hx, hp⟩ := h
  rw [hx, List.filterMap_append]
  have : x.filterMap f = [] := List.filterMap_eq_nil_iff.mpr hp
  rw [this, List.append_nil]

theorem Adds.filter_eq {sel : Action → Bool} {w1 w2 : World}
    (h : Adds (fun a => sel a = false) w1 w2) :
    w2.trace.filter sel = w1.trace.filter sel := by
  obtain ⟨x, hx, hp⟩ := h
  rw [hx, List.filter_append]
  have : x.filter sel = [] := by
    rw [List.filter_eq_nil_iff]
    intro a ha
    simp [hp a ha]
  rw [this, List.append_nil]

theorem CallbackClosed.of_all {P : Action → Prop} (h : ∀ c, P (Action.callback c)) :
    CallbackClosed P :=
  ⟨fun _ => h _, fun _ _ => h _⟩

theorem deliver_adds (e : Engine) (P : Action → Prop) (hcb : CallbackClosed P)
    (w : World) (ev : Event) : Adds P w (deliver e w ev) := by
  cases ev with
  | pc p cb =>
    refine ⟨((cb.deliver e.CreateIceCandidate (w.observer p)).2.map Action.callback), ?_, ?_⟩
    · cases p <;> simp [deliver, World.log, World.setObserver]
    · intro a ha
      obtain ⟨c, hc, rfl⟩ := List.mem_map.mp ha
      cases cb <;>
        simp [PcCallback.deliver, SimplePeerConnectionObserver.OnDataChannel,
          DataChannelObserver.SetDataChannel] at hc
      subst hc
      exact hcb.1 _
  | dcOnStateChange p =>
    refine ⟨(((w.observer p).data_observer_.OnStateChange w.chanState).map Action.callback),
      ?_, ?_⟩
    · simp [deliver, World.log]
    · intro a ha
      obtain ⟨c, hc, rfl⟩ := List.mem_map.mp ha
      unfold DataChannelObserver.OnStateChange DataChannelObserver.SendHelloMessage at hc
      split at hc
      · split at hc
        · simp at hc
        · split at hc
          · split at hc
            · simp at hc
              subst hc
              exact hcb.2 _ _
            · simp at hc
          · simp at hc
        · simp at hc
        · simp at hc
      · simp at hc
  | dcOnMessage p buffer =>
    apply Adds.of_trace_eq
    cases p <;> simp [deliver, World.setObserver]
  | offer cb => exact Adds.of_trace_eq (by simp [deliver])
  | answer cb => exact Adds.of_trace_eq (by simp [deliver])
  | channelState c s => exact Adds.of_trace_eq (by simp [deliver])

theorem deliverList_adds (e : Engine) (P : Action → Prop) (hcb : CallbackClosed P)
    (evs : List Event) : ∀ w : World, Adds P w (evs.foldl (deliver e) w) := by
  induction evs with
  | nil => intro w; exact Adds.refl P w
  | cons ev rest ih =>
    intro w
    exact (deliver_adds e P hcb w ev).trans (ih _)

theorem tick_adds (e : Engine) (P : Action → Prop) (hcb : CallbackClosed P)
    (w : World) : Adds P w (tick e w) :=
  (deliverList_adds e P hcb (e.events w.clock) w).trans (Adds.of_trace_eq (by simp [tick]))

theorem call_adds (e : Engine) (P : Action → Prop) (hcb : CallbackClosed P)
    (c : EngineCall) (hc : P (Action.call c)) (w : World) : Adds P w (call e c w) :=
  (tick_adds e P hcb w).trans (Adds.log _ _ (by simpa using hc))

theorem sleep_adds (e : Engine) (P : Action → Prop) (hcb : CallbackClosed P)
    (ph : Phase) (hs : P (Action.sleep ph)) (w : World) : Adds P w (sleep e ph w) :=
  (tick_adds e P hcb w).trans (Adds.log _ _ (by simpa using hs))

theorem read_adds (e : Engine) (P : Action → Prop) (hcb : CallbackClosed P)
    (line : Nat) (pr : Probe) (hr : ∀ v, P (Action.read line pr v)) (w : World) :
    Adds P w (read e line pr w).2 :=
  (tick_adds e P hcb w).trans (Adds.log _ _ (by simpa using hr _))

theorem read_adds_val (e : Engine) (P : Action → Prop) (hcb : CallbackClosed P)
    (line : Nat) (pr : Probe) (w : World) (hr : P (Action.read line pr (read e line pr w).1)) :
    Adds P w (read e line pr w).2 :=
  (tick_adds e P hcb w).trans (Adds.log _ _ (by simpa using hr))

theorem takeOffer_adds (e : Engine) (P : Action → Prop) (hcb : CallbackClosed P)
    (line : Nat) (ht : ∀ d, P (Action.take line d)) (w : World) :
    Adds P w (takeOffer e line w).2 :=
  (tick_adds e P hcb w).trans
    ((Adds.update P (tick e w) { tick e w with
        offer_observer := (tick e w).offer_observer.TakeCreatedSDP.2 } rfl).trans
      (Adds.log _ _ (by simpa using ht _)))

theorem takeAnswer_adds (e : Engine) (P : Action → Prop) (hcb : CallbackClosed P)
    (line : Nat) (ht : ∀ d, P (Action.take line d)) (w : World) :
    Adds P w (takeAnswer e line w).2 :=
  (tick_adds e P hcb w).trans
    ((Adds.update P (tick e w) { tick e w with
        answer_observer := (tick e w).answer_observer.TakeCreatedSDP.2 } rfl).trans
      (Adds.log _ _ (by simpa using ht _)))

theorem notBoth_adds (e : Engine) (P : Action → Prop) (hcb : CallbackClosed P)
    (line : Nat) (a : Peer → Probe) (hr : ∀ p v, P (Action.read line (a p) v)) (w : World) :
    Adds P w (notBoth e line a w).2 := by
  unfold notBoth
  split
  · exact (read_adds e P hcb line _ (hr _) w).trans (read_adds e P hcb line _ (hr _) _)
  · exact read_adds e P hcb line _ (hr _) w

theorem both_adds (e : Engine) (P : Action → Prop) (hcb : CallbackClosed P)
    (line : Nat) (a : Peer → Probe) (hr : ∀ p v, P (Action.read line (a p) v)) (w : World) :
    Adds P w (both e line a w).2 := by
  unfold both
  split
  · exact (read_adds e P hcb line _ (hr _) w).trans (read_adds e P hcb line _ (hr _) _)
  · exact read_adds e P hcb line _ (hr _) w

theorem waitSuccessful_adds (e : Engine) (P : Action → Prop) (hcb : CallbackClosed P)
    (line : Nat) (pr : Probe) (ph : Phase) (hr : ∀ v, P (Action.read line pr v))
    (hs : P (Action.sleep ph)) (n : Nat) :
    ∀ w : World, Adds P w (waitSuccessful e line pr ph n w) := by
  induction n with
  | zero => intro w; exact read_adds e P hcb line pr hr w
  | succ k ih =>
    intro w
    unfold waitSuccessful
    split
    · exact read_adds e P hcb line pr hr w
    · exact ((read_adds e P hcb line pr hr w).trans (sleep_adds e P hcb ph hs _)).trans (ih _)

theorem waitBoth_adds (e : Engine) (P : Action → Prop) (hcb : CallbackClosed P)
    (line : Nat) (a : Peer → Probe) (ph : Phase) (hr : ∀ p v, P (Action.read line (a p) v))
    (hs : P (Action.sleep ph)) (n : Nat) :
    ∀ w : World, Adds P w (waitBoth e line a ph n w) := by
  induction n with
  | zero => intro w; exact notBoth_adds e P hcb line a hr w
  | succ k ih =>
    intro w
    unfold waitBoth
    split
    · exact ((notBoth_adds e P hcb line a hr w).trans (sleep_adds e P hcb ph hs _)).trans (ih _)
    · exact notBoth_adds e P hcb line a hr w

theorem addAll_adds (e : Engine) (P : Action → Prop) (hcb : CallbackClosed P)
    (src pc : Peer) (hc : ∀ c, P (Action.call (EngineCall.AddIceCandidate pc c)))
    (cs : List IceCandidate) :
    ∀ w : World, Adds P w (LocalSignaling.addAll e src pc cs w) := by
  induction cs with
  | nil => intro w; exact Adds.refl P w
  | cons c rest ih =>
    intro w
    unfold LocalSignaling.addAll
    split
    · exact (call_adds e P hcb _ (hc c) w).trans (ih _)
    · exact (tick_adds e P hcb w).trans (Adds.of_trace_eq rfl)

theorem relay1_adds (e : Engine) (P : Action → Prop)
    (hcb : CallbackClosed P) (hx : P Action.exchange)
    (hc : ∀ p c, P (Action.call (EngineCall.AddIceCandidate p c))) (w : World) :
    Adds P w (LocalSignaling.relay1 e w) :=
  (((Adds.log w [Action.exchange] (by simpa using hx)).trans (tick_adds e P hcb _)).trans
    (Adds.of_trace_eq rfl)).trans (addAll_adds e P hcb _ _ (hc _) _ _)

theorem relay2_adds (e : Engine) (P : Action → Prop)
    (hcb : CallbackClosed P)
    (hc : ∀ p c, P (Action.call (EngineCall.AddIceCandidate p c))) (w : World) :
    Adds P w (LocalSignaling.relay2 e w) :=
  ((tick_adds e P hcb _).trans (Adds.of_trace_eq rfl)).trans
    (addAll_adds e P hcb _ _ (hc _) _ _)

theorem ExchangeICECandidates_adds (e : Engine) (P : Action → Prop)
    (hcb : CallbackClosed P) (hx : P Action.exchange)
    (hc : ∀ p c, P (Action.call (EngineCall.AddIceCandidate p c))) (w : World) :
    Adds P w (LocalSignaling.ExchangeICECandidates e w) := by
  have h1 := relay1_adds e P hcb hx hc w
  have h2 := relay2_adds e P hcb hc (LocalSignaling.relay1 e w)
  have h3 : ∀ v : World, Adds P v (LocalSignaling.clear1 e v) := fun v =>
    (tick_adds e P hcb v).trans (Adds.of_trace_eq rfl)
  have h4 : ∀ v : World, Adds P v (LocalSignaling.clear2 e v) := fun v =>
    (tick_adds e P hcb v).trans (Adds.of_trace_eq rfl)
  unfold LocalSignaling.ExchangeICECandidates
  split
  · exact h1
  · split
    · exact h1.trans h2
    · exact ((h1.trans h2).trans (h3 _)).trans (h4 _)

theorem gatheringLoop_adds (e : Engine) (P : Action → Prop)
    (hcb : CallbackClosed P) (hx : P Action.exchange)
    (hc : ∀ p c, P (Action.call (EngineCall.AddIceCandidate p c)))
    (hr : ∀ p v, P (Action.read 188 (Probe.gatheringComplete p) v))
    (hs : P (Action.sleep Phase.gathering)) (n : Nat) :
    ∀ w : World, Adds P w (gatheringLoop e n w) := by
  induction n with
  | zero => intro w; exact notBoth_adds e P hcb 188 _ hr w
  | succ k ih =>
    intro w
    unfold gatheringLoop
    have hb := ((notBoth_adds e P hcb 188 _ hr w).trans (sleep_adds e P hcb _ hs _)).trans
      (ExchangeICECandidates_adds e P hcb hx hc _)
    split
    · split
      · split
        · exact hb
        · exact hb.trans (ih _)
      · exact ((notBoth_adds e P hcb 188 _ hr w).trans (sleep_adds e P hcb _ hs _)).trans (ih _)
    · exact notBoth_adds e P hcb 188 _ hr w

/-- The four ways one turn of the gathering loop can go: the condition is
false and the loop is left; the body sleeps and the loop goes on; the body
sleeps, runs a batch and the loop goes on; the body sleeps and runs a batch
that ends `invalidated`, where the run is no longer followed. -/
theorem gatheringLoop_cases (e : Engine) (n : Nat) (w : World) :
    ((notBoth e 188 Probe.gatheringComplete w).1 = false
      ∧ gatheringLoop e (n + 1) w = (notBoth e 188 Probe.gatheringComplete w).2)
    ∨ ((notBoth e 188 Probe.gatheringComplete w).1 = true ∧ n % 10 ≠ 0
      ∧ gatheringLoop e (n + 1) w
          = gatheringLoop e n (sleep e Phase.gathering (notBoth e 188 Probe.gatheringComplete w).2))
    ∨ ((notBoth e 188 Probe.gatheringComplete w).1 = true ∧ n % 10 = 0
      ∧ (LocalSignaling.ExchangeICECandidates e
          (sleep e Phase.gathering (notBoth e 188 Probe.gatheringComplete w).2)).invalidated = false
      ∧ gatheringLoop e (n + 1) w
          = gatheringLoop e n (LocalSignaling.ExchangeICECandidates e
              (sleep e Phase.gathering (notBoth e 188 Probe.gatheringComplete w).2)))
    ∨ ((notBoth e 188 Probe.gatheringComplete w).1 = true ∧ n % 10 = 0
      ∧ (LocalSignaling.ExchangeICECandidates e
          (sleep e Phase.gathering (notBoth e 188 Probe.gatheringComplete w).2)).invalidated = true
      ∧ gatheringLoop e (n + 1) w
          = LocalSignaling.ExchangeICECandidates e
              (sleep e Phase.gathering (notBoth e 188 Probe.gatheringComplete w).2)) := by
  cases hc : (notBoth e 188 Probe.gatheringComplete w).1 with
  | false =>
    refine Or.inl ⟨rfl, ?_⟩
    rw [gatheringLoop, if_neg (by simp [hc])]
  | true =>
    by_cases hk : n % 10 = 0
    · cases hv : (LocalSignaling.ExchangeICECandidates e
          (sleep e Phase.gathering (notBoth e 188 Probe.gatheringComplete w).2)).invalidated with
      | false =>
        refine Or.inr (Or.inr (Or.inl ⟨rfl, hk, rfl, ?_⟩))
        rw [gatheringLoop, if_pos hc, if_pos hk, if_neg (by simp [hv])]
      | true =>
        refine Or.inr (Or.inr (Or.inr ⟨rfl, hk, rfl, ?_⟩))
        rw [gatheringLoop, if_pos hc, if_pos hk, if_pos hv]
    · refine Or.inr (Or.inl ⟨rfl, hk, ?_⟩)
      rw [gatheringLoop, if_pos hc, if_neg hk]

/-- A gathering stage that does not end `invalidated` ran its loop to the end
and then the final batch. -/
theorem gatheringStage_of_valid (e : Engine) (w : World)
    (h : (gatheringStage e w).invalidated = false) :
    (gatheringLoop e 100 w).invalidated = false
    ∧ gatheringStage e w = LocalSignaling.ExchangeICECandidates e (gatheringLoop e 100 w) := by
  cases hl : (gatheringLoop e 100 w).invalidated with
  | false =>
    refine ⟨rfl, ?_⟩
    rw [gatheringStage, if_neg (by simp [hl])]
  | true =>
    rw [gatheringStage, if_pos hl, hl] at h
    cases h

/-! ## Properties of the state that survive a program point -/

theorem Stable.of_deliver (e : Engine) (I : World → Prop)
    (hd : ∀ w ev, I w → I (deliver e w ev))
    (hc : ∀ w k, I w → I { w with clock := k })
    (hl : ∀ w as, I w → I (w.log as)) : Stable e I := by
  refine ⟨?_, hl⟩
  intro w hw
  have key : ∀ (evs : List Event) (v : World), I v → I (evs.foldl (deliver e) v) := by
    intro evs
    induction evs with
    | nil => intro v hv; exact hv
    | cons ev rest ih => intro v hv; exact ih _ (hd v ev hv)
  exact hc _ _ (key _ w hw)

theorem Stable.call {e : Engine} {I : World → Prop} (h : Stable e I) (c : EngineCall)
    {w : World} (hw : I w) : I (call e c w) :=
  h.2 _ _ (h.1 _ hw)

theorem Stable.sleep {e : Engine} {I : World → Prop} (h : Stable e I) (ph : Phase)
    {w : World} (hw : I w) : I (sleep e ph w) :=
  h.2 _ _ (h.1 _ hw)

theorem Stable.read {e : Engine} {I : World → Prop} (h : Stable e I) (line : Nat) (pr : Probe)
    {w : World} (hw : I w) : I (read e line pr w).2 :=
  h.2 _ _ (h.1 _ hw)

theorem Stable.notBoth {e : Engine} {I : World → Prop} (h : Stable e I) (line : Nat)
    (a : Peer → Probe) {w : World} (hw : I w) : I (notBoth e line a w).2 := by
  unfold WebrtcExample.notBoth
  split
  · exact h.read _ _ (h.read _ _ hw)
  · exact h.read _ _ hw

theorem Stable.both {e : Engine} {I : World → Prop} (h : Stable e I) (line : Nat)
    (a : Peer → Probe) {w : World} (hw : I w) : I (both e line a w).2 := by
  unfold WebrtcExample.both
  split
  · exact h.read _ _ (h.read _ _ hw)
  · exact h.read _ _ hw

theorem Stable.waitSuccessful {e : Engine} {I : World → Prop} (h : Stable e I) (line : Nat)
    (pr : Probe) (ph : Phase) (n : Nat) :
    ∀ w : World, I w → I (waitSuccessful e line pr ph n w) := by
  induction n with
  | zero => intro w hw; exact h.read _ _ hw
  | succ k ih =>
    intro w hw
    unfold WebrtcExample.waitSuccessful
    split
    · exact h.read _ _ hw
    · exact ih _ (h.sleep _ (h.read _ _ hw))

theorem Stable.waitBoth {e : Engine} {I : World → Prop} (h : Stable e I) (line : Nat)
    (a : Peer → Probe) (ph : Phase) (n : Nat) :
    ∀ w : World, I w → I (waitBoth e line a ph n w) := by
  induction n with
  | zero => intro w hw; exact h.notBoth _ _ hw
  | succ k ih =>
    intro w hw
    unfold WebrtcExample.waitBoth
    split
    · exact ih _ (h.sleep _ (h.notBoth _ _ hw))
    · exact h.notBoth _ _ hw

theorem offer_created_of_success (e : Engine) :
    Stable e (fun w => w.offer_observer.success_ = true → w.offer_observer.created_sdp_ ≠ none) := by
  apply Stable.of_deliver
  · intro w ev hw
    cases ev with
    | pc p cb => cases p <;> simpa [deliver, World.log, World.setObserver] using hw
    | dcOnStateChange p => simpa [deliver, World.log] using hw
    | dcOnMessage p buffer => cases p <;> simpa [deliver, World.setObserver] using hw
    | offer cb =>
      cases cb with
      | OnSuccess desc => simp [deliver, SdpCallback.deliver, CreateSDPObserver.OnSuccess]
      | OnFailure error => simp [deliver, SdpCallback.deliver, CreateSDPObserver.OnFailure]
    | answer cb => simpa [deliver] using hw
    | channelState c s => simpa [deliver] using hw
  · intro w k hw; exact hw
  · intro w as hw; exact hw

theorem offer_created_stays (e : Engine) :
    Stable e (fun w => w.offer_observer.created_sdp_ ≠ none) := by
  apply Stable.of_deliver
  · intro w ev hw
    cases ev with
    | pc p cb => cases p <;> simpa [deliver, World.log, World.setObserver] using hw
    | dcOnStateChange p => simpa [deliver, World.log] using hw
    | dcOnMessage p buffer => cases p <;> simpa [deliver, World.setObserver] using hw
    | offer cb =>
      cases cb with
      | OnSuccess desc => simp [deliver, SdpCallback.deliver, CreateSDPObserver.OnSuccess]
      | OnFailure error =>
        simpa [deliver, SdpCallback.deliver, CreateSDPObserver.OnFailure] using hw
    | answer cb => simpa [deliver] using hw
    | channelState c s => simpa [deliver] using hw
  · intro w k hw; exact hw
  · intro w as hw; exact hw

theorem answer_created_of_success (e : Engine) :
    Stable e
      (fun w => w.answer_observer.success_ = true → w.answer_observer.created_sdp_ ≠ none) := by
  apply Stable.of_deliver
  · intro w ev hw
    cases ev with
    | pc p cb => cases p <;> simpa [deliver, World.log, World.setObserver] using hw
    | dcOnStateChange p => simpa [deliver, World.log] using hw
    | dcOnMessage p buffer => cases p <;> simpa [deliver, World.setObserver] using hw
    | offer cb => simpa [deliver] using hw
    | answer cb =>
      cases cb with
      | OnSuccess desc => simp [deliver, SdpCallback.deliver, CreateSDPObserver.OnSuccess]
      | OnFailure error => simp [deliver, SdpCallback.deliver, CreateSDPObserver.OnFailure]
    | channelState c s => simpa [deliver] using hw
  · intro w k hw; exact hw
  · intro w as hw; exact hw

theorem answer_created_stays (e : Engine) :
    Stable e (fun w => w.answer_observer.created_sdp_ ≠ none) := by
  apply Stable.of_deliver
  · intro w ev hw
    cases ev with
    | pc p cb => cases p <;> simpa [deliver, World.log, World.setObserver] using hw
    | dcOnStateChange p => simpa [deliver, World.log] using hw
    | dcOnMessage p buffer => cases p <;> simpa [deliver, World.setObserver] using hw
    | offer cb => simpa [deliver] using hw
    | answer cb =>
      cases cb with
      | OnSuccess desc => simp [deliver, SdpCallback.deliver, CreateSDPObserver.OnSuccess]
      | OnFailure error =>
        simpa [deliver, SdpCallback.deliver, CreateSDPObserver.OnFailure] using hw
    | channelState c s => simpa [deliver] using hw
  · intro w k hw; exact hw
  · intro w as hw; exact hw

/-- When the check at line 131 sees success, line 137 takes a description. -/
theorem offer_taken (e : Engine) (w : World) (h : (offerCheck e w).1 = true) :
    ∃ offer, (takeOffer e 137 (offerCheck e w).2).1 = some offer := by
  have h0 : (fun v : World => v.offer_observer.success_ = true →
      v.offer_observer.created_sdp_ ≠ none)
      { w with offer_observer := CreateSDPObserver.Create } := by
    simp [CreateSDPObserver.Create]
  have h1 := (offer_created_of_success e).1 _
    ((offer_created_of_success e).waitSuccessful 127 .offerSuccessful .offer 50 _
      ((offer_created_of_success e).call (.CreateOffer .pc1) h0))
  have h2 : (tick e (offerWait e w)).offer_observer.created_sdp_ ≠ none := by
    apply h1
    simpa [offerCheck, read, World.probe, CreateSDPObserver.IsSuccessful, offerWait] using h
  have h3 : (offerCheck e w).2.offer_observer.created_sdp_ ≠ none := by
    simpa [offerCheck, read, World.log] using h2
  have h4 := (offer_created_stays e).1 _ h3
  have h5 : (takeOffer e 137 (offerCheck e w).2).1 ≠ none := by
    simpa [takeOffer, CreateSDPObserver.TakeCreatedSDP] using h4
  exact Option.ne_none_iff_exists'.mp h5

/-- When the check at line 162 sees success, line 167 takes a description. -/
theorem answer_taken (e : Engine) (d : Option SessionDescription) (w : World)
    (h : (answerCheck e d w).1 = true) :
    ∃ answer, (takeAnswer e 167 (answerCheck e d w).2).1 = some answer := by
  have h0 : (fun v : World => v.answer_observer.success_ = true →
      v.answer_observer.created_sdp_ ≠ none)
      { w with answer_observer := CreateSDPObserver.Create } := by
    simp [CreateSDPObserver.Create]
  have hx : (fun v : World => v.answer_observer.success_ = true →
      v.answer_observer.created_sdp_ ≠ none)
      (LocalSignaling.ExchangeSDPs e d { w with answer_observer := CreateSDPObserver.Create }) :=
    (answer_created_of_success e).call _
      ((answer_created_of_success e).sleep _ ((answer_created_of_success e).call _ h0))
  have h1 := (answer_created_of_success e).1 _
    ((answer_created_of_success e).waitSuccessful 158 .answerSuccessful .answer 50 _ hx)
  have h2 : (tick e (answerWait e d w)).answer_observer.created_sdp_ ≠ none := by
    apply h1
    simpa [answerCheck, read, World.probe, CreateSDPObserver.IsSuccessful, answerWait] using h
  have h3 : (answerCheck e d w).2.answer_observer.created_sdp_ ≠ none := by
    simpa [answerCheck, read, World.log] using h2
  have h4 := (answer_created_stays e).1 _ h3
  have h5 : (takeAnswer e 167 (answerCheck e d w).2).1 ≠ none := by
    simpa [takeAnswer, CreateSDPObserver.TakeCreatedSDP] using h4
  exact Option.ne_none_iff_exists'.mp h5

/-- The three ways a run that passed line 117 in state `w` can end: the offer
check fails; the answer check fails; or both succeed and the run goes through
the late stages. -/
theorem main_cases (e : Engine) (w : World) (hs : setup e = Step.next w) :
    ((offerCheck e w).1 = false
      ∧ main e = { exit := some (-1), summary := none, world := (offerCheck e w).2 })
    ∨ ((offerCheck e w).1 = true
      ∧ ∃ offer, (takeOffer e 137 (offerCheck e w).2).1 = some offer
        ∧ (((answerCheckOf e offer w).1 = false
            ∧ main e = { exit := some (-1), summary := none,
                         world := (answerCheckOf e offer w).2 })
          ∨ ((answerCheckOf e offer w).1 = true
            ∧ ∃ answer, (takeAnswer e 167 (answerCheckOf e offer w).2).1 = some answer
              ∧ main e = lateStages e (afterAnswer e offer answer w)))) := by
  cases h1 : (offerCheck e w).1 with
  | false =>
    left
    refine ⟨rfl, ?_⟩
    simp [main, hs, offerStage, h1]
  | true =>
    right
    refine ⟨rfl, ?_⟩
    obtain ⟨offer, ho⟩ := offer_taken e w h1
    refine ⟨offer, ho, ?_⟩
    cases h2 : (answerCheckOf e offer w).1 with
    | false =>
      left
      refine ⟨rfl, ?_⟩
      have h2b : (answerCheck e (offerHandoff e offer (takeOffer e 137 (offerCheck e w).2).2).2
          (offerHandoff e offer (takeOffer e 137 (offerCheck e w).2).2).1).1 = false := h2
      simp [main, hs, offerStage, h1, ho, answerStage, h2b, answerCheckOf, afterOffer]
    | true =>
      right
      refine ⟨rfl, ?_⟩
      have h2b : (answerCheck e (offerHandoff e offer (takeOffer e 137 (offerCheck e w).2).2).2
          (offerHandoff e offer (takeOffer e 137 (offerCheck e w).2).2).1).1 = true := h2
      obtain ⟨answer, ha⟩ := answer_taken e _ _ h2b
      refine ⟨answer, ha, ?_⟩
      simp [main, hs, offerStage, h1, ho, answerStage, h2b, ha, afterAnswer, answerCheckOf,
        afterOffer]

/-! ## The record of each part of a run -/

theorem emits_callbackClosed (s : Segment) : CallbackClosed (Emits s) :=
  ⟨fun c => Emits.register s c, fun c msg => Emits.send s c msg⟩

theorem emitsAny_callbackClosed (s : Segment) (ss : List Segment) :
    CallbackClosed (EmitsAny (s :: ss)) :=
  ⟨fun c => ⟨s, List.mem_cons_self _ _, Emits.register s c⟩,
   fun c msg => ⟨s, List.mem_cons_self _ _, Emits.send s c msg⟩⟩

theorem EmitsAny.of_mem {s : Segment} {ss : List Segment} (hs : s ∈ ss) {a : Action}
    (h : Emits s a) : EmitsAny ss a :=
  ⟨s, hs, h⟩

theorem Adds.any {s : Segment} {w1 w2 : World} (h : Adds (Emits s) w1 w2) (ss : List Segment)
    (hs : s ∈ ss) : Adds (EmitsAny ss) w1 w2 :=
  h.mono (fun _ ha => EmitsAny.of_mem hs ha)

theorem newDescription_trace (e : Engine) (kind : SdpType) (sdp : String) (w : World) :
    (newDescription e kind sdp w).2.trace = w.trace := by
  unfold newDescription
  split <;> rfl

theorem read_trace (e : Engine) (line : Nat) (pr : Probe) (w : World) :
    (read e line pr w).2.trace = (tick e w).trace ++ [Action.read line pr (read e line pr w).1] :=
  rfl

theorem call_trace (e : Engine) (c : EngineCall) (w : World) :
    (call e c w).trace = (tick e w).trace ++ [Action.call c] :=
  rfl

theorem sleep_trace (e : Engine) (ph : Phase) (w : World) :
    (sleep e ph w).trace = (tick e w).trace ++ [Action.sleep ph] :=
  rfl

theorem bindDataChannel_adds (e : Engine) (P : Action → Prop) (hcb : CallbackClosed P)
    (dc : ChanId) (hc : P (Action.call (EngineCall.RegisterObserver dc))) (w : World) :
    Adds P w (bindDataChannel e dc w) := by
  refine (tick_adds e P hcb w).trans ?_
  refine ⟨[Action.call (EngineCall.RegisterObserver dc)], ?_, by simpa using hc⟩
  simp [bindDataChannel, World.log, DataChannelObserver.SetDataChannel]

theorem setup_next (e : Engine) (dc : ChanId) (hf : e.factory_ok = true)
    (h1 : e.pc1_ok = true) (h2 : e.pc2_ok = true) (hd : e.data_channel = some dc) :
    ∃ w, setup e = Step.next w ∧ Adds (Emits (Segment.setup dc)) World.start w := by
  have hcb := emits_callbackClosed (Segment.setup dc)
  have hc : ∀ c ∈ setupCalls dc, Emits (Segment.setup dc) (Action.call c) :=
    fun c hc => Emits.setupCall dc c hc
  refine ⟨_, by simp only [setup, hf, h1, h2, hd, Bool.not_true, Bool.false_eq_true, if_false]; rfl, ?_⟩
  have a1 := call_adds e _ hcb .InitializeSSL (hc _ (by simp [setupCalls])) World.start
  have a2 := call_adds e _ hcb .CreatePeerConnectionFactory (hc _ (by simp [setupCalls]))
    (call e .InitializeSSL World.start)
  have a3 := call_adds e _ hcb (.CreatePeerConnectionOrError .pc1) (hc _ (by simp [setupCalls]))
    { call e .CreatePeerConnectionFactory (call e .InitializeSSL World.start) with
      observer1 := SimplePeerConnectionObserver.new "Peer1",
      observer2 := SimplePeerConnectionObserver.new "Peer2" }
  have a4 := call_adds e _ hcb (.CreatePeerConnectionOrError .pc2) (hc _ (by simp [setupCalls]))
    (call e (.CreatePeerConnectionOrError .pc1)
      { call e .CreatePeerConnectionFactory (call e .InitializeSSL World.start) with
        observer1 := SimplePeerConnectionObserver.new "Peer1",
        observer2 := SimplePeerConnectionObserver.new "Peer2" })
  have a5 := call_adds e _ hcb (.CreateDataChannelOrError .pc1 "hello_channel")
    (hc _ (by simp [setupCalls])) (call e (.CreatePeerConnectionOrError .pc2)
    (call e (.CreatePeerConnectionOrError .pc1)
      { call e .CreatePeerConnectionFactory (call e .InitializeSSL World.start) with
        observer1 := SimplePeerConnectionObserver.new "Peer1",
        observer2 := SimplePeerConnectionObserver.new "Peer2" }))
  have a6 := bindDataChannel_adds e _ hcb dc (hc _ (by simp [setupCalls]))
    (call e (.CreateDataChannelOrError .pc1 "hello_channel")
    (call e (.CreatePeerConnectionOrError .pc2)
    (call e (.CreatePeerConnectionOrError .pc1)
      { call e .CreatePeerConnectionFactory (call e .InitializeSSL World.start) with
        observer1 := SimplePeerConnectionObserver.new "Peer1",
        observer2 := SimplePeerConnectionObserver.new "Peer2" })))
  exact ((((a1.trans a2).trans (Adds.of_trace_eq rfl)).trans a3).trans a4).trans (a5.trans a6)

theorem offerWait_adds (e : Engine) (w : World) :
    Adds (Emits Segment.offerWait) w (offerWait e w) := by
  have hcb := emits_callbackClosed Segment.offerWait
  exact ((Adds.update _ w { w with offer_observer := CreateSDPObserver.Create } rfl).trans
    (call_adds e _ hcb _ Emits.createOffer _)).trans
    (waitSuccessful_adds e _ hcb 127 _ _ Emits.readOffer Emits.sleepOffer 50 _)

theorem offerHandoff_adds (e : Engine) (offer : SessionDescription) (w : World) :
    Adds (Emits Segment.offerHandoff) (offerCheck e w).2 (afterOffer e offer w).1 := by
  have hcb := emits_callbackClosed Segment.offerHandoff
  refine (takeOffer_adds e _ hcb 137 Emits.takeOffer _).trans ?_
  refine (Adds.of_trace_eq ?_).trans (call_adds e _ hcb _ (Emits.setLocal1 _) _)
  rw [newDescription_trace, newDescription_trace]

theorem answerWait_adds (e : Engine) (d : Option SessionDescription) (w : World) :
    Adds (EmitsAny [Segment.exchangeSDPs, Segment.answerPoll]) w (answerWait e d w) := by
  have hcb := emitsAny_callbackClosed Segment.exchangeSDPs [Segment.answerPoll]
  have hx : ∀ {a}, Emits Segment.exchangeSDPs a →
      EmitsAny [Segment.exchangeSDPs, Segment.answerPoll] a :=
    fun h => EmitsAny.of_mem (by simp) h
  have hp : ∀ {a}, Emits Segment.answerPoll a →
      EmitsAny [Segment.exchangeSDPs, Segment.answerPoll] a :=
    fun h => EmitsAny.of_mem (by simp) h
  refine (Adds.update _ w { w with answer_observer := CreateSDPObserver.Create } rfl).trans ?_
  refine Adds.trans ?_
    (waitSuccessful_adds e _ hcb 158 _ _ (fun v => hp (Emits.readAnswer v)) (hp Emits.sleepAnswer) 50 _)
  exact ((call_adds e _ hcb _ (hx (Emits.setRemote2 d)) _).trans
    (sleep_adds e _ hcb _ (hx Emits.settle) _)).trans
    (call_adds e _ hcb _ (hx Emits.createAnswer) _)

theorem answerHandoff_adds (e : Engine) (offer answer : SessionDescription) (w : World) :
    Adds (Emits Segment.answerHandoff) (answerCheckOf e offer w).2 (afterAnswer e offer answer w) := by
  have hcb := emits_callbackClosed Segment.answerHandoff
  refine (takeAnswer_adds e _ hcb 167 Emits.takeAnswer _).trans ?_
  refine (Adds.of_trace_eq ?_).trans
    ((call_adds e _ hcb _ (Emits.setLocal2 _) _).trans (call_adds e _ hcb _ (Emits.setRemote1 _) _))
  rw [newDescription_trace, newDescription_trace]

theorem gatheringStage_adds (e : Engine) (w : World) :
    Adds (Emits Segment.gathering) w (gatheringStage e w) := by
  have hcb := emits_callbackClosed Segment.gathering
  have hl := gatheringLoop_adds e _ hcb Emits.exchange Emits.addCandidate Emits.readGathering
    Emits.sleepGathering 100 w
  unfold gatheringStage
  split
  · exact hl
  · exact hl.trans (ExchangeICECandidates_adds e _ hcb Emits.exchange Emits.addCandidate _)

theorem connectionStage_adds (e : Engine) (w : World) :
    Adds (Emits Segment.connection) w (connectionStage e w) := by
  have hcb := emits_callbackClosed Segment.connection
  have h1 := waitBoth_adds e _ hcb 204 Probe.peerConnected Phase.connection
    Emits.readConnected Emits.sleepConnection 100 w
  have h2 := both_adds e _ hcb 208 Probe.peerConnected Emits.checkConnected
    (waitBoth e 204 Probe.peerConnected Phase.connection 100 w)
  unfold connectionStage
  simp only
  split
  · exact ((h1.trans h2).trans
      (waitBoth_adds e _ hcb 214 Probe.receivedMessage Phase.message
        Emits.readMessage Emits.sleepMessage 50 _)).trans
      (both_adds e _ hcb 218 Probe.receivedMessage Emits.checkMessage _)
  · exact h1.trans h2

theorem report_adds (e : Engine) (w : World) :
    Adds (Emits Segment.report) w (report e w).world := by
  have hcb := emits_callbackClosed Segment.report
  exact (((read_adds e _ hcb 230 _ Emits.summary1 w).trans
    (read_adds e _ hcb 231 _ Emits.summary2 _)).trans
    (both_adds e _ hcb 232 Probe.receivedMessage Emits.summary3 _)).trans
    (call_adds e _ hcb _ Emits.cleanup _)

theorem lateStages_adds (e : Engine) (w : World) :
    Adds (EmitsAny [Segment.gathering, Segment.connection, Segment.report]) w
      (lateStages e w).world := by
  unfold lateStages
  split
  · exact (gatheringStage_adds e w).any _ (by simp)
  · exact (((gatheringStage_adds e w).any _ (by simp)).trans
      ((connectionStage_adds e _).any _ (by simp))).trans ((report_adds e _).any _ (by simp))

theorem lateStages_of_valid (e : Engine) (w : World)
    (h : (gatheringStage e w).invalidated = false) :
    lateStages e w = report e (connectionStage e (gatheringStage e w)) := by
  unfold lateStages
  rw [if_neg (by simp [h])]

theorem lateStages_of_invalidated (e : Engine) (w : World)
    (h : (gatheringStage e w).invalidated = true) :
    lateStages e w = { exit := none, summary := none, world := gatheringStage e w } := by
  unfold lateStages
  rw [if_pos h]

/-- A run of the late stages that ends in a state not marked `invalidated`
went through the connection stage and the report. -/
theorem lateStages_defined (e : Engine) (w : World)
    (h : (lateStages e w).world.invalidated = false) :
    (gatheringStage e w).invalidated = false
    ∧ lateStages e w = report e (connectionStage e (gatheringStage e w)) := by
  cases hg : (gatheringStage e w).invalidated with
  | false => exact ⟨rfl, lateStages_of_valid e w hg⟩
  | true =>
    rw [lateStages_of_invalidated e w hg] at h
    rw [hg] at h
    cases h

/-- The late stages return a value only through the report. -/
theorem lateStages_of_exit (e : Engine) (w : World) (v : Int)
    (h : (lateStages e w).exit = some v) :
    (gatheringStage e w).invalidated = false
    ∧ lateStages e w = report e (connectionStage e (gatheringStage e w)) := by
  cases hg : (gatheringStage e w).invalidated with
  | false => exact ⟨rfl, lateStages_of_valid e w hg⟩
  | true =>
    rw [lateStages_of_invalidated e w hg] at h
    cases h

/-! ## Requests and sleeps in the record -/

theorem Adds.all_of_start {P : Action → Prop} {w : World} (h : Adds P World.start w) :
    ∀ a ∈ w.trace, P a := by
  obtain ⟨x, hx, hp⟩ := h
  intro a ha
  rw [hx] at ha
  simpa [World.start] using hp a (by simpa [World.start] using ha)

theorem driverCalls_of_adds {w1 w2 : World} (h : Adds (fun a => a.asCall = none) w1 w2) :
    driverCalls w2.trace = driverCalls w1.trace :=
  h.filterMap_eq

theorem asCall_callbackClosed : CallbackClosed (fun a => a.asCall = none) :=
  ⟨fun _ => rfl, fun _ _ => rfl⟩

theorem driverCalls_tick (e : Engine) (w : World) :
    driverCalls (tick e w).trace = driverCalls w.trace :=
  driverCalls_of_adds (tick_adds e _ asCall_callbackClosed w)

theorem driverCalls_call (e : Engine) (c : EngineCall) (w : World) :
    driverCalls (call e c w).trace = driverCalls w.trace ++ [c] := by
  rw [call_trace]
  unfold driverCalls
  rw [List.filterMap_append]
  have := driverCalls_tick e w
  unfold driverCalls at this
  rw [this]
  rfl

theorem driverCalls_bindDataChannel (e : Engine) (dc : ChanId) (w : World) :
    driverCalls (bindDataChannel e dc w).trace
      = driverCalls w.trace ++ [EngineCall.RegisterObserver dc] := by
  have h : (bindDataChannel e dc w).trace
      = (tick e w).trace ++ [Action.call (EngineCall.RegisterObserver dc)] := by
    simp [bindDataChannel, World.log, DataChannelObserver.SetDataChannel]
  rw [h]
  unfold driverCalls
  rw [List.filterMap_append]
  have := driverCalls_tick e w
  unfold driverCalls at this
  rw [this]
  rfl

theorem driverCalls_setup (e : Engine) (dc : ChanId) (w : World)
    (hf : e.factory_ok = true) (h1 : e.pc1_ok = true) (h2 : e.pc2_ok = true)
    (hd : e.data_channel = some dc) (hs : setup e = Step.next w) :
    driverCalls w.trace = setupCalls dc := by
  simp only [setup, hf, h1, h2, hd, Bool.not_true, Bool.false_eq_true, if_false] at hs
  injection hs with hs
  subst hs
  rw [driverCalls_bindDataChannel, driverCalls_call, driverCalls_call, driverCalls_call]
  have : driverCalls
      ({ call e EngineCall.CreatePeerConnectionFactory (call e EngineCall.InitializeSSL World.start)
          with observer1 := SimplePeerConnectionObserver.new "Peer1",
               observer2 := SimplePeerConnectionObserver.new "Peer2" } : World).trace
      = driverCalls (call e EngineCall.CreatePeerConnectionFactory
          (call e EngineCall.InitializeSSL World.start)).trace := rfl
  rw [this, driverCalls_call, driverCalls_call]
  rfl

theorem sleepCount_of_adds {ph : Phase} {w1 w2 : World}
    (h : Adds (fun a => a ≠ Action.sleep ph) w1 w2) :
    sleepCount ph w2.trace = sleepCount ph w1.trace := by
  obtain ⟨x, hx, hp⟩ := h
  unfold sleepCount
  rw [hx, List.count_append]
  have : List.count (Action.sleep ph) x = 0 :=
    List.count_eq_zero.mpr (fun hmem => hp _ hmem rfl)
  omega

theorem sleep_callbackClosed (ph : Phase) : CallbackClosed (fun a => a ≠ Action.sleep ph) :=
  ⟨fun _ h => (by cases h), fun _ _ h => (by cases h)⟩

theorem sleepCount_read (e : Engine) (ph : Phase) (line : Nat) (pr : Probe) (w : World) :
    sleepCount ph (read e line pr w).2.trace = sleepCount ph w.trace :=
  sleepCount_of_adds (read_adds e _ (sleep_callbackClosed ph) line pr (fun _ h => by cases h) w)

theorem sleepCount_sleep (e : Engine) (ph : Phase) (w : World) :
    sleepCount ph (sleep e ph w).trace = sleepCount ph w.trace + 1 := by
  have h := sleepCount_of_adds (tick_adds e _ (sleep_callbackClosed ph) w)
  unfold sleepCount at h ⊢
  rw [sleep_trace, List.count_append, h]
  simp

/-- A wait on `IsSuccessful()` that never sees success sleeps once for every
unit of its budget. -/
theorem waitSuccessful_timeout (e : Engine) (line : Nat) (pr : Probe) (ph : Phase) (n : Nat) :
    ∀ w : World,
      (∀ a ∈ (waitSuccessful e line pr ph n w).trace, a.isRead pr true = false) →
      sleepCount ph (waitSuccessful e line pr ph n w).trace = sleepCount ph w.trace + n := by
  induction n with
  | zero =>
    intro w _
    exact sleepCount_read e ph line pr w
  | succ k ih =>
    intro w h
    unfold waitSuccessful at h ⊢
    cases hr : (read e line pr w).1 with
    | true =>
      exfalso
      rw [if_pos hr] at h
      have hm : Action.read line pr true ∈ (read e line pr w).2.trace := by
        rw [read_trace, hr]
        simp
      have := h _ hm
      simp [Action.isRead] at this
    | false =>
      rw [if_neg (by simp [hr])] at h ⊢
      rw [ih _ h, sleepCount_sleep, sleepCount_read]
      omega

/-! ## The offer timeout (C4) -/

/-- The record of a run that passed line 117 and failed the check at line 131
consists of setup and offer-wait entries followed by the failed check. -/
theorem offerCheck_record (e : Engine) (dc : ChanId) (w : World)
    (hw : Adds (Emits (Segment.setup dc)) World.start w) :
    ∀ a ∈ (offerCheck e w).2.trace,
      EmitsAny [Segment.setup dc, Segment.offerWait] a
      ∨ a = Action.read 131 Probe.offerSuccessful (offerCheck e w).1 := by
  intro a ha
  have h1 : Adds (EmitsAny [Segment.setup dc, Segment.offerWait]) World.start
      (tick e (offerWait e w)) :=
    ((hw.any _ (by simp)).trans ((offerWait_adds e w).any _ (by simp))).trans
      (tick_adds e _ (emitsAny_callbackClosed _ _) _)
  have h2 : (offerCheck e w).2.trace
      = (tick e (offerWait e w)).trace
        ++ [Action.read 131 Probe.offerSuccessful (offerCheck e w).1] := rfl
  rw [h2] at ha
  rcases List.mem_append.mp ha with h | h
  · exact Or.inl (h1.all_of_start a h)
  · exact Or.inr (by simpa using h)

theorem driverCalls_offerCheck (e : Engine) (w : World) :
    driverCalls (offerCheck e w).2.trace
      = driverCalls w.trace ++ [EngineCall.CreateOffer Peer.pc1] := by
  have h1 : Adds (fun a => a.asCall = none)
      (call e (.CreateOffer .pc1) { w with offer_observer := CreateSDPObserver.Create })
      (offerCheck e w).2 :=
    (waitSuccessful_adds e _ asCall_callbackClosed 127 _ _ (fun _ => rfl) rfl 50 _).trans
      (read_adds e _ asCall_callbackClosed 131 _ (fun _ => rfl) _)
  rw [driverCalls_of_adds h1, driverCalls_call]

/-- After a successful check at line 131 the record only grows. -/
theorem main_extends_offerCheck (e : Engine) (w : World) (hs : setup e = Step.next w)
    (h : (offerCheck e w).1 = true) :
    Adds (fun _ => True) (offerCheck e w).2 (main e).world := by
  have htrue : CallbackClosed (fun _ : Action => True) := ⟨fun _ => trivial, fun _ _ => trivial⟩
  rcases main_cases e w hs with ⟨hf, _⟩ | ⟨_, offer, _, hrest⟩
  · rw [h] at hf; cases hf
  · have a1 : Adds (fun _ => True) (offerCheck e w).2 (answerCheckOf e offer w).2 :=
      (((offerHandoff_adds e offer w).mono (fun _ _ => trivial)).trans
        ((answerWait_adds e _ _).mono (fun _ _ => trivial))).trans
        (read_adds e _ htrue 162 _ (fun _ => trivial) _)
    rcases hrest with ⟨_, hm⟩ | ⟨_, answer, _, hm⟩
    · rw [hm]; exact a1
    · rw [hm]
      exact (a1.trans ((answerHandoff_adds e offer answer w).mono (fun _ _ => trivial))).trans
        ((lateStages_adds e _).mono (fun _ _ => trivial))

/-- C4: in a run that gets through setup, if no evaluation of the offer
observer's `IsSuccessful()` (neither the ones of the wait loop at line 127 nor
the check at line 131) returns true, then `main` returns -1 without a
summary, the wait loop has slept 50 times, the requests the driver made are
exactly the setup requests followed by `CreateOffer` on pc1, and the record
holds no `SetLocalDescription`, `SetRemoteDescription`, `CreateAnswer` or
`AddIceCandidate` request from any thread. -/
theorem offer_timeout_aborts_before_relay (e : Engine) (dc : ChanId)
    (hf : e.factory_ok = true) (h1 : e.pc1_ok = true) (h2 : e.pc2_ok = true)
    (hd : e.data_channel = some dc)
    (hno : ∀ a ∈ (main e).world.trace, a.isRead Probe.offerSuccessful true = false) :
    (main e).exit = some (-1)
    ∧ (main e).summary = none
    ∧ sleepCount Phase.offer (main e).world.trace = 50
    ∧ driverCalls (main e).world.trace = setupCalls dc ++ [EngineCall.CreateOffer Peer.pc1]
    ∧ (∀ c, (Action.call c ∈ (main e).world.trace ∨ Action.callback c ∈ (main e).world.trace) →
        (∀ p d, c ≠ EngineCall.SetLocalDescription p d)
        ∧ (∀ p d, c ≠ EngineCall.SetRemoteDescription p d)
        ∧ (∀ p, c ≠ EngineCall.CreateAnswer p)
        ∧ (∀ p k, c ≠ EngineCall.AddIceCandidate p k)) := by
  obtain ⟨w, hs, hw⟩ := setup_next e dc hf h1 h2 hd
  have hchk : (offerCheck e w).1 = false := by
    cases hv : (offerCheck e w).1 with
    | false => rfl
    | true =>
      exfalso
      have hm : Action.read 131 Probe.offerSuccessful true ∈ (offerCheck e w).2.trace := by
        have : (offerCheck e w).2.trace
            = (tick e (offerWait e w)).trace
              ++ [Action.read 131 Probe.offerSuccessful (offerCheck e w).1] := rfl
        rw [this, hv]
        simp
      have := hno _ ((main_extends_offerCheck e w hs hv).mem_left hm)
      simp [Action.isRead] at this
  have hmain : main e = { exit := some (-1), summary := none, world := (offerCheck e w).2 } := by
    rcases main_cases e w hs with ⟨_, hm⟩ | ⟨ht, _⟩
    · exact hm
    · rw [hchk] at ht; cases ht
  rw [hmain] at hno ⊢
  refine ⟨rfl, rfl, ?_, ?_, ?_⟩
  · have hloop := waitSuccessful_timeout e 127 Probe.offerSuccessful Phase.offer 50
      (call e (.CreateOffer .pc1) { w with offer_observer := CreateSDPObserver.Create })
      (fun a ha => hno a (by
        have : (offerCheck e w).2.trace
            = (tick e (offerWait e w)).trace
              ++ [Action.read 131 Probe.offerSuccessful (offerCheck e w).1] := rfl
        show a ∈ (offerCheck e w).2.trace
        rw [this]
        exact List.mem_append_left _
          ((tick_adds e (fun _ => True) ⟨fun _ => trivial, fun _ _ => trivial⟩ _).mem_left ha)))
    have h0 : sleepCount Phase.offer
        (call e (.CreateOffer .pc1) { w with offer_observer := CreateSDPObserver.Create }).trace
        = 0 := by
      have hadd : Adds (fun a => a ≠ Action.sleep Phase.offer) World.start
          (call e (.CreateOffer .pc1) { w with offer_observer := CreateSDPObserver.Create }) :=
        ((hw.mono (fun a ha => by cases ha <;> simp)).trans (Adds.of_trace_eq rfl)).trans
          (call_adds e _ (sleep_callbackClosed _) _ (by simp) _)
      rw [sleepCount_of_adds hadd]
      rfl
    show sleepCount Phase.offer (offerCheck e w).2.trace = 50
    unfold offerCheck
    rw [sleepCount_read]
    unfold offerWait
    rw [hloop, h0]
  · show driverCalls (offerCheck e w).2.trace = _
    rw [driverCalls_offerCheck, driverCalls_setup e dc w hf h1 h2 hd hs]
  · intro c hc
    have hrec := offerCheck_record e dc w hw
    have key : (c ∈ setupCalls dc ∨ c = EngineCall.CreateOffer Peer.pc1)
        ∨ (∃ ch, c = EngineCall.RegisterObserver ch) ∨ (∃ ch msg, c = EngineCall.Send ch msg) := by
      rcases hc with hc | hc
      · rcases hrec _ hc with ⟨s, hs', hem⟩ | heq
        · simp only [List.mem_cons, List.mem_singleton, List.not_mem_nil, or_false] at hs'
          rcases hs' with rfl | rfl
          · cases hem with
            | setupCall _ _ hmem => exact Or.inl (Or.inl hmem)
          · cases hem with
            | createOffer => exact Or.inl (Or.inr rfl)
        · cases heq
      · rcases hrec _ hc with ⟨s, _, hem⟩ | heq
        · cases hem with
          | register _ ch => exact Or.inr (Or.inl ⟨ch, rfl⟩)
          | send _ ch msg => exact Or.inr (Or.inr ⟨ch, msg, rfl⟩)
        · cases heq
    rcases key with (hk | hk) | ⟨ch, hk⟩ | ⟨ch, msg, hk⟩
    · simp only [setupCalls, List.mem_cons, List.mem_singleton, List.not_mem_nil, or_false] at hk
      rcases hk with rfl | rfl | rfl | rfl | rfl | rfl <;>
        exact ⟨fun _ _ h => (by cases h), fun _ _ h => (by cases h), fun _ h => (by cases h),
          fun _ _ h => (by cases h)⟩
    · subst hk
      exact ⟨fun _ _ h => (by cases h), fun _ _ h => (by cases h), fun _ h => (by cases h),
        fun _ _ h => (by cases h)⟩
    · subst hk
      exact ⟨fun _ _ h => (by cases h), fun _ _ h => (by cases h), fun _ h => (by cases h),
        fun _ _ h => (by cases h)⟩
    · subst hk
      exact ⟨fun _ _ h => (by cases h), fun _ _ h => (by cases h), fun _ h => (by cases h),
        fun _ _ h => (by cases h)⟩

/-! ## The exit status (C5) -/

theorem answerCheck_record (e : Engine) (dc : ChanId) (offer : SessionDescription) (w : World)
    (hw : Adds (Emits (Segment.setup dc)) World.start w) :
    ∀ a ∈ (answerCheckOf e offer w).2.trace,
      EmitsAny [Segment.setup dc, Segment.offerWait, Segment.offerHandoff,
          Segment.exchangeSDPs, Segment.answerPoll] a
      ∨ a = Action.read 131 Probe.offerSuccessful (offerCheck e w).1
      ∨ a = Action.read 162 Probe.answerSuccessful (answerCheckOf e offer w).1 := by
  let ss := [Segment.setup dc, Segment.offerWait, Segment.offerHandoff,
    Segment.exchangeSDPs, Segment.answerPoll]
  let Q : Action → Prop := fun a =>
    EmitsAny ss a ∨ a = Action.read 131 Probe.offerSuccessful (offerCheck e w).1
      ∨ a = Action.read 162 Probe.answerSuccessful (answerCheckOf e offer w).1
  have hq : ∀ {s a}, s ∈ ss → Emits s a → Q a := fun hs h => Or.inl ⟨_, hs, h⟩
  have hoff : Segment.offerWait ∈ ss := by simp [ss]
  have hcb : CallbackClosed Q :=
    ⟨fun c => hq hoff (Emits.register _ c), fun c m => hq hoff (Emits.send _ c m)⟩
  have h1 : Adds Q World.start (offerCheck e w).2 :=
    ((hw.mono (fun _ h => hq (by simp [ss]) h)).trans
      ((offerWait_adds e w).mono (fun _ h => hq (by simp [ss]) h))).trans
      (read_adds_val e Q hcb 131 _ _ (Or.inr (Or.inl rfl)))
  have h2 : Adds Q (offerCheck e w).2 (answerCheckOf e offer w).2 :=
    (((offerHandoff_adds e offer w).mono (fun _ h => hq (by simp [ss]) h)).trans
      ((answerWait_adds e _ _).mono (fun a h => by
        obtain ⟨s, hs, hem⟩ := h
        simp only [List.mem_cons, List.mem_singleton, List.not_mem_nil, or_false] at hs
        rcases hs with rfl | rfl
        · exact hq (by simp [ss]) hem
        · exact hq (by simp [ss]) hem))).trans
      (read_adds_val e Q hcb 162 _ _ (Or.inr (Or.inr rfl)))
  exact (h1.trans h2).all_of_start

/-- After a successful check at line 162 the record only grows. -/
theorem lateStages_extends_answerCheck (e : Engine) (offer answer : SessionDescription)
    (w : World) :
    Adds (fun _ => True) (answerCheckOf e offer w).2
      (lateStages e (afterAnswer e offer answer w)).world :=
  ((answerHandoff_adds e offer answer w).mono (fun _ _ => trivial)).trans
    ((lateStages_adds e _).mono (fun _ _ => trivial))

theorem not_emits_check131 (ss : List Segment) (v : Bool) :
    ¬ EmitsAny ss (Action.read 131 Probe.offerSuccessful v) := by
  rintro ⟨s, _, h⟩
  cases h

theorem not_emits_check162 (ss : List Segment) (v : Bool) :
    ¬ EmitsAny ss (Action.read 162 Probe.answerSuccessful v) := by
  rintro ⟨s, _, h⟩
  cases h

theorem PcCallback.deliver_message_received
    (cic : String → Int → String → Option IceCandidate) (o : SimplePeerConnectionObserver)
    (cb : PcCallback) (h : o.data_observer_.message_received_ = true) :
    (cb.deliver cic o).1.data_observer_.message_received_ = true := by
  cases cb <;>
    simp [PcCallback.deliver, SimplePeerConnectionObserver.OnSignalingChange,
      SimplePeerConnectionObserver.OnAddTrack, SimplePeerConnectionObserver.OnRemoveTrack,
      SimplePeerConnectionObserver.OnDataChannel, SimplePeerConnectionObserver.OnRenegotiationNeeded,
      SimplePeerConnectionObserver.OnIceConnectionChange,
      SimplePeerConnectionObserver.OnIceGatheringChange,
      SimplePeerConnectionObserver.OnIceCandidate,
      SimplePeerConnectionObserver.OnConnectionChange, DataChannelObserver.SetDataChannel, h]
  all_goals (split <;> simp [h])

/-- The ever-connected latch of an endpoint's observer survives every program
point. -/
theorem peer_connected_stable (e : Engine) (p : Peer) :
    Stable e (fun w => (w.observer p).peer_connected_ = true) := by
  apply Stable.of_deliver
  · intro w ev hw
    cases ev with
    | pc q cb =>
      have := PcCallback.deliver_peer_connected e.CreateIceCandidate (w.observer q) cb
      cases p <;> cases q <;>
        simp_all [deliver, World.log, World.setObserver, World.observer]
    | dcOnStateChange q => simpa [deliver, World.log, World.observer] using hw
    | dcOnMessage q buffer =>
      cases p <;> cases q <;> simp_all [deliver, World.setObserver, World.observer]
    | offer cb => simpa [deliver, World.observer] using hw
    | answer cb => simpa [deliver, World.observer] using hw
    | channelState c s => simpa [deliver, World.observer] using hw
  · intro w k hw; simpa [World.observer] using hw
  · intro w as hw; simpa [World.observer, World.log] using hw

/-- The message-received latch of an endpoint's data observer survives every
program point. -/
theorem message_received_stable (e : Engine) (p : Peer) :
    Stable e (fun w => (w.observer p).data_observer_.message_received_ = true) := by
  apply Stable.of_deliver
  · intro w ev hw
    cases ev with
    | pc q cb =>
      have := PcCallback.deliver_message_received e.CreateIceCandidate (w.observer q) cb
      cases p <;> cases q <;>
        simp_all [deliver, World.log, World.setObserver, World.observer]
    | dcOnStateChange q => simpa [deliver, World.log, World.observer] using hw
    | dcOnMessage q buffer =>
      cases p <;> cases q <;>
        simp_all [deliver, World.setObserver, World.observer, DataChannelObserver.OnMessage]
    | offer cb => simpa [deliver, World.observer] using hw
    | answer cb => simpa [deliver, World.observer] using hw
    | channelState c s => simpa [deliver, World.observer] using hw
  · intro w k hw; simpa [World.observer] using hw
  · intro w as hw; simpa [World.observer, World.log] using hw

theorem read_value (e : Engine) (line : Nat) (pr : Probe) (w : World) :
    (read e line pr w).1 = (tick e w).probe pr := rfl

theorem stable_read_true {e : Engine} {I : World → Prop} (h : Stable e I)
    (line : Nat) (pr : Probe) {w : World} (hI : ∀ v : World, I v ↔ v.probe pr = true)
    (hw : I w) : (read e line pr w).1 = true :=
  (hI _).mp (h.1 _ hw)

theorem stable_of_read_true {e : Engine} {I : World → Prop} (h : Stable e I)
    (line : Nat) (pr : Probe) {w : World} (hI : ∀ v : World, I v ↔ v.probe pr = true)
    (hr : (read e line pr w).1 = true) : I (read e line pr w).2 :=
  h.2 _ _ ((hI _).mpr hr)

/-- The summary of `report`, for every state `w` the waits can end in: the
exit status is 0; a latch that is set in `w` is reported as set, and a latch
that is reported as set is set in the final state. -/
theorem report_summary (e : Engine) (w : World) :
    (report e w).exit = some 0
    ∧ ∃ s, (report e w).summary = some s
      ∧ (w.observer1.IsPeerConnected = true → s.peer1_connected = true)
      ∧ (s.peer1_connected = true → (report e w).world.observer1.IsPeerConnected = true)
      ∧ (w.observer2.IsPeerConnected = true → s.peer2_connected = true)
      ∧ (s.peer2_connected = true → (report e w).world.observer2.IsPeerConnected = true)
      ∧ (w.observer1.HasReceivedMessage = true ∧ w.observer2.HasReceivedMessage = true →
          s.messages_exchanged = true)
      ∧ (s.messages_exchanged = true →
          (report e w).world.observer1.HasReceivedMessage = true
          ∧ (report e w).world.observer2.HasReceivedMessage = true) := by
  have c1 := peer_connected_stable e Peer.pc1
  have c2 := peer_connected_stable e Peer.pc2
  have m1 := message_received_stable e Peer.pc1
  have m2 := message_received_stable e Peer.pc2
  have ic1 : ∀ v : World, (fun w => (w.observer Peer.pc1).peer_connected_ = true) v
      ↔ v.probe (Probe.peerConnected Peer.pc1) = true := fun _ => Iff.rfl
  have ic2 : ∀ v : World, (fun w => (w.observer Peer.pc2).peer_connected_ = true) v
      ↔ v.probe (Probe.peerConnected Peer.pc2) = true := fun _ => Iff.rfl
  have im1 : ∀ v : World, (fun w => (w.observer Peer.pc1).data_observer_.message_received_ = true) v
      ↔ v.probe (Probe.receivedMessage Peer.pc1) = true := fun _ => Iff.rfl
  have im2 : ∀ v : World, (fun w => (w.observer Peer.pc2).data_observer_.message_received_ = true) v
      ↔ v.probe (Probe.receivedMessage Peer.pc2) = true := fun _ => Iff.rfl
  refine ⟨rfl, _, rfl, ?_, ?_, ?_, ?_, ?_, ?_⟩
  · intro h
    exact stable_read_true c1 230 _ ic1 h
  · intro h
    exact c1.call _ (c1.both 232 _ (c1.read 231 _ (stable_of_read_true c1 230 _ ic1 h)))
  · intro h
    exact stable_read_true c2 231 _ ic2 (c2.read 230 _ h)
  · intro h
    exact c2.call _ (c2.both 232 _ (stable_of_read_true c2 231 _ ic2 h))
  · rintro ⟨h1, h2⟩
    have a1 : (fun w => (w.observer Peer.pc1).data_observer_.message_received_ = true)
        (read e 231 (Probe.peerConnected Peer.pc2) (read e 230 (Probe.peerConnected Peer.pc1) w).2).2 :=
      m1.read 231 _ (m1.read 230 _ h1)
    have a2 : (fun w => (w.observer Peer.pc2).data_observer_.message_received_ = true)
        (read e 231 (Probe.peerConnected Peer.pc2) (read e 230 (Probe.peerConnected Peer.pc1) w).2).2 :=
      m2.read 231 _ (m2.read 230 _ h2)
    have b1 := stable_read_true m1 232 _ im1 a1
    have b2 := stable_read_true m2 232 _ im2 (m2.read 232 (Probe.receivedMessage Peer.pc1) a2)
    show (both e 232 Probe.receivedMessage _).1 = true
    unfold both
    rw [if_pos b1]
    exact b2
  · intro h
    have h' : (both e 232 Probe.receivedMessage
        (read e 231 (Probe.peerConnected Peer.pc2)
          (read e 230 (Probe.peerConnected Peer.pc1) w).2).2).1 = true := h
    unfold both at h'
    split at h'
    · rename_i hfirst
      have s1 := stable_of_read_true m1 232 _ im1 hfirst
      have s2 := stable_of_read_true m2 232 _ im2 h'
      have f1 := m1.call EngineCall.CleanupSSL (m1.read 232 (Probe.receivedMessage Peer.pc2) s1)
      have f2 := m2.call EngineCall.CleanupSSL s2
      refine ⟨?_, ?_⟩
      · show ((report e w).world.observer Peer.pc1).data_observer_.message_received_ = true
        simp only [report, both, if_pos hfirst]
        exact f1
      · show ((report e w).world.observer Peer.pc2).data_observer_.message_received_ = true
        simp only [report, both, if_pos hfirst]
        exact f2
    · cases h'

/-- C5: in a run that gets through setup and in which no relay batch has
the iterators of a range-for invalidated (a run whose behaviour is defined),
`main` returns 0 or -1, and 0 exactly when the check at line 131 saw the offer
successful and the check at line 162 saw the answer successful.  A run that
returns 0 is the summary and return of `report` applied to the state in which
the connection and message waits ended, whatever that state is: a latch set in
that state is reported as set, a latch reported as set is set in the final
state, and the messages line is the conjunction of the two
`HasReceivedMessage()` values. -/
theorem exit_status_depends_on_negotiation_only (e : Engine) (dc : ChanId)
    (hf : e.factory_ok = true) (h1 : e.pc1_ok = true) (h2 : e.pc2_ok = true)
    (hd : e.data_channel = some dc) (hvalid : (main e).world.invalidated = false) :
    ((main e).exit = some 0 ∨ (main e).exit = some (-1))
    ∧ ((main e).exit = some 0 ↔
        (Action.read 131 Probe.offerSuccessful true ∈ (main e).world.trace
          ∧ Action.read 162 Probe.answerSuccessful true ∈ (main e).world.trace))
    ∧ ((main e).exit = some 0 →
        ∃ wr s, main e = report e wr ∧ (main e).summary = some s
          ∧ (wr.observer1.IsPeerConnected = true → s.peer1_connected = true)
          ∧ (s.peer1_connected = true → (main e).world.observer1.IsPeerConnected = true)
          ∧ (wr.observer2.IsPeerConnected = true → s.peer2_connected = true)
          ∧ (s.peer2_connected = true → (main e).world.observer2.IsPeerConnected = true)
          ∧ (wr.observer1.HasReceivedMessage = true ∧ wr.observer2.HasReceivedMessage = true →
              s.messages_exchanged = true)
          ∧ (s.messages_exchanged = true →
              (main e).world.observer1.HasReceivedMessage = true
              ∧ (main e).world.observer2.HasReceivedMessage = true)) := by
  obtain ⟨w, hs, hw⟩ := setup_next e dc hf h1 h2 hd
  have hlast : ∀ (line : Nat) (pr : Probe) (v : World),
      Action.read line pr (read e line pr v).1 ∈ (read e line pr v).2.trace := by
    intro line pr v
    rw [read_trace]
    simp
  rcases main_cases e w hs with ⟨hv, hm⟩ | ⟨hv, offer, _, hrest⟩
  · -- the offer check fails
    have hrec := offerCheck_record e dc w hw
    rw [hv] at hrec
    rw [hm]
    refine ⟨Or.inr rfl, ⟨fun h => (by cases h), ?_⟩, fun h => (by cases h)⟩
    rintro ⟨hmem, _⟩
    exfalso
    rcases hrec _ hmem with h | h
    · exact not_emits_check131 _ _ h
    · cases h
  · have hoff : Action.read 131 Probe.offerSuccessful true ∈ (offerCheck e w).2.trace := by
      have := hlast 131 Probe.offerSuccessful (offerWait e w)
      rw [show (read e 131 Probe.offerSuccessful (offerWait e w)).1 = true from hv] at this
      exact this
    have hext : Adds (fun _ => True) (offerCheck e w).2 (answerCheckOf e offer w).2 :=
      (((offerHandoff_adds e offer w).mono (fun _ _ => trivial)).trans
        ((answerWait_adds e _ _).mono (fun _ _ => trivial))).trans
        (read_adds e _ ⟨fun _ => trivial, fun _ _ => trivial⟩ 162 _ (fun _ => trivial) _)
    rcases hrest with ⟨hv2, hm⟩ | ⟨hv2, answer, _, hm⟩
    · -- the answer check fails
      have hrec := answerCheck_record e dc offer w hw
      rw [hv, hv2] at hrec
      rw [hm]
      refine ⟨Or.inr rfl, ⟨fun h => (by cases h), ?_⟩, fun h => (by cases h)⟩
      rintro ⟨_, hmem⟩
      exfalso
      rcases hrec _ hmem with h | h | h
      · exact not_emits_check162 _ _ h
      · cases h
      · cases h
    · -- both checks succeed
      have hans : Action.read 162 Probe.answerSuccessful true
          ∈ (answerCheckOf e offer w).2.trace := by
        have := hlast 162 Probe.answerSuccessful
          (answerWait e (afterOffer e offer w).2 (afterOffer e offer w).1)
        rw [show (read e 162 Probe.answerSuccessful
          (answerWait e (afterOffer e offer w).2 (afterOffer e offer w).1)).1 = true from hv2]
          at this
        exact this
      have hlate := lateStages_extends_answerCheck e offer answer w
      have hrep := (lateStages_defined e (afterAnswer e offer answer w)
        (by rw [← hm]; exact hvalid)).2
      have hex : (main e).exit = some 0 := by rw [hm, hrep]; rfl
      refine ⟨Or.inl hex, ⟨fun _ => ⟨?_, ?_⟩, fun _ => hex⟩, fun _ => ?_⟩
      · rw [hm]; exact hlate.mem_left (hext.mem_left hoff)
      · rw [hm]; exact hlate.mem_left hans
      · obtain ⟨_, s, hsum, rest⟩ := report_summary e
          (connectionStage e (gatheringStage e (afterAnswer e offer answer w)))
        rw [← hrep, ← hm] at hsum rest
        exact ⟨_, s, hm.trans hrep, hsum, rest⟩

/-- C4 on `quietEngine`: no callback ever arrives, the run returns -1 after
50 sleeps and its only request after setup is `CreateOffer` on pc1. -/
theorem offer_timeout_aborts_before_relay_witness :
    (main quietEngine).exit = some (-1)
    ∧ (main quietEngine).summary = none
    ∧ sleepCount Phase.offer (main quietEngine).world.trace = 50
    ∧ driverCalls (main quietEngine).world.trace
        = setupCalls 0 ++ [EngineCall.CreateOffer Peer.pc1]
    ∧ (∀ c, (Action.call c ∈ (main quietEngine).world.trace
          ∨ Action.callback c ∈ (main quietEngine).world.trace) →
        (∀ p d, c ≠ EngineCall.SetLocalDescription p d)
        ∧ (∀ p d, c ≠ EngineCall.SetRemoteDescription p d)
        ∧ (∀ p, c ≠ EngineCall.CreateAnswer p)
        ∧ (∀ p k, c ≠ EngineCall.AddIceCandidate p k)) :=
  offer_timeout_aborts_before_relay quietEngine 0 rfl rfl rfl rfl (by decide)

/-- C5 on `oneSidedEngine` (both endpoints connected, endpoint 2 never
receives a message): no range-for is invalidated, the run returns 0 and the
summary is connected, connected, messages not exchanged. -/
theorem exit_status_depends_on_negotiation_only_witness :
    ((main oneSidedEngine).world.invalidated = false
      ∧ (main oneSidedEngine).exit = some 0
      ∧ (main oneSidedEngine).summary
          = some { peer1_connected := true, peer2_connected := true, messages_exchanged := false }
      ∧ sleepCount Phase.message (main oneSidedEngine).world.trace = 50)
    ∧ ((main oneSidedEngine).exit = some 0 ↔
        (Action.read 131 Probe.offerSuccessful true ∈ (main oneSidedEngine).world.trace
          ∧ Action.read 162 Probe.answerSuccessful true ∈ (main oneSidedEngine).world.trace)) :=
  ⟨by decide,
   (exit_status_depends_on_negotiation_only oneSidedEngine 0 rfl rfl rfl rfl (by decide)).2.1⟩

/-! ## One relay batch (C6) -/

theorem tick_quiet (e : Engine) (w : World) (h : e.events w.clock = []) :
    tick e w = { w with clock := w.clock + 1 } := by
  simp [tick, h]

theorem call_quiet (e : Engine) (c : EngineCall) (w : World) (h : e.events w.clock = []) :
    call e c w = { w with trace := w.trace ++ [Action.call c], clock := w.clock + 1 } := by
  simp [call, tick_quiet e w h, World.log]

theorem addAll_quiet (e : Engine) (src pc : Peer) (cs : List IceCandidate) :
    ∀ w : World, (∀ k, w.clock ≤ k → k < w.clock + cs.length → e.events k = []) →
      LocalSignaling.addAll e src pc cs w
        = { w with trace := w.trace ++ cs.map (fun c => Action.call (EngineCall.AddIceCandidate pc c)),
                   clock := w.clock + cs.length } := by
  induction cs with
  | nil => intro w _; simp [LocalSignaling.addAll]
  | cons c rest ih =>
    intro w hq
    have h0 : e.events w.clock = [] := hq _ (Nat.le_refl _) (by simp)
    have hsame : ((tick e w).observer src).GetIceCandidates = (w.observer src).GetIceCandidates := by
      rw [tick_quiet e w h0]
      cases src <;> rfl
    rw [LocalSignaling.addAll, if_pos hsame, call_quiet e _ w h0, ih]
    · simp [Nat.add_assoc, Nat.add_comm 1]
    · intro k hk1 hk2
      simp only [List.length_cons] at hq
      apply hq k
      · simp only at hk1; omega
      · simp only at hk2; omega

/-- One relay batch during which the engine delivers nothing: what it appends
to the record, and the state it leaves. -/
theorem ExchangeICECandidates_quiet (e : Engine) (w : World)
    (hq : ∀ k, w.clock ≤ k →
      k < w.clock + (w.observer1.ice_candidates_.length + w.observer2.ice_candidates_.length + 4) →
      e.events k = []) :
    LocalSignaling.ExchangeICECandidates e w
      = { w with
          observer1 := w.observer1.ClearIceCandidates,
          observer2 := w.observer2.ClearIceCandidates,
          trace := w.trace ++ [Action.exchange]
            ++ w.observer1.ice_candidates_.map
                (fun c => Action.call (EngineCall.AddIceCandidate Peer.pc2 c))
            ++ w.observer2.ice_candidates_.map
                (fun c => Action.call (EngineCall.AddIceCandidate Peer.pc1 c)),
          clock := w.clock
            + (w.observer1.ice_candidates_.length + w.observer2.ice_candidates_.length + 4),
          invalidated := false } := by
  have q : ∀ j, j < w.observer1.ice_candidates_.length + w.observer2.ice_candidates_.length + 4 →
      e.events (w.clock + j) = [] := fun j hj => hq _ (by omega) (by omega)
  have e1 : LocalSignaling.relay1 e w
      = { w with
          trace := w.trace ++ [Action.exchange]
            ++ w.observer1.ice_candidates_.map
                (fun c => Action.call (EngineCall.AddIceCandidate Peer.pc2 c)),
          clock := w.clock + 1 + w.observer1.ice_candidates_.length,
          invalidated := false } := by
    unfold LocalSignaling.relay1
    rw [tick_quiet e _ (by simpa [World.log] using q 0 (by omega))]
    rw [addAll_quiet]
    · simp [World.log, SimplePeerConnectionObserver.GetIceCandidates]
    · intro k hk1 hk2
      simp only [World.log, SimplePeerConnectionObserver.GetIceCandidates] at hk1 hk2
      exact hq k (by omega) (by omega)
  have e2 : LocalSignaling.relay2 e (LocalSignaling.relay1 e w)
      = { w with
          trace := w.trace ++ [Action.exchange]
            ++ w.observer1.ice_candidates_.map
                (fun c => Action.call (EngineCall.AddIceCandidate Peer.pc2 c))
            ++ w.observer2.ice_candidates_.map
                (fun c => Action.call (EngineCall.AddIceCandidate Peer.pc1 c)),
          clock := w.clock + 2 + w.observer1.ice_candidates_.length
            + w.observer2.ice_candidates_.length,
          invalidated := false } := by
    rw [e1]
    unfold LocalSignaling.relay2
    rw [tick_quiet e _ (by
      have := q (1 + w.observer1.ice_candidates_.length) (by omega)
      simpa [Nat.add_assoc] using this)]
    rw [addAll_quiet]
    · simp only [SimplePeerConnectionObserver.GetIceCandidates, World.mk.injEq, true_and,
        and_true]
      omega
    · intro k hk1 hk2
      simp only [SimplePeerConnectionObserver.GetIceCandidates] at hk1 hk2
      exact hq k (by omega) (by omega)
  have v1 : (LocalSignaling.relay1 e w).invalidated = false := by rw [e1]
  have v2 : (LocalSignaling.relay2 e (LocalSignaling.relay1 e w)).invalidated = false := by
    rw [e2]
  unfold LocalSignaling.ExchangeICECandidates
  rw [if_neg (by simp only [v1]; decide), if_neg (by simp only [v2]; decide), e2]
  unfold LocalSignaling.clear1
  rw [tick_quiet e _ (by
    have := q (2 + w.observer1.ice_candidates_.length + w.observer2.ice_candidates_.length)
      (by omega)
    simpa [Nat.add_assoc] using this)]
  unfold LocalSignaling.clear2
  rw [tick_quiet e _ (by
    have := q (3 + w.observer1.ice_candidates_.length + w.observer2.ice_candidates_.length)
      (by omega)
    simp only [Nat.add_assoc] at this ⊢
    simpa [Nat.add_comm, Nat.add_left_comm] using this)]
  simp only [World.mk.injEq, true_and, and_true]
  omega

/-- C6: in one relay batch during which no callback arrives, the record
grows by the batch marker, then one `AddIceCandidate` on pc2 for each candidate
observer1 holds, in stored order, then one `AddIceCandidate` on pc1 for each
candidate observer2 holds, in stored order, and by nothing else; both
candidate lists are empty afterwards, so that a following batch (again
without callbacks) makes no `AddIceCandidate` call.  `OnIceCandidate` stores a
candidate at the end of the list. -/
theorem relay_batch_relays_each_candidate_once (e : Engine) (w : World)
    (hq : ∀ k, w.clock ≤ k →
      k < w.clock + (w.observer1.ice_candidates_.length + w.observer2.ice_candidates_.length + 4) →
      e.events k = []) :
    (LocalSignaling.ExchangeICECandidates e w).trace
      = w.trace ++ [Action.exchange]
        ++ w.observer1.GetIceCandidates.map
            (fun c => Action.call (EngineCall.AddIceCandidate Peer.pc2 c))
        ++ w.observer2.GetIceCandidates.map
            (fun c => Action.call (EngineCall.AddIceCandidate Peer.pc1 c))
    ∧ (LocalSignaling.ExchangeICECandidates e w).observer1.GetIceCandidates = []
    ∧ (LocalSignaling.ExchangeICECandidates e w).observer2.GetIceCandidates = []
    ∧ ((∀ k, (LocalSignaling.ExchangeICECandidates e w).clock ≤ k →
          k < (LocalSignaling.ExchangeICECandidates e w).clock + 4 → e.events k = []) →
        (LocalSignaling.ExchangeICECandidates e (LocalSignaling.ExchangeICECandidates e w)).trace
          = (LocalSignaling.ExchangeICECandidates e w).trace ++ [Action.exchange])
    ∧ (∀ (o : SimplePeerConnectionObserver) (c c' : IceCandidate),
        e.CreateIceCandidate c.sdp_mid c.sdp_mline_index c.sdp = some c' →
        (o.OnIceCandidate e.CreateIceCandidate c).GetIceCandidates = o.GetIceCandidates ++ [c']) := by
  have h := ExchangeICECandidates_quiet e w hq
  have ho1 : (LocalSignaling.ExchangeICECandidates e w).observer1.ice_candidates_ = [] := by
    rw [h]; rfl
  have ho2 : (LocalSignaling.ExchangeICECandidates e w).observer2.ice_candidates_ = [] := by
    rw [h]; rfl
  refine ⟨by rw [h]; rfl, ho1, ho2, ?_, ?_⟩
  · intro hq2
    have h2 := ExchangeICECandidates_quiet e (LocalSignaling.ExchangeICECandidates e w)
      (by rw [ho1, ho2]; simpa using hq2)
    rw [h2]
    simp [ho1, ho2]
  · intro o c c' hc
    simp [SimplePeerConnectionObserver.OnIceCandidate, hc,
      SimplePeerConnectionObserver.GetIceCandidates]

/-- C6 on `relaySample` with `quietEngine`: the batch appends the marker,
the two candidates of observer1 for pc2 in stored order, then the candidate of
observer2 for pc1. -/
theorem relay_batch_relays_each_candidate_once_witness :
    (LocalSignaling.ExchangeICECandidates quietEngine relaySample).trace
      = [Action.exchange,
         Action.call (EngineCall.AddIceCandidate Peer.pc2
           { sdp_mid := "0", sdp_mline_index := 0, sdp := "candidate:1 udp host" }),
         Action.call (EngineCall.AddIceCandidate Peer.pc2
           { sdp_mid := "0", sdp_mline_index := 0, sdp := "candidate:2 udp srflx" }),
         Action.call (EngineCall.AddIceCandidate Peer.pc1
           { sdp_mid := "0", sdp_mline_index := 0, sdp := "candidate:3 udp host" })] :=
  (relay_batch_relays_each_candidate_once quietEngine relaySample (fun _ _ _ => rfl)).1

/-! ## The relay cadence (C7) -/

theorem cadence_callbackClosed : CallbackClosed (fun a => Action.isCadence a = false) :=
  ⟨fun _ => rfl, fun _ _ => rfl⟩

theorem cadence_notBoth (e : Engine) (line : Nat) (a : Peer → Probe) (w : World) :
    (notBoth e line a w).2.trace.filter Action.isCadence = w.trace.filter Action.isCadence :=
  (notBoth_adds e _ cadence_callbackClosed line a (fun _ _ => rfl) w).filter_eq

theorem cadence_sleep (e : Engine) (w : World) :
    (sleep e Phase.gathering w).trace.filter Action.isCadence
      = w.trace.filter Action.isCadence ++ [Action.sleep Phase.gathering] := by
  rw [sleep_trace, List.filter_append, (tick_adds e _ cadence_callbackClosed w).filter_eq]
  rfl

theorem exchange_after_marker (e : Engine) (P : Action → Prop) (hcb : CallbackClosed P)
    (hc : ∀ p c, P (Action.call (EngineCall.AddIceCandidate p c))) (w : World) :
    Adds P (w.log [Action.exchange]) (LocalSignaling.ExchangeICECandidates e w) := by
  have h1 : Adds P (w.log [Action.exchange]) (LocalSignaling.relay1 e w) :=
    ((tick_adds e P hcb _).trans (Adds.of_trace_eq rfl)).trans
      (addAll_adds e P hcb _ _ (hc _) _ _)
  have h2 := relay2_adds e P hcb hc (LocalSignaling.relay1 e w)
  have h3 : ∀ v : World, Adds P v (LocalSignaling.clear1 e v) := fun v =>
    (tick_adds e P hcb v).trans (Adds.of_trace_eq rfl)
  have h4 : ∀ v : World, Adds P v (LocalSignaling.clear2 e v) := fun v =>
    (tick_adds e P hcb v).trans (Adds.of_trace_eq rfl)
  unfold LocalSignaling.ExchangeICECandidates
  split
  · exact h1
  · split
    · exact h1.trans h2
    · exact ((h1.trans h2).trans (h3 _)).trans (h4 _)

theorem cadence_exchange (e : Engine) (w : World) :
    (LocalSignaling.ExchangeICECandidates e w).trace.filter Action.isCadence
      = w.trace.filter Action.isCadence ++ [Action.exchange] := by
  rw [(exchange_after_marker e _ cadence_callbackClosed (fun _ _ => rfl) w).filter_eq]
  simp [World.log, Action.isCadence]

/-- The gathering sleeps and batch markers appended by a loop that does not
end `invalidated` are those of some number `n` of iterations, at most the
budget. -/
theorem gatheringLoop_cadence (e : Engine) (m : Nat) :
    ∀ w : World, (gatheringLoop e m w).invalidated = false → ∃ n, n ≤ m
      ∧ (gatheringLoop e m w).trace.filter Action.isCadence
          = w.trace.filter Action.isCadence ++ countdownCadence m n := by
  induction m with
  | zero =>
    intro w _
    exact ⟨0, Nat.le_refl _, by simp [gatheringLoop, cadence_notBoth, countdownCadence]⟩
  | succ k ih =>
    intro w hv
    rcases gatheringLoop_cases e k w with ⟨_, heq⟩ | ⟨_, hk, heq⟩ | ⟨_, hk, _, heq⟩
      | ⟨_, _, hbad, heq⟩
    · rw [heq]
      exact ⟨0, Nat.zero_le _, by simp [cadence_notBoth, countdownCadence]⟩
    · rw [heq] at hv ⊢
      obtain ⟨n, hn, hshape⟩ := ih _ hv
      refine ⟨n + 1, by omega, ?_⟩
      rw [hshape, cadence_sleep, cadence_notBoth]
      simp [countdownCadence, hk]
    · rw [heq] at hv ⊢
      obtain ⟨n, hn, hshape⟩ := ih _ hv
      refine ⟨n + 1, by omega, ?_⟩
      rw [hshape, cadence_exchange, cadence_sleep, cadence_notBoth]
      simp [countdownCadence, hk]
    · rw [heq, hbad] at hv
      cases hv

/-- Counting `timeout` down from a multiple of 10 puts the batches on the
iterations whose number is a multiple of 10. -/
theorem countdownCadence_eq (n : Nat) :
    ∀ m i : Nat, n ≤ m → (m + i) % 10 = 0 → countdownCadence m n = cadenceFrom i n := by
  induction n with
  | zero => intro m i _ _; cases m <;> rfl
  | succ k ih =>
    intro m i hle hmod
    cases m with
    | zero => omega
    | succ m' =>
      have hiff : m' % 10 = 0 ↔ (i + 1) % 10 = 0 := by omega
      have htail := ih m' (i + 1) (by omega) (by omega)
      by_cases h : m' % 10 = 0
      · simp [countdownCadence, cadenceFrom, h, hiff.mp h, htail]
      · have h' : ¬ (i + 1) % 10 = 0 := fun hc => h (hiff.mpr hc)
        simp [countdownCadence, cadenceFrom, h, h', htail]

theorem cadenceFrom_sleeps (n : Nat) :
    ∀ i : Nat, (cadenceFrom i n).count (Action.sleep Phase.gathering) = n := by
  induction n with
  | zero => intro i; rfl
  | succ k ih =>
    intro i
    by_cases h : (i + 1) % 10 = 0 <;> simp [cadenceFrom, h, ih, List.count_cons]

theorem cadenceFrom_exchanges (n : Nat) :
    ∀ i : Nat, (cadenceFrom i n).count Action.exchange = (i + n) / 10 - i / 10 := by
  induction n with
  | zero => intro i; simp [cadenceFrom]
  | succ k ih =>
    intro i
    by_cases h : (i + 1) % 10 = 0 <;> simp [cadenceFrom, h, ih, List.count_cons] <;> omega

theorem cadence_counts (n : Nat) :
    (cadence n).count (Action.sleep Phase.gathering) = n
    ∧ (cadence n).count Action.exchange = n / 10 + 1 := by
  unfold cadence
  rw [List.count_append, List.count_append, cadenceFrom_sleeps, cadenceFrom_exchanges]
  simp

theorem Stable.of_deliver_mem (e : Engine) (I : World → Prop)
    (hd : ∀ w ev k, ev ∈ e.events k → I w → I (deliver e w ev))
    (hc : ∀ w k, I w → I { w with clock := k })
    (hl : ∀ w as, I w → I (w.log as)) : Stable e I := by
  refine ⟨?_, hl⟩
  intro w hw
  have key : ∀ (evs : List Event) (v : World), (∀ ev ∈ evs, ev ∈ e.events w.clock) → I v →
      I (evs.foldl (deliver e) v) := by
    intro evs
    induction evs with
    | nil => intro v _ hv; exact hv
    | cons ev rest ih =>
      intro v hmem hv
      exact ih _ (fun x hx => hmem x (List.mem_cons_of_mem _ hx))
        (hd v ev _ (hmem ev (List.mem_cons_self _ _)) hv)
  exact hc _ _ (key _ w (fun _ h => h) hw)

theorem Stable.addAll {e : Engine} {I : World → Prop} (h : Stable e I)
    (hi : ∀ (w : World) (b : Bool), I w → I { w with invalidated := b }) (src pc : Peer)
    (cs : List IceCandidate) : ∀ w : World, I w → I (LocalSignaling.addAll e src pc cs w) := by
  induction cs with
  | nil => intro w hw; exact hw
  | cons c rest ih =>
    intro w hw
    unfold LocalSignaling.addAll
    split
    · exact ih _ (h.call _ hw)
    · exact hi _ _ (h.1 _ hw)

/-- A stable property that depends neither on the stored candidates nor on
the `invalidated` mark survives a relay batch. -/
theorem Stable.exchange {e : Engine} {I : World → Prop} (h : Stable e I)
    (hi : ∀ (w : World) (b : Bool), I w → I { w with invalidated := b })
    (h1 : ∀ w : World, I w → I { w with observer1 := w.observer1.ClearIceCandidates })
    (h2 : ∀ w : World, I w → I { w with observer2 := w.observer2.ClearIceCandidates })
    {w : World} (hw : I w) : I (LocalSignaling.ExchangeICECandidates e w) := by
  have a1 : I (LocalSignaling.relay1 e w) :=
    h.addAll hi _ _ _ _ (hi _ _ (h.1 _ (h.2 _ _ hw)))
  have a2 : I (LocalSignaling.relay2 e (LocalSignaling.relay1 e w)) :=
    h.addAll hi _ _ _ _ (hi _ _ (h.1 _ a1))
  unfold LocalSignaling.ExchangeICECandidates
  split
  · exact a1
  · split
    · exact a2
    · exact h2 _ (h.1 _ (h1 _ (h.1 _ a2)))

/-- If the engine never reports gathering complete to endpoint `p`, its
observer's flag stays false. -/
theorem gathering_incomplete_stable (e : Engine) (p : Peer)
    (hnever : ∀ k, Event.pc p (PcCallback.OnIceGatheringChange
      IceGatheringState.kIceGatheringComplete) ∉ e.events k) :
    Stable e (fun w => (w.observer p).ice_gathering_complete_ = false) := by
  apply Stable.of_deliver_mem
  · intro w ev k hmem hw
    cases ev with
    | pc q cb =>
      by_cases hqp : q = p
      · subst hqp
        have hcb : cb ≠ PcCallback.OnIceGatheringChange IceGatheringState.kIceGatheringComplete :=
          fun hc => hnever k (hc ▸ hmem)
        have : (cb.deliver e.CreateIceCandidate (w.observer q)).1.ice_gathering_complete_
            = false := by
          cases cb with
          | OnIceGatheringChange s =>
            have hs : s ≠ IceGatheringState.kIceGatheringComplete := fun h => hcb (by rw [h])
            simp [PcCallback.deliver, SimplePeerConnectionObserver.OnIceGatheringChange, hs, hw]
          | OnIceConnectionChange s =>
            simp only [PcCallback.deliver, SimplePeerConnectionObserver.OnIceConnectionChange]
            split <;> exact hw
          | OnConnectionChange s =>
            simp only [PcCallback.deliver, SimplePeerConnectionObserver.OnConnectionChange]
            split <;> exact hw
          | OnIceCandidate c =>
            simp only [PcCallback.deliver, SimplePeerConnectionObserver.OnIceCandidate]
            split <;> exact hw
          | OnDataChannel c => exact hw
          | OnSignalingChange s => exact hw
          | OnAddTrack => exact hw
          | OnRemoveTrack => exact hw
          | OnRenegotiationNeeded => exact hw
        cases q <;> simpa [deliver, World.log, World.setObserver, World.observer] using this
      · cases p <;> cases q <;>
          simp_all [deliver, World.log, World.setObserver, World.observer]
    | dcOnStateChange q => simpa [deliver, World.log, World.observer] using hw
    | dcOnMessage q buffer =>
      cases p <;> cases q <;> simp_all [deliver, World.setObserver, World.observer]
    | offer cb => simpa [deliver, World.observer] using hw
    | answer cb => simpa [deliver, World.observer] using hw
    | channelState c s => simpa [deliver, World.observer] using hw
  · intro w k hw; simpa [World.observer] using hw
  · intro w as hw; simpa [World.observer, World.log] using hw

theorem PcCallback.deliver_gathering_complete
    (cic : String → Int → String → Option IceCandidate) (o : SimplePeerConnectionObserver)
    (cb : PcCallback) (h : o.ice_gathering_complete_ = true) :
    (cb.deliver cic o).1.ice_gathering_complete_ = true := by
  cases cb <;>
    simp [PcCallback.deliver, SimplePeerConnectionObserver.OnSignalingChange,
      SimplePeerConnectionObserver.OnAddTrack, SimplePeerConnectionObserver.OnRemoveTrack,
      SimplePeerConnectionObserver.OnDataChannel, SimplePeerConnectionObserver.OnRenegotiationNeeded,
      SimplePeerConnectionObserver.OnIceConnectionChange,
      SimplePeerConnectionObserver.OnIceGatheringChange,
      SimplePeerConnectionObserver.OnIceCandidate,
      SimplePeerConnectionObserver.OnConnectionChange, h]
  all_goals (split <;> simp [h])

/-- The gathering-complete latch of an endpoint's observer survives every
program point. -/
theorem gathering_complete_stable (e : Engine) (p : Peer) :
    Stable e (fun w => (w.observer p).ice_gathering_complete_ = true) := by
  apply Stable.of_deliver
  · intro w ev hw
    cases ev with
    | pc q cb =>
      have := PcCallback.deliver_gathering_complete e.CreateIceCandidate (w.observer q) cb
      cases p <;> cases q <;>
        simp_all [deliver, World.log, World.setObserver, World.observer]
    | dcOnStateChange q => simpa [deliver, World.log, World.observer] using hw
    | dcOnMessage q buffer =>
      cases p <;> cases q <;> simp_all [deliver, World.setObserver, World.observer]
    | offer cb => simpa [deliver, World.observer] using hw
    | answer cb => simpa [deliver, World.observer] using hw
    | channelState c s => simpa [deliver, World.observer] using hw
  · intro w k hw; simpa [World.observer] using hw
  · intro w as hw; simpa [World.observer, World.log] using hw

theorem sleepCount_notBoth (e : Engine) (ph : Phase) (line : Nat) (a : Peer → Probe)
    (w : World) : sleepCount ph (notBoth e line a w).2.trace = sleepCount ph w.trace :=
  sleepCount_of_adds
    (notBoth_adds e _ (sleep_callbackClosed ph) line a (fun _ _ h => (by cases h)) w)

theorem sleepCount_exchange (e : Engine) (ph : Phase) (w : World) :
    sleepCount ph (LocalSignaling.ExchangeICECandidates e w).trace = sleepCount ph w.trace :=
  sleepCount_of_adds
    (ExchangeICECandidates_adds e _ (sleep_callbackClosed ph) (fun h => (by cases h))
      (fun _ _ h => (by cases h)) w)

/-- While one endpoint's gathering flag stays false, the loop condition is
true. -/
theorem notBoth_of_incomplete (e : Engine) (p : Peer)
    (hst : Stable e (fun w => (w.observer p).ice_gathering_complete_ = false))
    (w : World) (hw : (w.observer p).ice_gathering_complete_ = false) :
    (notBoth e 188 Probe.gatheringComplete w).1 = true := by
  unfold notBoth
  split
  · rename_i h1
    cases p with
    | pc1 =>
      have : (read e 188 (Probe.gatheringComplete Peer.pc1) w).1 = false := hst.1 _ hw
      rw [this] at h1
      cases h1
    | pc2 =>
      have : (read e 188 (Probe.gatheringComplete Peer.pc2)
          (read e 188 (Probe.gatheringComplete Peer.pc1) w).2).1 = false :=
        hst.1 _ (hst.read 188 _ hw)
      simp [this]
  · rfl

/-- If one endpoint never completes gathering, a loop that does not end
`invalidated` sleeps once for every unit of its budget. -/
theorem gatheringLoop_timeout (e : Engine) (p : Peer)
    (hst : Stable e (fun w => (w.observer p).ice_gathering_complete_ = false)) (m : Nat) :
    ∀ w : World, (w.observer p).ice_gathering_complete_ = false →
      (gatheringLoop e m w).invalidated = false →
      sleepCount Phase.gathering (gatheringLoop e m w).trace
        = sleepCount Phase.gathering w.trace + m := by
  have hx : ∀ v : World, (v.observer p).ice_gathering_complete_ = false →
      ((LocalSignaling.ExchangeICECandidates e v).observer p).ice_gathering_complete_ = false :=
    fun v hv => hst.exchange
      (fun u b hu => by cases p <;> simpa [World.observer] using hu)
      (fun u hu => by cases p <;> simpa [World.observer,
        SimplePeerConnectionObserver.ClearIceCandidates] using hu)
      (fun u hu => by cases p <;> simpa [World.observer,
        SimplePeerConnectionObserver.ClearIceCandidates] using hu) hv
  induction m with
  | zero => intro w _ _; simp [gatheringLoop, sleepCount_notBoth]
  | succ k ih =>
    intro w hw hv
    have hcond := notBoth_of_incomplete e p hst w hw
    have h1 : ((sleep e Phase.gathering
        (notBoth e 188 Probe.gatheringComplete w).2).observer p).ice_gathering_complete_
        = false := hst.sleep _ (hst.notBoth 188 _ hw)
    rcases gatheringLoop_cases e k w with ⟨hc, _⟩ | ⟨_, _, heq⟩ | ⟨_, _, _, heq⟩
      | ⟨_, _, hbad, heq⟩
    · rw [hcond] at hc
      cases hc
    · rw [heq] at hv ⊢
      rw [ih _ h1 hv, sleepCount_sleep, sleepCount_notBoth]
      omega
    · rw [heq] at hv ⊢
      rw [ih _ (hx _ h1) hv, sleepCount_exchange, sleepCount_sleep, sleepCount_notBoth]
      omega
    · rw [heq, hbad] at hv
      cases hv

/-- If both endpoints have completed gathering, the loop body does not
run. -/
theorem gatheringLoop_complete (e : Engine) (m : Nat) (w : World)
    (h1 : w.observer1.ice_gathering_complete_ = true)
    (h2 : w.observer2.ice_gathering_complete_ = true) :
    sleepCount Phase.gathering (gatheringLoop e m w).trace
      = sleepCount Phase.gathering w.trace := by
  have r1 : (read e 188 (Probe.gatheringComplete Peer.pc1) w).1 = true :=
    (gathering_complete_stable e Peer.pc1).1 _ h1
  have r2 : (read e 188 (Probe.gatheringComplete Peer.pc2)
      (read e 188 (Probe.gatheringComplete Peer.pc1) w).2).1 = true :=
    (gathering_complete_stable e Peer.pc2).1 _
      ((gathering_complete_stable e Peer.pc2).read 188 _ h2)
  have hcond : (notBoth e 188 Probe.gatheringComplete w).1 = false := by
    unfold notBoth
    rw [if_pos r1]
    simp [r2]
  cases m with
  | zero => simp [gatheringLoop, sleepCount_notBoth]
  | succ k =>
    unfold gatheringLoop
    rw [if_neg (by simp [hcond])]
    exact sleepCount_notBoth e _ 188 _ w

theorem cadence_filter_sleeps (tr : List Action) :
    (tr.filter Action.isCadence).count (Action.sleep Phase.gathering)
      = tr.count (Action.sleep Phase.gathering) :=
  List.count_filter (show Action.isCadence (Action.sleep Phase.gathering) = true from rfl)

theorem cadence_filter_exchanges (tr : List Action) :
    (tr.filter Action.isCadence).count Action.exchange = tr.count Action.exchange :=
  List.count_filter (show Action.isCadence Action.exchange = true from rfl)

/-- C7: a gathering stage (the loop with budget 100 and the batch after it)
in which no batch has the iterators of a range-for invalidated appends to the
record, as far as gathering sleeps and relay batches go, exactly the cadence of
some number `n ≤ 100` of loop iterations: one sleep per iteration, a batch
after the sleep of iterations 10, 20, ..., and one more batch at the end.  So
`n` is the number of gathering sleeps and the number of batches is
`n / 10 + 1`; `n` is 100 (11 batches) when an endpoint never completes
gathering, and 0 (1 batch) when both endpoints had completed gathering before
the stage. -/
theorem relay_cadence_every_tenth_iteration (e : Engine) (w : World)
    (hvalid : (gatheringStage e w).invalidated = false) :
    ∃ n, n ≤ 100
      ∧ (gatheringStage e w).trace.filter Action.isCadence
          = w.trace.filter Action.isCadence ++ cadence n
      ∧ sleepCount Phase.gathering (gatheringStage e w).trace
          = sleepCount Phase.gathering w.trace + n
      ∧ exchangeCount (gatheringStage e w).trace = exchangeCount w.trace + (n / 10 + 1)
      ∧ ((∃ p, (w.observer p).IsIceGatheringComplete = false
            ∧ ∀ k, Event.pc p (PcCallback.OnIceGatheringChange
                IceGatheringState.kIceGatheringComplete) ∉ e.events k) →
          n = 100 ∧ exchangeCount (gatheringStage e w).trace = exchangeCount w.trace + 11)
      ∧ (w.observer1.IsIceGatheringComplete = true ∧ w.observer2.IsIceGatheringComplete = true →
          n = 0 ∧ exchangeCount (gatheringStage e w).trace = exchangeCount w.trace + 1) := by
  obtain ⟨hloopv, hstage⟩ := gatheringStage_of_valid e w hvalid
  obtain ⟨n, hn, hshape⟩ := gatheringLoop_cadence e 100 w hloopv
  rw [countdownCadence_eq n 100 0 hn (by decide)] at hshape
  have hfull : (gatheringStage e w).trace.filter Action.isCadence
      = w.trace.filter Action.isCadence ++ cadence n := by
    rw [hstage, cadence_exchange, hshape, cadence, List.append_assoc]
  have hsl : sleepCount Phase.gathering (gatheringStage e w).trace
      = sleepCount Phase.gathering w.trace + n := by
    unfold sleepCount
    rw [← cadence_filter_sleeps (gatheringStage e w).trace, ← cadence_filter_sleeps w.trace,
      hfull, List.count_append, (cadence_counts n).1]
  have hex : exchangeCount (gatheringStage e w).trace = exchangeCount w.trace + (n / 10 + 1) := by
    unfold exchangeCount
    rw [← cadence_filter_exchanges (gatheringStage e w).trace,
      ← cadence_filter_exchanges w.trace, hfull, List.count_append, (cadence_counts n).2]
  have hloop : sleepCount Phase.gathering (gatheringStage e w).trace
      = sleepCount Phase.gathering (gatheringLoop e 100 w).trace := by
    rw [hstage]
    exact sleepCount_exchange e _ _
  refine ⟨n, hn, hfull, hsl, hex, ?_, ?_⟩
  · rintro ⟨p, hp, hnever⟩
    have h100 := gatheringLoop_timeout e p (gathering_incomplete_stable e p hnever) 100 w hp
      hloopv
    have : n = 100 := by omega
    subst this
    exact ⟨rfl, hex⟩
  · rintro ⟨h1, h2⟩
    have h0 := gatheringLoop_complete e 100 w h1 h2
    have : n = 0 := by omega
    subst this
    exact ⟨rfl, hex⟩

/-- C7 on `candidateEngine`: each endpoint's candidate is stored before the
first batch and relayed by it, no range-for is invalidated, gathering never
completes, the loop runs 100 times and 11 relay batches are performed. -/
theorem relay_cadence_every_tenth_iteration_witness :
    ((gatheringStage candidateEngine World.start).invalidated = false
      ∧ Action.call (EngineCall.AddIceCandidate Peer.pc2 hostCandidate1)
          ∈ (gatheringStage candidateEngine World.start).trace
      ∧ Action.call (EngineCall.AddIceCandidate Peer.pc1 hostCandidate2)
          ∈ (gatheringStage candidateEngine World.start).trace)
    ∧ sleepCount Phase.gathering (gatheringStage candidateEngine World.start).trace = 100
    ∧ exchangeCount (gatheringStage candidateEngine World.start).trace = 11 := by
  obtain ⟨n, _, _, hsl, _, hnever, _⟩ :=
    relay_cadence_every_tenth_iteration candidateEngine World.start (by decide)
  have h := hnever ⟨Peer.pc1, rfl, fun k => by
    simp only [candidateEngine]
    split <;> simp⟩
  rw [h.1] at hsl
  exact ⟨by decide, by simpa [sleepCount, World.start] using hsl,
    by simpa [exchangeCount, World.start] using h.2⟩

/-- A candidate stored in observer1's vector between the two requests of the
first range-for: the batch ends `invalidated` after the first request, the
second stored candidate and observer2's candidate are not relayed, and no list
is cleared.  A candidate stored in observer1's vector while the second
range-for walks observer2's vector invalidates nothing. -/
theorem store_between_requests_invalidates :
    (LocalSignaling.ExchangeICECandidates midLoopEngine relaySample).invalidated = true
    ∧ (LocalSignaling.ExchangeICECandidates midLoopEngine relaySample).trace
        = [Action.exchange,
           Action.call (EngineCall.AddIceCandidate Peer.pc2
             { sdp_mid := "0", sdp_mline_index := 0, sdp := "candidate:1 udp host" })]
    ∧ (LocalSignaling.ExchangeICECandidates midLoopEngine relaySample).observer1.GetIceCandidates
        = relaySample.observer1.GetIceCandidates ++ [lateCandidate]
    ∧ (LocalSignaling.ExchangeICECandidates midLoopEngine relaySample).observer2.GetIceCandidates
        = relaySample.observer2.GetIceCandidates
    ∧ (LocalSignaling.ExchangeICECandidates lateCandidateEngine relaySample).invalidated
        = false := by
  decide

/-- A candidate stored in observer1's vector while the first range-for of the
first batch of a run walks it: the batch ends `invalidated` before any
`AddIceCandidate`, the stage is not run further, and the late stages return no
value. -/
theorem store_during_range_for_invalidates :
    (gatheringStage invalidatingEngine World.start).invalidated = true
    ∧ exchangeCount (gatheringStage invalidatingEngine World.start).trace = 1
    ∧ sleepCount Phase.gathering (gatheringStage invalidatingEngine World.start).trace = 10
    ∧ (∀ p c, Action.call (EngineCall.AddIceCandidate p c)
        ∉ (gatheringStage invalidatingEngine World.start).trace)
    ∧ (lateStages invalidatingEngine World.start).exit = none := by
  refine ⟨by decide, by decide, by decide, ?_, by decide⟩
  intro p c hmem
  have hall : ∀ a ∈ (gatheringStage invalidatingEngine World.start).trace,
      (match a with
        | Action.call (EngineCall.AddIceCandidate _ _) => false
        | _ => true) = true := by decide
  exact absurd (hall _ hmem) (by simp)

/-! ## The description hand-off (C9) -/

theorem handoff_callbackClosed : CallbackClosed (fun a => Action.isHandoff a = false) :=
  ⟨fun _ => rfl, fun _ _ => rfl⟩

theorem handoff_call (e : Engine) (c : EngineCall) (w : World) :
    (call e c w).trace.filter Action.isHandoff
      = w.trace.filter Action.isHandoff ++ [Action.call c].filter Action.isHandoff := by
  rw [call_trace, List.filter_append, (tick_adds e _ handoff_callbackClosed w).filter_eq]

theorem handoff_takeOffer (e : Engine) (w : World) :
    (takeOffer e 137 w).2.trace.filter Action.isHandoff
      = w.trace.filter Action.isHandoff ++ [Action.take 137 (takeOffer e 137 w).1] := by
  have h : (takeOffer e 137 w).2.trace
      = (tick e w).trace ++ [Action.take 137 (takeOffer e 137 w).1] := rfl
  rw [h, List.filter_append, (tick_adds e _ handoff_callbackClosed w).filter_eq]
  rfl

theorem handoff_takeAnswer (e : Engine) (w : World) :
    (takeAnswer e 167 w).2.trace.filter Action.isHandoff
      = w.trace.filter Action.isHandoff ++ [Action.take 167 (takeAnswer e 167 w).1] := by
  have h : (takeAnswer e 167 w).2.trace
      = (tick e w).trace ++ [Action.take 167 (takeAnswer e 167 w).1] := rfl
  rw [h, List.filter_append, (tick_adds e _ handoff_callbackClosed w).filter_eq]
  rfl

/-- Nothing but `CreateSessionDescription` moves the allocation address. -/
theorem next_addr_stable (e : Engine) (k : Nat) : Stable e (fun w => w.next_addr = k) := by
  apply Stable.of_deliver
  · intro w ev hw
    cases ev with
    | pc q cb => cases q <;> simpa [deliver, World.log, World.setObserver] using hw
    | dcOnStateChange q => simpa [deliver, World.log] using hw
    | dcOnMessage q buffer => cases q <;> simpa [deliver, World.setObserver] using hw
    | offer cb => simpa [deliver] using hw
    | answer cb => simpa [deliver] using hw
    | channelState c s => simpa [deliver] using hw
  · intro w k hw; exact hw
  · intro w as hw; exact hw

theorem newDescription_keep (e : Engine)
    (hkeep : ∀ kind sdp, e.CreateSessionDescription kind sdp = some (kind, sdp))
    (kind : SdpType) (sdp : String) (w : World) :
    newDescription e kind sdp w
      = (some { addr := w.next_addr, kind := kind, body := sdp },
         { w with next_addr := w.next_addr + 1 }) := by
  simp [newDescription, hkeep]

/-- A run that returns 0 got through setup. -/
theorem setup_of_exit_zero (e : Engine) (h : (main e).exit = some 0) :
    ∃ w dc, setup e = Step.next w ∧ Adds (Emits (Segment.setup dc)) World.start w
      ∧ w.next_addr = 0 := by
  have hf : e.factory_ok = true := by
    cases hv : e.factory_ok with
    | true => rfl
    | false => simp [main, setup, hv] at h
  have h1 : e.pc1_ok = true := by
    cases hv : e.pc1_ok with
    | true => rfl
    | false => simp [main, setup, hf, hv] at h
  have h2 : e.pc2_ok = true := by
    cases hv : e.pc2_ok with
    | true => rfl
    | false => simp [main, setup, hf, h1, hv] at h
  cases hd : e.data_channel with
  | none => simp [main, setup, hf, h1, h2, hd] at h
  | some dc =>
    obtain ⟨w, hs, hw⟩ := setup_next e dc hf h1 h2 hd
    refine ⟨w, dc, hs, hw, ?_⟩
    simp only [setup, hf, h1, h2, hd, Bool.not_true, Bool.false_eq_true, if_false] at hs
    injection hs with hs
    subst hs
    have st := next_addr_stable e 0
    have a2 : (call e EngineCall.CreatePeerConnectionFactory
        (call e EngineCall.InitializeSSL World.start)).next_addr = 0 :=
      st.call _ (st.call _ (rfl : World.start.next_addr = 0))
    have a2b : (fun v : World => v.next_addr = 0)
        { call e EngineCall.CreatePeerConnectionFactory
            (call e EngineCall.InitializeSSL World.start) with
          observer1 := SimplePeerConnectionObserver.new "Peer1",
          observer2 := SimplePeerConnectionObserver.new "Peer2" } := a2
    have a3 := st.call (EngineCall.CreateDataChannelOrError Peer.pc1 "hello_channel")
      (st.call (EngineCall.CreatePeerConnectionOrError Peer.pc2)
        (st.call (EngineCall.CreatePeerConnectionOrError Peer.pc1) a2b))
    exact st.1 _ a3

theorem next_addr_takeOffer (e : Engine) (k : Nat) (w : World) (h : w.next_addr = k) :
    (takeOffer e 137 w).2.next_addr = k :=
  (next_addr_stable e k).1 _ h

theorem next_addr_takeAnswer (e : Engine) (k : Nat) (w : World) (h : w.next_addr = k) :
    (takeAnswer e 167 w).2.next_addr = k :=
  (next_addr_stable e k).1 _ h

theorem next_addr_offerCheck (e : Engine) (k : Nat) (w : World) (h : w.next_addr = k) :
    (offerCheck e w).2.next_addr = k := by
  have st := next_addr_stable e k
  have h0 : (fun v : World => v.next_addr = k)
      { w with offer_observer := CreateSDPObserver.Create } := h
  exact st.read 131 _ (st.waitSuccessful 127 _ _ 50 _ (st.call _ h0))

theorem next_addr_answerCheck (e : Engine) (k : Nat) (d : Option SessionDescription)
    (w : World) (h : w.next_addr = k) : (answerCheck e d w).2.next_addr = k := by
  have st := next_addr_stable e k
  have h0 : (fun v : World => v.next_addr = k)
      { w with answer_observer := CreateSDPObserver.Create } := h
  exact st.read 162 _ (st.waitSuccessful 158 _ _ 50 _ (st.call _ (st.sleep _ (st.call _ h0))))

theorem handoff_offerCheck (e : Engine) (w : World) :
    (offerCheck e w).2.trace.filter Action.isHandoff = w.trace.filter Action.isHandoff := by
  have h : Adds (fun a => Action.isHandoff a = false) w (offerCheck e w).2 :=
    ((offerWait_adds e w).mono (fun a ha => by cases ha <;> rfl)).trans
      (read_adds e _ handoff_callbackClosed 131 _ (fun _ => rfl) _)
  exact h.filter_eq

theorem handoff_answerCheck (e : Engine) (d : Option SessionDescription) (w : World) :
    (answerCheck e d w).2.trace.filter Action.isHandoff
      = w.trace.filter Action.isHandoff
        ++ [Action.call (EngineCall.SetRemoteDescription Peer.pc2 d),
            Action.call (EngineCall.CreateAnswer Peer.pc2)] := by
  have hcb := handoff_callbackClosed
  have h : Adds (fun a => Action.isHandoff a = false)
      (LocalSignaling.ExchangeSDPs e d { w with answer_observer := CreateSDPObserver.Create })
      (answerCheck e d w).2 :=
    (waitSuccessful_adds e _ hcb 158 _ _ (fun _ => rfl) rfl 50 _).trans
      (read_adds e _ hcb 162 _ (fun _ => rfl) _)
  rw [h.filter_eq]
  unfold LocalSignaling.ExchangeSDPs
  rw [handoff_call, (sleep_adds e _ hcb Phase.settle rfl _).filter_eq, handoff_call]
  simp [Action.isHandoff, EngineCall.isDescriptionCall]

theorem handoff_lateStages (e : Engine) (w : World) :
    (lateStages e w).world.trace.filter Action.isHandoff = w.trace.filter Action.isHandoff := by
  have h : Adds (fun a => Action.isHandoff a = false) w (lateStages e w).world :=
    (lateStages_adds e w).mono (fun a ha => by
      obtain ⟨s, hs, hem⟩ := ha
      simp only [List.mem_cons, List.mem_singleton, List.not_mem_nil, or_false] at hs
      rcases hs with rfl | rfl | rfl <;> cases hem <;> rfl)
  exact h.filter_eq

theorem handoff_setup (dc : ChanId) (w : World)
    (hw : Adds (Emits (Segment.setup dc)) World.start w) :
    w.trace.filter Action.isHandoff = [] := by
  have h : Adds (fun a => Action.isHandoff a = false) World.start w :=
    hw.mono (fun a ha => by
      cases ha with
      | register _ _ => rfl
      | send _ _ _ => rfl
      | setupCall _ c hc =>
        simp only [setupCalls, List.mem_cons, List.mem_singleton, List.not_mem_nil,
          or_false] at hc
        rcases hc with rfl | rfl | rfl | rfl | rfl | rfl <;> rfl)
  rw [h.filter_eq]
  rfl

/-- The hand-off entries of a run whose two checks succeed, with the
allocation address `n` at which the offer is taken. -/
theorem handoff_afterAnswer (e : Engine)
    (hkeep : ∀ kind sdp, e.CreateSessionDescription kind sdp = some (kind, sdp))
    (offer answer : SessionDescription) (w : World) (n : Nat) (hn : w.next_addr = n)
    (ho : (takeOffer e 137 (offerCheck e w).2).1 = some offer)
    (ha : (takeAnswer e 167 (answerCheckOf e offer w).2).1 = some answer) :
    (afterAnswer e offer answer w).trace.filter Action.isHandoff
      = w.trace.filter Action.isHandoff ++
        [Action.take 137 (some offer),
         Action.call (EngineCall.SetLocalDescription Peer.pc1
           (some { addr := n, kind := offer.kind, body := offer.body })),
         Action.call (EngineCall.SetRemoteDescription Peer.pc2
           (some { addr := n + 1, kind := offer.kind, body := offer.body })),
         Action.call (EngineCall.CreateAnswer Peer.pc2),
         Action.take 167 (some answer),
         Action.call (EngineCall.SetLocalDescription Peer.pc2
           (some { addr := n + 2, kind := answer.kind, body := answer.body })),
         Action.call (EngineCall.SetRemoteDescription Peer.pc1
           (some { addr := n + 3, kind := answer.kind, body := answer.body }))] := by
  -- the offer hand-off
  have n1 : (takeOffer e 137 (offerCheck e w).2).2.next_addr = n :=
    next_addr_takeOffer e n _ (next_addr_offerCheck e n w hn)
  have t1 : (takeOffer e 137 (offerCheck e w).2).2.trace.filter Action.isHandoff
      = w.trace.filter Action.isHandoff ++ [Action.take 137 (some offer)] := by
    rw [handoff_takeOffer, handoff_offerCheck, ho]
  have ao2 : (afterOffer e offer w).2
      = some { addr := n + 1, kind := offer.kind, body := offer.body } := by
    simp [afterOffer, offerHandoff, newDescription_keep e hkeep, n1]
  have ao1 : (afterOffer e offer w).1
      = call e (EngineCall.SetLocalDescription Peer.pc1
          (some { addr := n, kind := offer.kind, body := offer.body }))
          { (takeOffer e 137 (offerCheck e w).2).2 with next_addr := n + 1 + 1 } := by
    simp [afterOffer, offerHandoff, newDescription_keep e hkeep, n1]
  have n2 : (afterOffer e offer w).1.next_addr = n + 2 := by
    rw [ao1]
    exact (next_addr_stable e (n + 2)).call _ rfl
  have t2 : (afterOffer e offer w).1.trace.filter Action.isHandoff
      = w.trace.filter Action.isHandoff ++
        [Action.take 137 (some offer),
         Action.call (EngineCall.SetLocalDescription Peer.pc1
           (some { addr := n, kind := offer.kind, body := offer.body }))] := by
    rw [ao1, handoff_call]
    have : ({ (takeOffer e 137 (offerCheck e w).2).2 with next_addr := n + 1 + 1 } : World).trace
        = (takeOffer e 137 (offerCheck e w).2).2.trace := rfl
    rw [this, t1]
    simp [Action.isHandoff, EngineCall.isDescriptionCall]
  -- the answer wait
  have t3 : (answerCheckOf e offer w).2.trace.filter Action.isHandoff
      = w.trace.filter Action.isHandoff ++
        [Action.take 137 (some offer),
         Action.call (EngineCall.SetLocalDescription Peer.pc1
           (some { addr := n, kind := offer.kind, body := offer.body })),
         Action.call (EngineCall.SetRemoteDescription Peer.pc2
           (some { addr := n + 1, kind := offer.kind, body := offer.body })),
         Action.call (EngineCall.CreateAnswer Peer.pc2)] := by
    unfold answerCheckOf
    rw [handoff_answerCheck, t2, ao2]
    simp
  have n3 : (takeAnswer e 167 (answerCheckOf e offer w).2).2.next_addr = n + 2 :=
    next_addr_takeAnswer e _ _ (next_addr_answerCheck e _ _ _ n2)
  have t4 : (takeAnswer e 167 (answerCheckOf e offer w).2).2.trace.filter Action.isHandoff
      = w.trace.filter Action.isHandoff ++
        [Action.take 137 (some offer),
         Action.call (EngineCall.SetLocalDescription Peer.pc1
           (some { addr := n, kind := offer.kind, body := offer.body })),
         Action.call (EngineCall.SetRemoteDescription Peer.pc2
           (some { addr := n + 1, kind := offer.kind, body := offer.body })),
         Action.call (EngineCall.CreateAnswer Peer.pc2),
         Action.take 167 (some answer)] := by
    rw [handoff_takeAnswer, t3, ha]
    simp
  -- the answer hand-off
  have aa : afterAnswer e offer answer w
      = call e (EngineCall.SetRemoteDescription Peer.pc1
          (some { addr := n + 3, kind := answer.kind, body := answer.body }))
          (call e (EngineCall.SetLocalDescription Peer.pc2
            (some { addr := n + 2, kind := answer.kind, body := answer.body }))
            { (takeAnswer e 167 (answerCheckOf e offer w).2).2 with
              next_addr := n + 2 + 1 + 1 }) := by
    simp [afterAnswer, answerHandoff, newDescription_keep e hkeep, n3]
  rw [aa, handoff_call, handoff_call]
  have : ({ (takeAnswer e 167 (answerCheckOf e offer w).2).2 with
      next_addr := n + 2 + 1 + 1 } : World).trace
      = (takeAnswer e 167 (answerCheckOf e offer w).2).2.trace := rfl
  rw [this, t4]
  simp [Action.isHandoff, EngineCall.isDescriptionCall]

/-- C9: in a run that returns 0 (offer and answer both created), with an
engine whose `CreateSessionDescription` keeps the type and text it is given,
the `TakeCreatedSDP`, `SetLocalDescription`, `SetRemoteDescription` and
`CreateAnswer` entries of the whole record are exactly: the offer is taken;
`SetLocalDescription` on pc1 and `SetRemoteDescription` on pc2, each with its
own copy of the offer; `CreateAnswer` on pc2; the answer is taken;
`SetLocalDescription` on pc2 and `SetRemoteDescription` on pc1, each with its
own copy of the answer.  The four copies are the allocations 0, 1, 2, 3, each
passed to one call, and each has the kind and body of the description
taken. -/
theorem description_handoff_order_and_copies (e : Engine)
    (hkeep : ∀ kind sdp, e.CreateSessionDescription kind sdp = some (kind, sdp))
    (hexit : (main e).exit = some 0) :
    ∃ offer answer : SessionDescription,
      (main e).world.trace.filter Action.isHandoff
        = [Action.take 137 (some offer),
           Action.call (EngineCall.SetLocalDescription Peer.pc1
             (some { addr := 0, kind := offer.kind, body := offer.body })),
           Action.call (EngineCall.SetRemoteDescription Peer.pc2
             (some { addr := 1, kind := offer.kind, body := offer.body })),
           Action.call (EngineCall.CreateAnswer Peer.pc2),
           Action.take 167 (some answer),
           Action.call (EngineCall.SetLocalDescription Peer.pc2
             (some { addr := 2, kind := answer.kind, body := answer.body })),
           Action.call (EngineCall.SetRemoteDescription Peer.pc1
             (some { addr := 3, kind := answer.kind, body := answer.body }))] := by
  obtain ⟨w, dc, hs, hw, hn⟩ := setup_of_exit_zero e hexit
  rcases main_cases e w hs with ⟨_, hm⟩ | ⟨_, offer, ho, hrest⟩
  · rw [hm] at hexit; cases hexit
  · rcases hrest with ⟨_, hm⟩ | ⟨_, answer, ha, hm⟩
    · rw [hm] at hexit; cases hexit
    · refine ⟨offer, answer, ?_⟩
      rw [hm, handoff_lateStages, handoff_afterAnswer e hkeep offer answer w 0 hn ho ha,
        handoff_setup dc w hw]
      rfl

/-- C9 on `oneSidedEngine`: the run returns 0, and its hand-off entries are the
seven expected ones with the four copies of `offer` and `answer`. -/
theorem description_handoff_order_and_copies_witness :
    ∃ offer answer : SessionDescription,
      (main oneSidedEngine).world.trace.filter Action.isHandoff
        = [Action.take 137 (some offer),
           Action.call (EngineCall.SetLocalDescription Peer.pc1
             (some { addr := 0, kind := offer.kind, body := offer.body })),
           Action.call (EngineCall.SetRemoteDescription Peer.pc2
             (some { addr := 1, kind := offer.kind, body := offer.body })),
           Action.call (EngineCall.CreateAnswer Peer.pc2),
           Action.take 167 (some answer),
           Action.call (EngineCall.SetLocalDescription Peer.pc2
             (some { addr := 2, kind := answer.kind, body := answer.body })),
           Action.call (EngineCall.SetRemoteDescription Peer.pc1
             (some { addr := 3, kind := answer.kind, body := answer.body }))] :=
  description_handoff_order_and_copies oneSidedEngine (fun _ _ => rfl) (by decide)

/-! ## Candidates arriving during a batch (C10) -/

/-- C10 fails on the code: with `lateCandidateEngine`, a candidate that
`OnIceCandidate` stores on observer1 while a relay batch is between reading
observer1's list and clearing it is in the list before the clear, is gone
after the batch, and is passed to `AddIceCandidate` neither by this batch nor
by the next one. -/
theorem candidate_stored_during_batch_is_lost :
    (LocalSignaling.relay2 lateCandidateEngine
        (LocalSignaling.relay1 lateCandidateEngine relaySample)).observer1.GetIceCandidates
      = relaySample.observer1.GetIceCandidates ++ [lateCandidate]
    ∧ (LocalSignaling.ExchangeICECandidates lateCandidateEngine relaySample).observer1.GetIceCandidates
      = []
    ∧ Action.call (EngineCall.AddIceCandidate Peer.pc2 lateCandidate)
        ∉ (LocalSignaling.ExchangeICECandidates lateCandidateEngine relaySample).trace
    ∧ Action.call (EngineCall.AddIceCandidate Peer.pc2 lateCandidate)
        ∉ (LocalSignaling.ExchangeICECandidates lateCandidateEngine
            (LocalSignaling.ExchangeICECandidates lateCandidateEngine relaySample)).trace := by
  decide

/-! ## What the driver did -/

theorem driver_callbackClosed : CallbackClosed (fun a => Action.isDriver a = false) :=
  ⟨fun _ => rfl, fun _ _ => rfl⟩

theorem driverRecord_tick (e : Engine) (w : World) :
    driverRecord (tick e w).trace = driverRecord w.trace :=
  (tick_adds e _ driver_callbackClosed w).filter_eq

theorem driverRecord_call (e : Engine) (c : EngineCall) (w : World) :
    driverRecord (call e c w).trace = driverRecord w.trace ++ [Action.call c] := by
  unfold driverRecord
  rw [call_trace, List.filter_append]
  have := driverRecord_tick e w
  unfold driverRecord at this
  rw [this]
  rfl

theorem driverRecord_sleep (e : Engine) (ph : Phase) (w : World) :
    driverRecord (sleep e ph w).trace = driverRecord w.trace ++ [Action.sleep ph] := by
  unfold driverRecord
  rw [sleep_trace, List.filter_append]
  have := driverRecord_tick e w
  unfold driverRecord at this
  rw [this]
  rfl

theorem driverRecord_read (e : Engine) (line : Nat) (pr : Probe) (w : World) :
    driverRecord (read e line pr w).2.trace
      = driverRecord w.trace ++ [Action.read line pr (read e line pr w).1] := by
  unfold driverRecord
  rw [read_trace, List.filter_append]
  have := driverRecord_tick e w
  unfold driverRecord at this
  rw [this]
  rfl

theorem driverRecord_bindDataChannel (e : Engine) (dc : ChanId) (w : World) :
    driverRecord (bindDataChannel e dc w).trace
      = driverRecord w.trace ++ [Action.call (EngineCall.RegisterObserver dc)] := by
  have h : (bindDataChannel e dc w).trace
      = (tick e w).trace ++ [Action.call (EngineCall.RegisterObserver dc)] := by
    simp [bindDataChannel, World.log, DataChannelObserver.SetDataChannel]
  unfold driverRecord
  rw [h, List.filter_append]
  have := driverRecord_tick e w
  unfold driverRecord at this
  rw [this]
  rfl

theorem driverRecord_setup (e : Engine) (dc : ChanId) (w : World)
    (hf : e.factory_ok = true) (h1 : e.pc1_ok = true) (h2 : e.pc2_ok = true)
    (hd : e.data_channel = some dc) (hs : setup e = Step.next w) :
    driverRecord w.trace = (setupCalls dc).map Action.call := by
  simp only [setup, hf, h1, h2, hd, Bool.not_true, Bool.false_eq_true, if_false] at hs
  injection hs with hs
  subst hs
  rw [driverRecord_bindDataChannel, driverRecord_call, driverRecord_call, driverRecord_call]
  have : driverRecord
      ({ call e EngineCall.CreatePeerConnectionFactory (call e EngineCall.InitializeSSL World.start)
          with observer1 := SimplePeerConnectionObserver.new "Peer1",
               observer2 := SimplePeerConnectionObserver.new "Peer2" } : World).trace
      = driverRecord (call e EngineCall.CreatePeerConnectionFactory
          (call e EngineCall.InitializeSSL World.start)).trace := rfl
  rw [this, driverRecord_call, driverRecord_call]
  rfl

theorem sleepCount_driverRecord (ph : Phase) (tr : List Action) :
    sleepCount ph (driverRecord tr) = sleepCount ph tr :=
  List.count_filter (show Action.isDriver (Action.sleep ph) = true from rfl)

/-! ## The shape of the poll loops -/

theorem filter_tick (e : Engine) (sel : Action → Bool)
    (hcb : CallbackClosed (fun a => sel a = false)) (w : World) :
    (tick e w).trace.filter sel = w.trace.filter sel :=
  (tick_adds e _ hcb w).filter_eq

theorem filter_read (e : Engine) (sel : Action → Bool)
    (hcb : CallbackClosed (fun a => sel a = false)) (line : Nat) (pr : Probe) (w : World)
    (hsel : ∀ v, sel (Action.read line pr v) = true) :
    (read e line pr w).2.trace.filter sel
      = w.trace.filter sel ++ [Action.read line pr (read e line pr w).1] := by
  rw [read_trace, List.filter_append, filter_tick e sel hcb]
  simp [hsel]

theorem filter_sleep (e : Engine) (sel : Action → Bool)
    (hcb : CallbackClosed (fun a => sel a = false)) (ph : Phase) (w : World)
    (hsel : sel (Action.sleep ph) = true) :
    (sleep e ph w).trace.filter sel = w.trace.filter sel ++ [Action.sleep ph] := by
  rw [sleep_trace, List.filter_append, filter_tick e sel hcb]
  simp [hsel]

/-- A wait on `IsSuccessful()`: its getter evaluations and sleeps are `k ≤ n`
polls that returned false, each followed by a sleep, and one more evaluation;
that one returned true unless the budget is used up. -/
theorem waitSuccessful_record (e : Engine) (sel : Action → Bool)
    (hcb : CallbackClosed (fun a => sel a = false)) (line : Nat) (pr : Probe) (ph : Phase)
    (hr : ∀ v, sel (Action.read line pr v) = true) (hs : sel (Action.sleep ph) = true)
    (n : Nat) :
    ∀ w : World, ∃ k v, k ≤ n ∧ (v = false → k = n)
      ∧ (waitSuccessful e line pr ph n w).trace.filter sel
          = w.trace.filter sel ++ pollRecord line pr ph k v := by
  induction n with
  | zero =>
    intro w
    exact ⟨0, (read e line pr w).1, Nat.le_refl _, fun _ => rfl,
      (by simp [waitSuccessful, filter_read e sel hcb line pr w hr, pollRecord])⟩
  | succ m ih =>
    intro w
    unfold waitSuccessful
    cases hv : (read e line pr w).1 with
    | true =>
      refine ⟨0, true, Nat.zero_le _, fun h => (by cases h), ?_⟩
      rw [if_pos rfl, filter_read e sel hcb line pr w hr, hv]
      rfl
    | false =>
      obtain ⟨k, v, hk, hfull, hrec⟩ := ih (sleep e ph (read e line pr w).2)
      refine ⟨k + 1, v, (by omega), fun h => (by rw [hfull h]), ?_⟩
      rw [if_neg (by simp), hrec, filter_sleep e sel hcb ph _ hs,
        filter_read e sel hcb line pr w hr, hv]
      simp [pollRecord]

/-- One evaluation of `!a(observer1) || !a(observer2)`: its entries, and its
value, which is false exactly when both getters returned true. -/
theorem notBoth_record (e : Engine) (sel : Action → Bool)
    (hcb : CallbackClosed (fun a => sel a = false)) (line : Nat) (a : Peer → Probe)
    (hr : ∀ p v, sel (Action.read line (a p) v) = true) (w : World) :
    ∃ c : Bool × Bool, (notBoth e line a w).1 = !bothTrue c
      ∧ (notBoth e line a w).2.trace.filter sel = w.trace.filter sel ++ condRecord line a c := by
  unfold notBoth
  cases h1 : (read e line (a Peer.pc1) w).1 with
  | false =>
    refine ⟨(false, false), (by simp [bothTrue]), ?_⟩
    rw [if_neg (by simp), filter_read e sel hcb line _ w (hr _), h1]
    rfl
  | true =>
    refine ⟨(true, (read e line (a Peer.pc2) (read e line (a Peer.pc1) w).2).1),
      (by simp [bothTrue]), ?_⟩
    rw [if_pos rfl, filter_read e sel hcb line _ _ (hr _), filter_read e sel hcb line _ w (hr _),
      h1]
    simp [condRecord]

/-- A wait on both observers: `its.length ≤ n` iterations, each an
evaluation in which not both getters returned true, followed by a sleep; then
the evaluation that ends the loop, in which both returned true unless the
budget is used up. -/
theorem waitBoth_record (e : Engine) (sel : Action → Bool)
    (hcb : CallbackClosed (fun a => sel a = false)) (line : Nat) (a : Peer → Probe)
    (ph : Phase) (hr : ∀ p v, sel (Action.read line (a p) v) = true)
    (hs : sel (Action.sleep ph) = true) (n : Nat) :
    ∀ w : World, ∃ (its : List (Bool × Bool)) (fin : Bool × Bool),
      its.length ≤ n ∧ (∀ c ∈ its, bothTrue c = false) ∧ (bothTrue fin = false → its.length = n)
      ∧ (waitBoth e line a ph n w).trace.filter sel
          = w.trace.filter sel ++ waitBothRecord line a ph its fin := by
  induction n with
  | zero =>
    intro w
    obtain ⟨c, _, hrec⟩ := notBoth_record e sel hcb line a hr w
    exact ⟨[], c, Nat.le_refl _, (by simp), fun _ => rfl, (by simpa [waitBoth, waitBothRecord] using hrec)⟩
  | succ m ih =>
    intro w
    obtain ⟨c, hc, hrec⟩ := notBoth_record e sel hcb line a hr w
    unfold waitBoth
    cases hb : bothTrue c with
    | true =>
      rw [hb] at hc
      refine ⟨[], c, Nat.zero_le _, (by simp), fun h => (by rw [hb] at h; cases h), ?_⟩
      rw [if_neg (by simp [hc]), hrec]
      rfl
    | false =>
      rw [hb] at hc
      obtain ⟨its, fin, hlen, hall, hfull, hrest⟩ := ih (sleep e ph (notBoth e line a w).2)
      refine ⟨c :: its, fin, (by simp; omega), ?_, fun h => (by simp [hfull h]), ?_⟩
      · intro x hx
        rcases List.mem_cons.mp hx with rfl | hx
        · exact hb
        · exact hall x hx
      · rw [if_pos (by simp [hc]), hrest, filter_sleep e sel hcb ph _ hs, hrec]
        simp [waitBothRecord]

/-- The gathering loop has the same shape, as far as its getter evaluations
and sleeps go; the relay batches lie between them. -/
theorem gatheringLoop_record (e : Engine) (n : Nat) :
    ∀ w : World, (gatheringLoop e n w).invalidated = false →
      ∃ (its : List (Bool × Bool)) (fin : Bool × Bool),
      its.length ≤ n ∧ (∀ c ∈ its, bothTrue c = false) ∧ (bothTrue fin = false → its.length = n)
      ∧ (gatheringLoop e n w).trace.filter (Action.inLoop 188 Phase.gathering)
          = w.trace.filter (Action.inLoop 188 Phase.gathering)
            ++ waitBothRecord 188 Probe.gatheringComplete Phase.gathering its fin := by
  have hcb : CallbackClosed (fun a => Action.inLoop 188 Phase.gathering a = false) :=
    ⟨fun _ => rfl, fun _ _ => rfl⟩
  have hr : ∀ p v, Action.inLoop 188 Phase.gathering
      (Action.read 188 (Probe.gatheringComplete p) v) = true := fun _ _ => rfl
  have hx : ∀ v : World, (LocalSignaling.ExchangeICECandidates e v).trace.filter
      (Action.inLoop 188 Phase.gathering) = v.trace.filter (Action.inLoop 188 Phase.gathering) :=
    fun v => (ExchangeICECandidates_adds e _ hcb rfl (fun _ _ => rfl) v).filter_eq
  induction n with
  | zero =>
    intro w _
    obtain ⟨c, _, hrec⟩ := notBoth_record e _ hcb 188 Probe.gatheringComplete hr w
    exact ⟨[], c, Nat.le_refl _, (by simp), fun _ => rfl,
      (by simpa [gatheringLoop, waitBothRecord] using hrec)⟩
  | succ m ih =>
    intro w hv
    obtain ⟨c, hc, hrec⟩ := notBoth_record e _ hcb 188 Probe.gatheringComplete hr w
    rcases gatheringLoop_cases e m w with ⟨hcond, heq⟩ | ⟨hcond, _, heq⟩ | ⟨hcond, _, _, heq⟩
      | ⟨_, _, hbad, heq⟩
    · have hb : bothTrue c = true := by
        rw [hcond] at hc
        cases hbt : bothTrue c
        · rw [hbt] at hc; cases hc
        · rfl
      refine ⟨[], c, Nat.zero_le _, (by simp), fun h => (by rw [hb] at h; cases h), ?_⟩
      rw [heq, hrec]
      rfl
    · have hb : bothTrue c = false := by
        rw [hcond] at hc
        cases hbt : bothTrue c
        · rfl
        · rw [hbt] at hc; cases hc
      rw [heq] at hv ⊢
      obtain ⟨its, fin, hlen, hall, hfull, hrest⟩ := ih _ hv
      refine ⟨c :: its, fin, (by simp; omega), ?_, fun h => (by simp [hfull h]), ?_⟩
      · intro x hx
        rcases List.mem_cons.mp hx with rfl | hx
        · exact hb
        · exact hall x hx
      · rw [hrest, filter_sleep e _ hcb Phase.gathering _ rfl, hrec]
        simp [waitBothRecord]
    · have hb : bothTrue c = false := by
        rw [hcond] at hc
        cases hbt : bothTrue c
        · rfl
        · rw [hbt] at hc; cases hc
      rw [heq] at hv ⊢
      obtain ⟨its, fin, hlen, hall, hfull, hrest⟩ := ih _ hv
      refine ⟨c :: its, fin, (by simp; omega), ?_, fun h => (by simp [hfull h]), ?_⟩
      · intro x hx
        rcases List.mem_cons.mp hx with rfl | hx
        · exact hb
        · exact hall x hx
      · rw [hrest, hx, filter_sleep e _ hcb Phase.gathering _ rfl, hrec]
        simp [waitBothRecord]
    · rw [heq, hbad] at hv
      cases hv

/-! ## How many sleeps a part of a run can add -/

theorem AddsSleeps.seq {b1 b2 : Phase → Nat} {w1 w2 w3 : World}
    (h12 : AddsSleeps b1 w1 w2) (h23 : AddsSleeps b2 w2 w3) :
    AddsSleeps (fun q => b1 q + b2 q) w1 w3 := by
  intro q
  have a := h12 q
  have b := h23 q
  simp only
  omega

theorem AddsSleeps.relax {b b' : Phase → Nat} {w1 w2 : World} (h : AddsSleeps b w1 w2)
    (hle : ∀ q, b q ≤ b' q) : AddsSleeps b' w1 w2 := by
  intro q
  have a := h q
  have c := hle q
  omega

theorem noSleep_callbackClosed : CallbackClosed (fun a => ∀ ph, a ≠ Action.sleep ph) :=
  ⟨fun _ _ h => (by cases h), fun _ _ _ h => (by cases h)⟩

theorem AddsSleeps.of_adds {w1 w2 : World}
    (h : Adds (fun a => ∀ ph, a ≠ Action.sleep ph) w1 w2) :
    AddsSleeps (fun _ => 0) w1 w2 := by
  intro q
  rw [sleepCount_of_adds (h.mono (fun a ha => ha q))]
  simp

theorem addsSleeps_read (e : Engine) (line : Nat) (pr : Probe) (w : World) :
    AddsSleeps (fun _ => 0) w (read e line pr w).2 :=
  AddsSleeps.of_adds
    (read_adds e _ noSleep_callbackClosed line pr (fun _ _ h => (by cases h)) w)

theorem addsSleeps_call (e : Engine) (c : EngineCall) (w : World) :
    AddsSleeps (fun _ => 0) w (call e c w) :=
  AddsSleeps.of_adds (call_adds e _ noSleep_callbackClosed c (fun _ h => (by cases h)) w)

theorem addsSleeps_notBoth (e : Engine) (line : Nat) (a : Peer → Probe) (w : World) :
    AddsSleeps (fun _ => 0) w (notBoth e line a w).2 :=
  AddsSleeps.of_adds
    (notBoth_adds e _ noSleep_callbackClosed line a (fun _ _ _ h => (by cases h)) w)

theorem addsSleeps_both (e : Engine) (line : Nat) (a : Peer → Probe) (w : World) :
    AddsSleeps (fun _ => 0) w (both e line a w).2 :=
  AddsSleeps.of_adds
    (both_adds e _ noSleep_callbackClosed line a (fun _ _ _ h => (by cases h)) w)

theorem addsSleeps_exchange (e : Engine) (w : World) :
    AddsSleeps (fun _ => 0) w (LocalSignaling.ExchangeICECandidates e w) :=
  AddsSleeps.of_adds
    (ExchangeICECandidates_adds e _ noSleep_callbackClosed (fun _ h => (by cases h))
      (fun _ _ _ h => (by cases h)) w)

theorem addsSleeps_sleep (e : Engine) (ph : Phase) (w : World) :
    AddsSleeps (only ph 1) w (sleep e ph w) := by
  intro q
  by_cases hq : q = ph
  · subst hq
    rw [sleepCount_sleep]
    simp [only]
  · have hadd : Adds (fun a => a ≠ Action.sleep q) w (sleep e ph w) :=
      sleep_adds e _ (sleep_callbackClosed q) ph (fun h => hq (by cases h; rfl)) w
    rw [sleepCount_of_adds hadd]
    simp

/-- A wait on `IsSuccessful()` with budget `n` sleeps at most `n` times. -/
theorem addsSleeps_waitSuccessful (e : Engine) (line : Nat) (pr : Probe) (ph : Phase)
    (n : Nat) : ∀ w : World, AddsSleeps (only ph n) w (waitSuccessful e line pr ph n w) := by
  induction n with
  | zero =>
    intro w
    exact (addsSleeps_read e line pr w).relax (fun _ => Nat.zero_le _)
  | succ m ih =>
    intro w
    unfold waitSuccessful
    split
    · exact (addsSleeps_read e line pr w).relax (fun _ => Nat.zero_le _)
    · refine (((addsSleeps_read e line pr w).seq (addsSleeps_sleep e ph _)).seq (ih _)).relax ?_
      intro q
      simp only [only]
      split <;> omega

/-- A wait on both observers with budget `n` sleeps at most `n` times. -/
theorem addsSleeps_waitBoth (e : Engine) (line : Nat) (a : Peer → Probe) (ph : Phase)
    (n : Nat) : ∀ w : World, AddsSleeps (only ph n) w (waitBoth e line a ph n w) := by
  induction n with
  | zero =>
    intro w
    exact (addsSleeps_notBoth e line a w).relax (fun _ => Nat.zero_le _)
  | succ m ih =>
    intro w
    unfold waitBoth
    split
    · refine (((addsSleeps_notBoth e line a w).seq (addsSleeps_sleep e ph _)).seq (ih _)).relax ?_
      intro q
      simp only [only]
      split <;> omega
    · exact (addsSleeps_notBoth e line a w).relax (fun _ => Nat.zero_le _)

/-- The gathering loop with budget `n` sleeps at most `n` times. -/
theorem addsSleeps_gatheringLoop (e : Engine) (n : Nat) :
    ∀ w : World, AddsSleeps (only Phase.gathering n) w (gatheringLoop e n w) := by
  induction n with
  | zero =>
    intro w
    exact (addsSleeps_notBoth e 188 _ w).relax (fun _ => Nat.zero_le _)
  | succ m ih =>
    intro w
    rcases gatheringLoop_cases e m w with ⟨_, heq⟩ | ⟨_, _, heq⟩ | ⟨_, _, _, heq⟩
      | ⟨_, _, _, heq⟩
    · rw [heq]
      exact (addsSleeps_notBoth e 188 _ w).relax (fun _ => Nat.zero_le _)
    · rw [heq]
      refine (((addsSleeps_notBoth e 188 _ w).seq (addsSleeps_sleep e Phase.gathering _)).seq
        (ih _)).relax ?_
      intro q
      simp only [only]
      split <;> omega
    · rw [heq]
      refine ((((addsSleeps_notBoth e 188 _ w).seq (addsSleeps_sleep e Phase.gathering _)).seq
        (addsSleeps_exchange e _)).seq (ih _)).relax ?_
      intro q
      simp only [only]
      split <;> omega
    · rw [heq]
      refine (((addsSleeps_notBoth e 188 _ w).seq (addsSleeps_sleep e Phase.gathering _)).seq
        (addsSleeps_exchange e _)).relax ?_
      intro q
      simp only [only]
      split <;> omega

/-- Setup, however it ends, only makes requests. -/
theorem setup_adds_all (e : Engine) (P : Action → Prop) (hcb : CallbackClosed P)
    (hc : ∀ c, P (Action.call c)) : Adds P World.start (setup e).world := by
  have a1 := call_adds e P hcb .InitializeSSL (hc _) World.start
  have a2 := a1.trans (call_adds e P hcb .CreatePeerConnectionFactory (hc _) _)
  have a3 := (a2.trans (Adds.update P _
    { call e .CreatePeerConnectionFactory (call e .InitializeSSL World.start) with
      observer1 := SimplePeerConnectionObserver.new "Peer1",
      observer2 := SimplePeerConnectionObserver.new "Peer2" } rfl)).trans
    (call_adds e P hcb (.CreatePeerConnectionOrError .pc1) (hc _) _)
  have a4 := a3.trans (call_adds e P hcb (.CreatePeerConnectionOrError .pc2) (hc _) _)
  have a5 := a4.trans
    (call_adds e P hcb (.CreateDataChannelOrError .pc1 "hello_channel") (hc _) _)
  unfold setup
  simp only
  split
  · exact a2
  · split
    · exact a3
    · split
      · exact a4
      · split
        · exact a5
        · rename_i dc _
          exact a5.trans (bindDataChannel_adds e P hcb dc (hc _) _)

theorem main_of_setup_done (e : Engine) (r : Result) (h : setup e = Step.done r) :
    main e = r := by
  simp [main, h]

theorem addsSleeps_offerCheck (e : Engine) (w : World) :
    AddsSleeps (only Phase.offer 50) w (offerCheck e w).2 := by
  have h0 : AddsSleeps (fun _ => 0) w { w with offer_observer := CreateSDPObserver.Create } :=
    AddsSleeps.of_adds (Adds.update _ w _ rfl)
  refine (((h0.seq (addsSleeps_call e (.CreateOffer .pc1) _)).seq
    (addsSleeps_waitSuccessful e 127 .offerSuccessful .offer 50 _)).seq
    (addsSleeps_read e 131 .offerSuccessful _)).relax ?_
  intro q
  simp

theorem addsSleeps_offerHandoff (e : Engine) (offer : SessionDescription) (w : World) :
    AddsSleeps (fun _ => 0) (offerCheck e w).2 (afterOffer e offer w).1 :=
  AddsSleeps.of_adds
    ((offerHandoff_adds e offer w).mono (fun a ha => by cases ha <;> (intro ph h; cases h)))

theorem addsSleeps_answerCheck (e : Engine) (d : Option SessionDescription) (w : World) :
    AddsSleeps (fun q => only Phase.settle 1 q + only Phase.answer 50 q) w
      (answerCheck e d w).2 := by
  have h0 : AddsSleeps (fun _ => 0) w { w with answer_observer := CreateSDPObserver.Create } :=
    AddsSleeps.of_adds (Adds.update _ w _ rfl)
  refine ((((((h0.seq (addsSleeps_call e (.SetRemoteDescription .pc2 d) _)).seq
    (addsSleeps_sleep e .settle _)).seq (addsSleeps_call e (.CreateAnswer .pc2) _)).seq
    (addsSleeps_waitSuccessful e 158 .answerSuccessful .answer 50 _)).seq
    (addsSleeps_read e 162 .answerSuccessful _))).relax ?_
  intro q
  simp

theorem addsSleeps_answerHandoff (e : Engine) (offer answer : SessionDescription) (w : World) :
    AddsSleeps (fun _ => 0) (answerCheckOf e offer w).2 (afterAnswer e offer answer w) :=
  AddsSleeps.of_adds
    ((answerHandoff_adds e offer answer w).mono
      (fun a ha => by cases ha <;> (intro ph h; cases h)))

theorem addsSleeps_gatheringStage (e : Engine) (w : World) :
    AddsSleeps (only Phase.gathering 100) w (gatheringStage e w) := by
  unfold gatheringStage
  split
  · exact addsSleeps_gatheringLoop e 100 w
  · refine ((addsSleeps_gatheringLoop e 100 w).seq (addsSleeps_exchange e _)).relax ?_
    intro q
    simp

theorem addsSleeps_connectionStage (e : Engine) (w : World) :
    AddsSleeps (fun q => only Phase.connection 100 q + only Phase.message 50 q) w
      (connectionStage e w) := by
  have h1 := (addsSleeps_waitBoth e 204 Probe.peerConnected Phase.connection 100 w).seq
    (addsSleeps_both e 208 Probe.peerConnected _)
  unfold connectionStage
  simp only
  split
  · refine ((h1.seq (addsSleeps_waitBoth e 214 Probe.receivedMessage Phase.message 50 _)).seq
      (addsSleeps_both e 218 Probe.receivedMessage _)).relax ?_
    intro q
    simp
  · refine h1.relax ?_
    intro q
    simp

theorem addsSleeps_report (e : Engine) (w : World) :
    AddsSleeps (fun _ => 0) w (report e w).world :=
  AddsSleeps.of_adds
    ((report_adds e w).mono (fun a ha => by cases ha <;> (intro ph h; cases h)))

/-- Every run, as far as it is followed, sleeps at most `budget ph` times in
each phase `ph`. -/
theorem main_sleeps_within (e : Engine) : AddsSleeps budget World.start (main e).world := by
  have hsetup : AddsSleeps (fun _ => 0) World.start (setup e).world :=
    AddsSleeps.of_adds
      (setup_adds_all e _ noSleep_callbackClosed (fun _ _ h => (by cases h)))
  cases hst : setup e with
  | done r =>
    rw [main_of_setup_done e r hst]
    rw [hst] at hsetup
    exact hsetup.relax (fun _ => Nat.zero_le _)
  | next w =>
    rw [hst] at hsetup
    have s2 := hsetup.seq (addsSleeps_offerCheck e w)
    rcases main_cases e w hst with ⟨_, hm⟩ | ⟨_, offer, _, hrest⟩
    · rw [hm]
      refine s2.relax ?_
      intro q
      cases q <;> simp [only, budget]
    · have s4 := (s2.seq (addsSleeps_offerHandoff e offer w)).seq
        (addsSleeps_answerCheck e (afterOffer e offer w).2 (afterOffer e offer w).1)
      rcases hrest with ⟨_, hm⟩ | ⟨_, answer, _, hm⟩
      · rw [hm]
        refine s4.relax ?_
        intro q
        cases q <;> simp [only, budget]
      · rw [hm]
        have s5 := (s4.seq (addsSleeps_answerHandoff e offer answer w)).seq
          (addsSleeps_gatheringStage e _)
        cases hg : (gatheringStage e (afterAnswer e offer answer w)).invalidated with
        | true =>
          rw [lateStages_of_invalidated e _ hg]
          refine s5.relax ?_
          intro q
          cases q <;> simp [only, budget]
        | false =>
          rw [lateStages_of_valid e _ hg]
          refine ((s5.seq (addsSleeps_connectionStage e _)).seq
            (addsSleeps_report e _)).relax ?_
          intro q
          cases q <;> simp [only, budget]

/-! ## The part of a run before the connection wait -/

/-- One evaluation of `a(observer1) && a(observer2)`: its entries, and its
value, which is true exactly when both getters returned true. -/
theorem both_record (e : Engine) (sel : Action → Bool)
    (hcb : CallbackClosed (fun a => sel a = false)) (line : Nat) (a : Peer → Probe)
    (hr : ∀ p v, sel (Action.read line (a p) v) = true) (w : World) :
    ∃ c : Bool × Bool, (both e line a w).1 = bothTrue c
      ∧ (both e line a w).2.trace.filter sel = w.trace.filter sel ++ condRecord line a c := by
  unfold both
  cases h1 : (read e line (a Peer.pc1) w).1 with
  | false =>
    refine ⟨(false, false), (by simp [bothTrue]), ?_⟩
    rw [if_neg (by simp), filter_read e sel hcb line _ w (hr _), h1]
    rfl
  | true =>
    refine ⟨(true, (read e line (a Peer.pc2) (read e line (a Peer.pc1) w).2).1),
      (by simp [bothTrue]), ?_⟩
    rw [if_pos rfl, filter_read e sel hcb line _ _ (hr _), filter_read e sel hcb line _ w (hr _),
      h1]
    simp [condRecord]

/-- A run that returns 0 is `report` applied to the connection stage, entered
in a state whose record holds only entries of the earlier parts. -/
theorem main_ok_form (e : Engine) (h : (main e).exit = some 0) :
    ∃ dc w0, main e = report e (connectionStage e w0) ∧ ∀ a ∈ w0.trace, PreConnection dc a := by
  obtain ⟨w, dc, hs, hw, _⟩ := setup_of_exit_zero e h
  rcases main_cases e w hs with ⟨_, hm⟩ | ⟨_, offer, _, hrest⟩
  · rw [hm] at h; cases h
  · rcases hrest with ⟨_, hm⟩ | ⟨_, answer, _, hm⟩
    · rw [hm] at h; cases h
    · refine ⟨dc, gatheringStage e (afterAnswer e offer answer w),
        hm.trans (lateStages_of_exit e _ 0 (by rw [← hm]; exact h)).2, ?_⟩
      intro a ha
      have hrec := answerCheck_record e dc offer w hw
      rcases (gatheringStage_adds e (afterAnswer e offer answer w)).mem_cases ha with h1 | h1
      · rcases (answerHandoff_adds e offer answer w).mem_cases h1 with h2 | h2
        · rcases hrec a h2 with ⟨s, hmem, hem⟩ | h3 | h3
          · refine Or.inl ⟨s, ?_, hem⟩
            simp only [List.mem_cons, List.mem_singleton, List.not_mem_nil, or_false] at hmem ⊢
            rcases hmem with rfl | rfl | rfl | rfl | rfl <;> simp
          · exact Or.inr (Or.inl ⟨_, h3⟩)
          · exact Or.inr (Or.inr ⟨_, h3⟩)
        · exact Or.inl ⟨Segment.answerHandoff, by simp, h2⟩
      · exact Or.inl ⟨Segment.gathering, by simp, h1⟩

/-- Nothing before the connection wait is a getter evaluation at a line
after 188 or a sleep of the connection or message wait. -/
theorem preConnection_silent (dc : ChanId) (sel : Action → Bool)
    (hcall : ∀ c, sel (Action.call c) = false) (hcb : ∀ c, sel (Action.callback c) = false)
    (htake : ∀ l d, sel (Action.take l d) = false) (hx : sel Action.exchange = false)
    (hread : ∀ l pr v, l ≤ 188 → sel (Action.read l pr v) = false)
    (hsleep : ∀ ph, ph ≠ Phase.connection → ph ≠ Phase.message → sel (Action.sleep ph) = false)
    (tr : List Action) (h : ∀ a ∈ tr, PreConnection dc a) : tr.filter sel = [] := by
  rw [List.filter_eq_nil_iff]
  intro a ha
  have key : sel a = false := by
    rcases h a ha with ⟨s, hs, hem⟩ | ⟨v, rfl⟩ | ⟨v, rfl⟩
    · simp only [List.mem_cons, List.mem_singleton, List.not_mem_nil, or_false] at hs
      rcases hs with rfl | rfl | rfl | rfl | rfl | rfl | rfl <;> cases hem <;>
        first
          | exact hcb _
          | exact hcall _
          | exact htake _ _
          | exact hx
          | exact hread _ _ _ (by decide)
          | exact hsleep _ (by decide) (by decide)
    · exact hread _ _ _ (by decide)
    · exact hread _ _ _ (by decide)
  simp [key]

/-! ## The message wait (C11) -/

/-- C11 as stated fails: with `neverConnectedEngine` the run gets past answer
creation and returns 0, the connection wait ends by timeout after 100 sleeps,
and then no `HasReceivedMessage()` is evaluated at line 214 or 218 and no
sleep of the message wait happens, although neither endpoint has received a
message. -/
theorem message_wait_skipped_after_connection_timeout :
    (main neverConnectedEngine).exit = some 0
    ∧ Action.read 162 Probe.answerSuccessful true ∈ (main neverConnectedEngine).world.trace
    ∧ sleepCount Phase.connection (main neverConnectedEngine).world.trace = 100
    ∧ sleepCount Phase.message (main neverConnectedEngine).world.trace = 0
    ∧ (main neverConnectedEngine).world.trace.filter (Action.atLine 214) = []
    ∧ (main neverConnectedEngine).world.trace.filter (Action.atLine 218) = []
    ∧ (main neverConnectedEngine).world.observer1.HasReceivedMessage = false
    ∧ (main neverConnectedEngine).world.observer2.HasReceivedMessage = false
    ∧ (main neverConnectedEngine).summary
        = some { peer1_connected := false, peer2_connected := false,
                 messages_exchanged := false } := by
  decide

theorem atLine_callbackClosed (line : Nat) :
    CallbackClosed (fun a => Action.atLine line a = false) :=
  ⟨fun _ => rfl, fun _ _ => rfl⟩

theorem inLoop_callbackClosed (line : Nat) (ph : Phase) :
    CallbackClosed (fun a => Action.inLoop line ph a = false) :=
  ⟨fun _ => rfl, fun _ _ => rfl⟩

/-- The connection stage and the report, entered in a state whose record has
no entry of lines 208, 214, 218 and no message sleep: the check at line 208 is
evaluated once; when both getters return true the message wait follows, and
when not, no entry of the message wait is added. -/
theorem connection_records (e : Engine) (w0 : World)
    (h208 : w0.trace.filter (Action.atLine 208) = [])
    (h214 : w0.trace.filter (Action.inLoop 214 Phase.message) = [])
    (h218 : w0.trace.filter (Action.atLine 218) = []) :
    ∃ c : Bool × Bool,
      (report e (connectionStage e w0)).world.trace.filter (Action.atLine 208)
        = condRecord 208 Probe.peerConnected c
      ∧ (bothTrue c = true →
          ∃ (its : List (Bool × Bool)) (fin : Bool × Bool),
            its.length ≤ 50 ∧ (∀ x ∈ its, bothTrue x = false)
            ∧ (bothTrue fin = false → its.length = 50)
            ∧ (report e (connectionStage e w0)).world.trace.filter
                (Action.inLoop 214 Phase.message)
              = waitBothRecord 214 Probe.receivedMessage Phase.message its fin)
      ∧ (bothTrue c = false →
          (report e (connectionStage e w0)).world.trace.filter
              (Action.inLoop 214 Phase.message) = []
          ∧ (report e (connectionStage e w0)).world.trace.filter (Action.atLine 218) = []) := by
  have c208 := atLine_callbackClosed 208
  have c218 := atLine_callbackClosed 218
  have c214 := inLoop_callbackClosed 214 Phase.message
  -- the three projections are blind to the report
  have r208 : ∀ v : World, (report e v).world.trace.filter (Action.atLine 208)
      = v.trace.filter (Action.atLine 208) := fun v =>
    ((report_adds e v).mono (fun a ha => by cases ha <;> rfl)).filter_eq
  have r214 : ∀ v : World, (report e v).world.trace.filter (Action.inLoop 214 Phase.message)
      = v.trace.filter (Action.inLoop 214 Phase.message) := fun v =>
    ((report_adds e v).mono (fun a ha => by cases ha <;> rfl)).filter_eq
  have r218 : ∀ v : World, (report e v).world.trace.filter (Action.atLine 218)
      = v.trace.filter (Action.atLine 218) := fun v =>
    ((report_adds e v).mono (fun a ha => by cases ha <;> rfl)).filter_eq
  -- the connection wait adds nothing to them
  have w208 : (waitBoth e 204 Probe.peerConnected Phase.connection 100 w0).trace.filter
      (Action.atLine 208) = [] := by
    rw [(waitBoth_adds e _ c208 204 Probe.peerConnected Phase.connection (fun _ _ => rfl) rfl
      100 w0).filter_eq, h208]
  have w214 : (waitBoth e 204 Probe.peerConnected Phase.connection 100 w0).trace.filter
      (Action.inLoop 214 Phase.message) = [] := by
    rw [(waitBoth_adds e _ c214 204 Probe.peerConnected Phase.connection (fun _ _ => rfl) rfl
      100 w0).filter_eq, h214]
  have w218 : (waitBoth e 204 Probe.peerConnected Phase.connection 100 w0).trace.filter
      (Action.atLine 218) = [] := by
    rw [(waitBoth_adds e _ c218 204 Probe.peerConnected Phase.connection (fun _ _ => rfl) rfl
      100 w0).filter_eq, h218]
  -- the check at line 208
  obtain ⟨c, hc, hrec⟩ := both_record e (Action.atLine 208) c208 208 Probe.peerConnected
    (fun _ _ => rfl) (waitBoth e 204 Probe.peerConnected Phase.connection 100 w0)
  rw [w208, List.nil_append] at hrec
  have k214 : (both e 208 Probe.peerConnected
      (waitBoth e 204 Probe.peerConnected Phase.connection 100 w0)).2.trace.filter
      (Action.inLoop 214 Phase.message) = [] := by
    rw [(both_adds e _ c214 208 Probe.peerConnected (fun _ _ => rfl) _).filter_eq, w214]
  have k218 : (both e 208 Probe.peerConnected
      (waitBoth e 204 Probe.peerConnected Phase.connection 100 w0)).2.trace.filter
      (Action.atLine 218) = [] := by
    rw [(both_adds e _ c218 208 Probe.peerConnected (fun _ _ => rfl) _).filter_eq, w218]
  refine ⟨c, ?_, ?_, ?_⟩
  · rw [r208]
    unfold connectionStage
    simp only
    split
    · rw [(both_adds e _ c208 218 Probe.receivedMessage (fun _ _ => rfl) _).filter_eq,
        (waitBoth_adds e _ c208 214 Probe.receivedMessage Phase.message (fun _ _ => rfl) rfl
          50 _).filter_eq, hrec]
    · exact hrec
  · intro hb
    rw [hb] at hc
    obtain ⟨its, fin, hlen, hall, hfull, hshape⟩ := waitBoth_record e
      (Action.inLoop 214 Phase.message) c214 214 Probe.receivedMessage Phase.message
      (fun _ _ => rfl) rfl 50
      (both e 208 Probe.peerConnected
        (waitBoth e 204 Probe.peerConnected Phase.connection 100 w0)).2
    refine ⟨its, fin, hlen, hall, hfull, ?_⟩
    rw [r214]
    unfold connectionStage
    simp only
    rw [if_pos hc, (both_adds e _ c214 218 Probe.receivedMessage (fun _ _ => rfl) _).filter_eq,
      hshape, k214, List.nil_append]
  · intro hb
    rw [hb] at hc
    have hstage : connectionStage e w0
        = (both e 208 Probe.peerConnected
            (waitBoth e 204 Probe.peerConnected Phase.connection 100 w0)).2 := by
      unfold connectionStage
      simp only
      rw [if_neg (by simp [hc])]
    rw [r214, r218, hstage]
    exact ⟨k214, k218⟩

/-- C11, amended: in a run that returns 0 (one that got past answer
creation, and in which no relay batch had the iterators of a range-for
invalidated) the check at line 208 is evaluated exactly once, after the
connection wait.  When it finds both endpoints connected, the message wait
follows: at most 50 iterations, each an evaluation at line 214 in which not
both endpoints had received a message followed by a sleep, and a last
evaluation in which both had unless the budget is used up.  When it does not
(the connection wait timed out), the run evaluates no `HasReceivedMessage()`
at line 214 or 218 and makes no sleep of the message wait; it goes on to the
summary and still returns 0. -/
theorem message_wait_runs_iff_connected (e : Engine) (hexit : (main e).exit = some 0) :
    ∃ c : Bool × Bool,
      (main e).world.trace.filter (Action.atLine 208) = condRecord 208 Probe.peerConnected c
      ∧ (bothTrue c = true →
          ∃ (its : List (Bool × Bool)) (fin : Bool × Bool),
            its.length ≤ 50 ∧ (∀ x ∈ its, bothTrue x = false)
            ∧ (bothTrue fin = false → its.length = 50)
            ∧ (main e).world.trace.filter (Action.inLoop 214 Phase.message)
              = waitBothRecord 214 Probe.receivedMessage Phase.message its fin)
      ∧ (bothTrue c = false →
          (main e).world.trace.filter (Action.inLoop 214 Phase.message) = []
          ∧ (main e).world.trace.filter (Action.atLine 218) = []
          ∧ sleepCount Phase.message (main e).world.trace = 0) := by
  obtain ⟨dc, w0, hm, hpre⟩ := main_ok_form e hexit
  have s208 := preConnection_silent dc (Action.atLine 208) (fun _ => rfl) (fun _ => rfl)
    (fun _ _ => rfl) rfl
    (fun l _ _ hl => by
      simp only [Action.atLine, beq_eq_false_iff_ne, ne_eq]
      omega)
    (fun _ _ _ => rfl) w0.trace hpre
  have s218 := preConnection_silent dc (Action.atLine 218) (fun _ => rfl) (fun _ => rfl)
    (fun _ _ => rfl) rfl
    (fun l _ _ hl => by
      simp only [Action.atLine, beq_eq_false_iff_ne, ne_eq]
      omega)
    (fun _ _ _ => rfl) w0.trace hpre
  have s214 := preConnection_silent dc (Action.inLoop 214 Phase.message) (fun _ => rfl)
    (fun _ => rfl) (fun _ _ => rfl) rfl
    (fun l _ _ hl => by
      simp only [Action.inLoop, beq_eq_false_iff_ne, ne_eq]
      omega)
    (fun ph _ hne => by
      simp only [Action.inLoop, beq_eq_false_iff_ne, ne_eq]
      exact hne) w0.trace hpre
  obtain ⟨c, h1, h2, h3⟩ := connection_records e w0 s208 s214 s218
  rw [hm]
  refine ⟨c, h1, h2, fun hb => ?_⟩
  obtain ⟨e1, e2⟩ := h3 hb
  refine ⟨e1, e2, ?_⟩
  unfold sleepCount
  rw [← List.count_filter
    (show Action.inLoop 214 Phase.message (Action.sleep Phase.message) = true from rfl), e1]
  rfl

/-- C11 amended, on `oneSidedEngine` (both endpoints connected, endpoint 2
never receives a message): the check at line 208 finds both connected, and the
message wait runs its 50 iterations. -/
theorem message_wait_runs_iff_connected_witness :
    sleepCount Phase.message (main oneSidedEngine).world.trace = 50
    ∧ ∃ c : Bool × Bool,
      (main oneSidedEngine).world.trace.filter (Action.atLine 208)
        = condRecord 208 Probe.peerConnected c
      ∧ (bothTrue c = true →
          ∃ (its : List (Bool × Bool)) (fin : Bool × Bool),
            its.length ≤ 50 ∧ (∀ x ∈ its, bothTrue x = false)
            ∧ (bothTrue fin = false → its.length = 50)
            ∧ (main oneSidedEngine).world.trace.filter (Action.inLoop 214 Phase.message)
              = waitBothRecord 214 Probe.receivedMessage Phase.message its fin)
      ∧ (bothTrue c = false →
          (main oneSidedEngine).world.trace.filter (Action.inLoop 214 Phase.message) = []
          ∧ (main oneSidedEngine).world.trace.filter (Action.atLine 218) = []
          ∧ sleepCount Phase.message (main oneSidedEngine).world.trace = 0) :=
  ⟨by decide, message_wait_runs_iff_connected oneSidedEngine (by decide)⟩

/-! ## Bounded poll loops (C12) -/

/-- C12: every poll loop of `main` is bounded by its budget, whatever the
observers report.  The driver's entries of the offer wait (after `CreateOffer`)
and of the answer wait (after `ExchangeSDPs`) are `k ≤ 50` polls that returned
false, each followed by a sleep, and one more evaluation, which returned true
unless `k = 50`.  The gathering loop (when no relay batch in it has the
iterators of a range-for invalidated), the connection wait and the message
wait consist of at most 100, 100 and 50 iterations, each an evaluation in
which not both getters returned true followed by a sleep, and a last
evaluation, in which both returned true unless the budget is used up.  So each
loop is left at the first evaluation that finds its condition met, and a loop
left with its condition unmet has run exactly its budget.  A whole run of
`main` in which no range-for is invalidated, wherever it returns, sleeps at
most 50, 50, 100, 100 and 50 times in the five loops (350 in all) and at most
once in `ExchangeSDPs`. -/
theorem poll_loops_bounded_by_budget (e : Engine) :
    (∀ w : World, ∃ k v, k ≤ 50 ∧ (v = false → k = 50)
        ∧ driverRecord (offerWait e w).trace
            = driverRecord w.trace ++ [Action.call (EngineCall.CreateOffer Peer.pc1)]
              ++ pollRecord 127 Probe.offerSuccessful Phase.offer k v)
    ∧ (∀ (d : Option SessionDescription) (w : World), ∃ k v, k ≤ 50 ∧ (v = false → k = 50)
        ∧ driverRecord (answerWait e d w).trace
            = driverRecord w.trace
              ++ [Action.call (EngineCall.SetRemoteDescription Peer.pc2 d),
                  Action.sleep Phase.settle, Action.call (EngineCall.CreateAnswer Peer.pc2)]
              ++ pollRecord 158 Probe.answerSuccessful Phase.answer k v)
    ∧ (∀ w : World, (gatheringLoop e 100 w).invalidated = false →
        ∃ (its : List (Bool × Bool)) (fin : Bool × Bool),
        its.length ≤ 100 ∧ (∀ c ∈ its, bothTrue c = false)
        ∧ (bothTrue fin = false → its.length = 100)
        ∧ (gatheringLoop e 100 w).trace.filter (Action.inLoop 188 Phase.gathering)
            = w.trace.filter (Action.inLoop 188 Phase.gathering)
              ++ waitBothRecord 188 Probe.gatheringComplete Phase.gathering its fin)
    ∧ (∀ w : World, ∃ (its : List (Bool × Bool)) (fin : Bool × Bool),
        its.length ≤ 100 ∧ (∀ c ∈ its, bothTrue c = false)
        ∧ (bothTrue fin = false → its.length = 100)
        ∧ driverRecord (waitBoth e 204 Probe.peerConnected Phase.connection 100 w).trace
            = driverRecord w.trace
              ++ waitBothRecord 204 Probe.peerConnected Phase.connection its fin)
    ∧ (∀ w : World, ∃ (its : List (Bool × Bool)) (fin : Bool × Bool),
        its.length ≤ 50 ∧ (∀ c ∈ its, bothTrue c = false)
        ∧ (bothTrue fin = false → its.length = 50)
        ∧ driverRecord (waitBoth e 214 Probe.receivedMessage Phase.message 50 w).trace
            = driverRecord w.trace
              ++ waitBothRecord 214 Probe.receivedMessage Phase.message its fin)
    ∧ ((main e).world.invalidated = false →
        sleepCount Phase.offer (main e).world.trace ≤ 50
        ∧ sleepCount Phase.answer (main e).world.trace ≤ 50
        ∧ sleepCount Phase.gathering (main e).world.trace ≤ 100
        ∧ sleepCount Phase.connection (main e).world.trace ≤ 100
        ∧ sleepCount Phase.message (main e).world.trace ≤ 50
        ∧ sleepCount Phase.settle (main e).world.trace ≤ 1
        ∧ pollSleeps (main e).world.trace ≤ 350) := by
  have hd := driver_callbackClosed
  refine ⟨?_, ?_, gatheringLoop_record e 100, ?_, ?_, ?_⟩
  · intro w
    obtain ⟨k, v, hk, hfull, hrec⟩ := waitSuccessful_record e Action.isDriver hd 127
      Probe.offerSuccessful Phase.offer (fun _ => rfl) rfl 50
      (call e (.CreateOffer .pc1) { w with offer_observer := CreateSDPObserver.Create })
    refine ⟨k, v, hk, hfull, ?_⟩
    have hc := driverRecord_call e (.CreateOffer .pc1)
      { w with offer_observer := CreateSDPObserver.Create }
    unfold driverRecord at hc ⊢
    unfold offerWait
    rw [hrec, hc]
  · intro d w
    obtain ⟨k, v, hk, hfull, hrec⟩ := waitSuccessful_record e Action.isDriver hd 158
      Probe.answerSuccessful Phase.answer (fun _ => rfl) rfl 50
      (LocalSignaling.ExchangeSDPs e d { w with answer_observer := CreateSDPObserver.Create })
    refine ⟨k, v, hk, hfull, ?_⟩
    have hc : driverRecord (LocalSignaling.ExchangeSDPs e d
        { w with answer_observer := CreateSDPObserver.Create }).trace
        = driverRecord w.trace
          ++ [Action.call (EngineCall.SetRemoteDescription Peer.pc2 d),
              Action.sleep Phase.settle, Action.call (EngineCall.CreateAnswer Peer.pc2)] := by
      unfold LocalSignaling.ExchangeSDPs
      rw [driverRecord_call, driverRecord_sleep, driverRecord_call]
      simp
    unfold driverRecord at hc ⊢
    unfold answerWait
    rw [hrec, hc]
  · intro w
    exact waitBoth_record e Action.isDriver hd 204 Probe.peerConnected Phase.connection
      (fun _ _ => rfl) rfl 100 w
  · intro w
    exact waitBoth_record e Action.isDriver hd 214 Probe.receivedMessage Phase.message
      (fun _ _ => rfl) rfl 50 w
  · intro _
    have h := main_sleeps_within e
    have o := h Phase.offer
    have a := h Phase.answer
    have g := h Phase.gathering
    have c := h Phase.connection
    have m := h Phase.message
    have s := h Phase.settle
    have z : ∀ ph, sleepCount ph World.start.trace = 0 := fun _ => rfl
    rw [z] at o a g c m s
    simp only [budget] at o a g c m s
    refine ⟨by omega, by omega, by omega, by omega, by omega, by omega, ?_⟩
    unfold pollSleeps
    omega

/-- C12 on `neverConnectedEngine`, where offer and answer arrive at once and
nothing else happens: no range-for is invalidated, the gathering loop and the
connection wait exhaust their budgets, and the run sleeps 200 times in its
poll loops.  On `candidateEngine`, where candidates are stored and relayed,
the gathering loop started from `World.start` has the stated shape. -/
theorem poll_loops_bounded_by_budget_witness :
    ((main neverConnectedEngine).world.invalidated = false
      ∧ sleepCount Phase.gathering (main neverConnectedEngine).world.trace = 100
      ∧ sleepCount Phase.connection (main neverConnectedEngine).world.trace = 100
      ∧ pollSleeps (main neverConnectedEngine).world.trace = 200)
    ∧ pollSleeps (main neverConnectedEngine).world.trace ≤ 350
    ∧ (gatheringLoop candidateEngine 100 World.start).invalidated = false
    ∧ ∃ (its : List (Bool × Bool)) (fin : Bool × Bool),
        its.length ≤ 100 ∧ (∀ c ∈ its, bothTrue c = false)
        ∧ (bothTrue fin = false → its.length = 100)
        ∧ (gatheringLoop candidateEngine 100 World.start).trace.filter
            (Action.inLoop 188 Phase.gathering)
          = World.start.trace.filter (Action.inLoop 188 Phase.gathering)
            ++ waitBothRecord 188 Probe.gatheringComplete Phase.gathering its fin :=
  ⟨by decide,
   ((poll_loops_bounded_by_budget neverConnectedEngine).2.2.2.2.2 (by decide)).2.2.2.2.2.2,
   by decide,
   (poll_loops_bounded_by_budget candidateEngine).2.2.1 World.start (by decide)⟩

/-! ## The completion signal of `CreateSDPObserver` (C13) -/

theorem SdpUse.foldl_success (uses : List SdpUse) :
    ∀ o : CreateSDPObserver,
      (uses.foldl SdpUse.apply o).success_
        = ((lastCallback uses).map SdpCallback.isSuccess).getD o.success_ := by
  induction uses with
  | nil => intro o; rfl
  | cons u rest ih =>
    intro o
    simp only [List.foldl_cons]
    rw [ih]
    cases u with
    | TakeCreatedSDP => rfl
    | callback cb =>
      cases hl : lastCallback rest with
      | some later => simp [lastCallback, hl]
      | none =>
        cases cb <;>
          simp [lastCallback, hl, SdpUse.apply, SdpCallback.deliver, SdpCallback.isSuccess,
            CreateSDPObserver.OnSuccess, CreateSDPObserver.OnFailure]

/-- A wait on a getter that stays false runs its whole budget: the driver's
entries are `n` polls with their sleeps and the evaluation that ends the
loop. -/
theorem waitSuccessful_never (e : Engine) (line : Nat) (pr : Probe) (ph : Phase)
    (hst : Stable e (fun w => w.probe pr = false)) (n : Nat) :
    ∀ w : World, w.probe pr = false →
      (waitSuccessful e line pr ph n w).probe pr = false
      ∧ driverRecord (waitSuccessful e line pr ph n w).trace
          = driverRecord w.trace ++ pollRecord line pr ph n false := by
  induction n with
  | zero =>
    intro w hw
    have hr : (read e line pr w).1 = false := hst.1 _ hw
    refine ⟨hst.read line pr hw, ?_⟩
    simp only [waitSuccessful, driverRecord_read, hr, pollRecord]
  | succ k ih =>
    intro w hw
    have hr : (read e line pr w).1 = false := hst.1 _ hw
    have hnext : (sleep e ph (read e line pr w).2).probe pr = false :=
      hst.sleep ph (hst.read line pr hw)
    obtain ⟨h1, h2⟩ := ih _ hnext
    unfold waitSuccessful
    rw [if_neg (by simp [hr])]
    refine ⟨h1, ?_⟩
    rw [h2, driverRecord_sleep, driverRecord_read, hr]
    simp [pollRecord]

theorem pollRecord_sleeps (line : Nat) (pr : Probe) (ph : Phase) (v : Bool) (k : Nat) :
    sleepCount ph (pollRecord line pr ph k v) = k := by
  induction k with
  | zero => simp [pollRecord, sleepCount]
  | succ j ih =>
    unfold sleepCount at ih ⊢
    simp [pollRecord, ih, List.count_cons]

theorem waitSuccessful_never_sleeps (e : Engine) (line : Nat) (pr : Probe) (ph : Phase)
    (hst : Stable e (fun w => w.probe pr = false)) (n : Nat) (w : World)
    (hw : w.probe pr = false) :
    sleepCount ph (waitSuccessful e line pr ph n w).trace = sleepCount ph w.trace + n := by
  have h := (waitSuccessful_never e line pr ph hst n w hw).2
  rw [← sleepCount_driverRecord, h]
  unfold sleepCount
  rw [List.count_append]
  have h1 := sleepCount_driverRecord ph w.trace
  have h2 := pollRecord_sleeps line pr ph false n
  unfold sleepCount at h1 h2
  rw [h1, h2]

/-- If the engine never calls `OnSuccess` on the offer observer, its
`IsSuccessful()` stays false, whatever else is delivered. -/
theorem offer_unsuccessful_stable (e : Engine)
    (hnever : ∀ k d, Event.offer (SdpCallback.OnSuccess d) ∉ e.events k) :
    Stable e (fun w => w.probe Probe.offerSuccessful = false) := by
  apply Stable.of_deliver_mem
  · intro w ev k hmem hw
    cases ev with
    | pc q cb => cases q <;> simpa [deliver, World.log, World.setObserver, World.probe] using hw
    | dcOnStateChange q => simpa [deliver, World.log, World.probe] using hw
    | dcOnMessage q buffer =>
      cases q <;> simpa [deliver, World.setObserver, World.probe] using hw
    | offer cb =>
      cases cb with
      | OnSuccess d => exact absurd hmem (hnever k d)
      | OnFailure err =>
        simp [deliver, World.probe, SdpCallback.deliver, CreateSDPObserver.OnFailure,
          CreateSDPObserver.IsSuccessful]
    | answer cb => simpa [deliver, World.probe] using hw
    | channelState c s => simpa [deliver, World.probe] using hw
  · intro w k hw; exact hw
  · intro w as hw; exact hw

/-- If the engine never calls `OnSuccess` on the answer observer, its
`IsSuccessful()` stays false, whatever else is delivered. -/
theorem answer_unsuccessful_stable (e : Engine)
    (hnever : ∀ k d, Event.answer (SdpCallback.OnSuccess d) ∉ e.events k) :
    Stable e (fun w => w.probe Probe.answerSuccessful = false) := by
  apply Stable.of_deliver_mem
  · intro w ev k hmem hw
    cases ev with
    | pc q cb => cases q <;> simpa [deliver, World.log, World.setObserver, World.probe] using hw
    | dcOnStateChange q => simpa [deliver, World.log, World.probe] using hw
    | dcOnMessage q buffer =>
      cases q <;> simpa [deliver, World.setObserver, World.probe] using hw
    | offer cb => simpa [deliver, World.probe] using hw
    | answer cb =>
      cases cb with
      | OnSuccess d => exact absurd hmem (hnever k d)
      | OnFailure err =>
        simp [deliver, World.probe, SdpCallback.deliver, CreateSDPObserver.OnFailure,
          CreateSDPObserver.IsSuccessful]
    | channelState c s => simpa [deliver, World.probe] using hw
  · intro w k hw; exact hw
  · intro w as hw; exact hw

/-- Without an `OnSuccess` on the offer observer the check at line 131
fails, after a wait that ran its whole budget. -/
theorem offerCheck_never (e : Engine) (w : World)
    (hnever : ∀ k d, Event.offer (SdpCallback.OnSuccess d) ∉ e.events k) :
    (offerCheck e w).1 = false
    ∧ driverRecord (offerCheck e w).2.trace
        = driverRecord w.trace ++ [Action.call (EngineCall.CreateOffer Peer.pc1)]
          ++ pollRecord 127 Probe.offerSuccessful Phase.offer 50 false
          ++ [Action.read 131 Probe.offerSuccessful false] := by
  have hst := offer_unsuccessful_stable e hnever
  have h0 : (fun v : World => v.probe Probe.offerSuccessful = false)
      { w with offer_observer := CreateSDPObserver.Create } := rfl
  obtain ⟨hp, hrec⟩ := waitSuccessful_never e 127 Probe.offerSuccessful Phase.offer hst 50 _
    (hst.call (EngineCall.CreateOffer Peer.pc1) h0)
  have hv : (offerCheck e w).1 = false := hst.1 _ hp
  refine ⟨hv, ?_⟩
  have hrd := driverRecord_read e 131 Probe.offerSuccessful (offerWait e w)
  have hv' : (read e 131 Probe.offerSuccessful (offerWait e w)).1 = false := hv
  rw [hv'] at hrd
  show driverRecord (read e 131 Probe.offerSuccessful (offerWait e w)).2.trace = _
  rw [hrd]
  unfold offerWait
  rw [hrec, driverRecord_call]

/-- Without an `OnSuccess` on the answer observer the check at line 162
fails, after a wait that slept 50 times. -/
theorem answerCheck_never (e : Engine) (d : Option SessionDescription) (w : World)
    (hnever : ∀ k d, Event.answer (SdpCallback.OnSuccess d) ∉ e.events k) :
    (answerCheck e d w).1 = false
    ∧ sleepCount Phase.answer (answerCheck e d w).2.trace
        = sleepCount Phase.answer w.trace + 50 := by
  have hst := answer_unsuccessful_stable e hnever
  have h0 : (fun v : World => v.probe Probe.answerSuccessful = false)
      { w with answer_observer := CreateSDPObserver.Create } := rfl
  have hx : (LocalSignaling.ExchangeSDPs e d
      { w with answer_observer := CreateSDPObserver.Create }).probe Probe.answerSuccessful
      = false :=
    hst.call _ (hst.sleep _ (hst.call _ h0))
  have hp := (waitSuccessful_never e 158 Probe.answerSuccessful Phase.answer hst 50 _ hx).1
  have hsl := waitSuccessful_never_sleeps e 158 Probe.answerSuccessful Phase.answer hst 50 _ hx
  refine ⟨hst.1 _ hp, ?_⟩
  have hpre : sleepCount Phase.answer (LocalSignaling.ExchangeSDPs e d
      { w with answer_observer := CreateSDPObserver.Create }).trace
      = sleepCount Phase.answer w.trace := by
    have hadd : Adds (fun a => a ≠ Action.sleep Phase.answer) w
        (LocalSignaling.ExchangeSDPs e d
          { w with answer_observer := CreateSDPObserver.Create }) :=
      (Adds.update _ w { w with answer_observer := CreateSDPObserver.Create } rfl).trans
        (((call_adds e _ (sleep_callbackClosed _) _ (by simp) _).trans
          (sleep_adds e _ (sleep_callbackClosed _) _ (by simp) _)).trans
          (call_adds e _ (sleep_callbackClosed _) _ (by simp) _))
    exact sleepCount_of_adds hadd
  show sleepCount Phase.answer (read e 162 Probe.answerSuccessful (answerWait e d w)).2.trace = _
  rw [sleepCount_read]
  unfold answerWait
  rw [hsl, hpre]

/-- C13: `IsSuccessful()` of a `CreateSDPObserver` is true exactly when the
most recent callback it received is `OnSuccess` (false when it has received
none); `OnFailure` makes it false, also after an `OnSuccess`, whose
description stays stored; `TakeCreatedSDP` leaves it as it is.  In a run that
gets through setup: if the engine never calls `OnSuccess` on the offer
observer (whether it calls `OnFailure` or nothing at all), the driver does
exactly what `offerTimeoutRecord` lists (50 polls with their sleeps, then
the failed check) and `main` returns -1 without a summary; and if it never
calls `OnSuccess` on the answer observer, `main` returns -1, after 50 sleeps
of the answer wait when the offer check had succeeded. -/
theorem creation_failure_looks_like_no_result (e : Engine) (dc : ChanId)
    (hf : e.factory_ok = true) (h1 : e.pc1_ok = true) (h2 : e.pc2_ok = true)
    (hd : e.data_channel = some dc) :
    (∀ uses : List SdpUse,
        (uses.foldl SdpUse.apply CreateSDPObserver.Create).IsSuccessful = true
          ↔ ∃ desc, lastCallback uses = some (SdpCallback.OnSuccess desc))
    ∧ (∀ (o : CreateSDPObserver) (desc : SessionDescription) (error : String),
        (o.OnFailure error).IsSuccessful = false
        ∧ ((o.OnSuccess desc).OnFailure error).IsSuccessful = false
        ∧ ((o.OnSuccess desc).OnFailure error).created_sdp_ = some desc)
    ∧ (∀ o : CreateSDPObserver, o.TakeCreatedSDP.2.IsSuccessful = o.IsSuccessful)
    ∧ ((∀ k desc, Event.offer (SdpCallback.OnSuccess desc) ∉ e.events k) →
        (main e).exit = some (-1)
        ∧ (main e).summary = none
        ∧ driverRecord (main e).world.trace = offerTimeoutRecord dc
        ∧ sleepCount Phase.offer (main e).world.trace = 50)
    ∧ ((∀ k desc, Event.answer (SdpCallback.OnSuccess desc) ∉ e.events k) →
        (main e).exit = some (-1)
        ∧ (Action.read 131 Probe.offerSuccessful true ∈ (main e).world.trace →
            sleepCount Phase.answer (main e).world.trace = 50)) := by
  obtain ⟨w, hs, hw⟩ := setup_next e dc hf h1 h2 hd
  refine ⟨?_, ?_, fun _ => rfl, ?_, ?_⟩
  · intro uses
    have h := SdpUse.foldl_success uses CreateSDPObserver.Create
    unfold CreateSDPObserver.IsSuccessful
    rw [h]
    cases hl : lastCallback uses with
    | none => simp [CreateSDPObserver.Create]
    | some cb => cases cb <;> simp [SdpCallback.isSuccess]
  · intro o desc error
    exact ⟨rfl, rfl, rfl⟩
  · intro hnever
    obtain ⟨hv, hrec⟩ := offerCheck_never e w hnever
    have hmain : main e
        = { exit := some (-1), summary := none, world := (offerCheck e w).2 } := by
      rcases main_cases e w hs with ⟨_, hm⟩ | ⟨ht, _⟩
      · exact hm
      · rw [hv] at ht; cases ht
    have hdr : driverRecord (main e).world.trace = offerTimeoutRecord dc := by
      rw [hmain]
      show driverRecord (offerCheck e w).2.trace = _
      rw [hrec, driverRecord_setup e dc w hf h1 h2 hd hs]
      rfl
    refine ⟨by rw [hmain], by rw [hmain], hdr, ?_⟩
    rw [← sleepCount_driverRecord, hdr]
    unfold offerTimeoutRecord sleepCount
    rw [List.count_append, List.count_append, List.count_append]
    have hp := pollRecord_sleeps 127 Probe.offerSuccessful Phase.offer false 50
    unfold sleepCount at hp
    rw [hp]
    simp [setupCalls]
  · intro hnever
    rcases main_cases e w hs with ⟨hv, hm⟩ | ⟨_, offer, _, hrest⟩
    · refine ⟨by rw [hm], ?_⟩
      intro hmem
      exfalso
      rw [hm] at hmem
      have hrec := offerCheck_record e dc w hw
      rw [hv] at hrec
      rcases hrec _ hmem with h | h
      · exact not_emits_check131 _ _ h
      · cases h
    · obtain ⟨hv2, hsl⟩ := answerCheck_never e (afterOffer e offer w).2 (afterOffer e offer w).1
        hnever
      rcases hrest with ⟨_, hm⟩ | ⟨ht, _⟩
      · refine ⟨by rw [hm], fun _ => ?_⟩
        rw [hm]
        show sleepCount Phase.answer
          (answerCheck e (afterOffer e offer w).2 (afterOffer e offer w).1).2.trace = 50
        rw [hsl]
        have hpre : Adds (fun a => a ≠ Action.sleep Phase.answer) World.start
            (afterOffer e offer w).1 :=
          (((hw.mono (fun a ha => by cases ha <;> simp)).trans
            ((offerWait_adds e w).mono (fun a ha => by cases ha <;> simp))).trans
            (read_adds e _ (sleep_callbackClosed _) 131 _ (fun _ => by simp) _)).trans
            ((offerHandoff_adds e offer w).mono (fun a ha => by cases ha <;> simp))
        rw [sleepCount_of_adds hpre]
        rfl
      · have : (answerCheckOf e offer w).1 = false := hv2
        rw [this] at ht
        cases ht

/-- C13 on `offerFailureEngine`, which reports the failure of the offer
creation twice: the driver's record is the same `offerTimeoutRecord` as
without any callback, and the run returns -1. -/
theorem creation_failure_looks_like_no_result_witness :
    (main offerFailureEngine).exit = some (-1)
    ∧ (main offerFailureEngine).summary = none
    ∧ driverRecord (main offerFailureEngine).world.trace = offerTimeoutRecord 0
    ∧ sleepCount Phase.offer (main offerFailureEngine).world.trace = 50 :=
  (creation_failure_looks_like_no_result offerFailureEngine 0 rfl rfl rfl rfl).2.2.2.1
    (fun k desc => by
      simp only [offerFailureEngine]
      split
      · simp
      · split <;> simp)

end WebrtcExample
